import Mathlib

/-!
# Pairing bot server: rate limiter, session registry and pairing attempts

A shallow embedding of `src/index.js`.  JavaScript `Map`s are insertion-ordered
association lists, `Date.now()` is an explicit integer argument (milliseconds),
and the asynchronous handlers are explicit state passing.
-/

namespace PairServer

/-! ## JavaScript `Map` -/

/-- A JavaScript `Map`: entries in insertion order. -/
abbrev JsMap (κ : Type) (ν : Type) := List (κ × ν)

namespace JsMap

variable {κ ν : Type} [DecidableEq κ]

/-- `Map.prototype.get`: the value stored under `k`, `none` for `undefined`. -/
def get : JsMap κ ν → κ → Option ν
  | [], _ => none
  | (k', v) :: m, k => if k' = k then some v else get m k

/-- `Map.prototype.set`: an existing key keeps its position and takes the new
value, a new key is appended. -/
def set : JsMap κ ν → κ → ν → JsMap κ ν
  | [], k, v => [(k, v)]
  | (k', v') :: m, k, v => if k' = k then (k, v) :: m else (k', v') :: set m k v

/-- `Map.prototype.delete`. -/
def delete (m : JsMap κ ν) (k : κ) : JsMap κ ν :=
  m.filter (fun e => decide (e.1 ≠ k))

end JsMap

/-! ## Constants (`src/index.js` lines 26-32) -/

def RATE_LIMIT_WINDOW : Int := 24 * 60 * 60 * 1000
def MAX_REQUESTS_PER_WINDOW : Int := 2
def CONNECTION_TIMEOUT : Int := 180000
def MAX_RETRIES : Nat := 2
def CLEANUP_INTERVAL : Int := 3 * 60 * 1000
def REQUEST_TIMEOUT : Int := 3 * 60 * 1000

/-! ## Rate limiter (`checkRateLimit`, lines 210-228) -/

/-- The object stored in `rateLimiter` for one user. -/
structure RateWindow where
  count : Int
  windowStart : Int
  deriving DecidableEq, Repr

/-- The `rateLimiter` map: Telegram user id to window. -/
abbrev RateLimiter := JsMap Int RateWindow

/-- `checkRateLimit(userId, username)` at `Date.now() = now`.  `username` is
`none` when Telegram reports no username.  The object returned by
`rateLimiter.get` is the stored object itself, so the reset of an expired
window (lines 216-219) writes through to the map before the quota test; that
aliasing is the `rl1` below. -/
def checkRateLimit (rl : RateLimiter) (userId : Int) (username : Option String)
    (now : Int) : Bool × RateLimiter :=
  if username = some "firekidffx" then (true, rl)
  else
    let stored := JsMap.get rl userId
    let userLimits : RateWindow := stored.getD { count := 0, windowStart := now }
    let userLimits1 : RateWindow :=
      if now - userLimits.windowStart > RATE_LIMIT_WINDOW then
        { count := 0, windowStart := now }
      else userLimits
    let rl1 : RateLimiter :=
      if stored.isSome then JsMap.set rl userId userLimits1 else rl
    if userLimits1.count ≥ MAX_REQUESTS_PER_WINDOW then (false, rl1)
    else (true, JsMap.set rl1 userId { userLimits1 with count := userLimits1.count + 1 })

/-- A run of calls by one user at the given times: the answers in order and
the final map. -/
def checkRateLimitSeq (rl : RateLimiter) (userId : Int) (username : Option String) :
    List Int → List Bool × RateLimiter
  | [] => ([], rl)
  | now :: ts =>
    let r := checkRateLimit rl userId username now
    let rest := checkRateLimitSeq r.2 userId username ts
    (r.1 :: rest.1, rest.2)

/-! ## Session registry (`activeSessions`) -/

/-- The `status` field of a registry entry. -/
inductive Status where
  | waiting_for_auth
  | connecting
  | connected
  deriving DecidableEq, Repr

/-- An object stored in `activeSessions`.  A socket is named by a number; the
`savedToGitHub` field exists only on the entries written by
`handleSuccessfulConnection`. -/
structure SessionEntry where
  userId : Int
  phoneNumber : String
  timestamp : Int
  status : Status
  socket : Nat
  authDir : String
  savedToGitHub : Option Bool
  deriving DecidableEq, Repr

/-- The `activeSessions` map: temporary key or session id to entry. -/
abbrev ActiveSessions := JsMap String SessionEntry

/-- The template literal `temp_${userId}_${phoneNumber}` (lines 383 and 506). -/
def tempKey (userId : Int) (phoneNumber : String) : String :=
  "temp_" ++ toString userId ++ "_" ++ phoneNumber

/-- One hexadecimal digit as `Buffer.toString('hex')` prints it. -/
def hexDigit (n : Nat) : Char :=
  if n < 10 then Char.ofNat (48 + n) else Char.ofNat (87 + n)

/-- Characters of `crypto.randomBytes(8).toString('hex').toUpperCase()` for the
given bytes (lines 542 and 586). -/
def sessionIdChars : List (Fin 256) → List Char
  | [] => []
  | b :: bs =>
    (hexDigit (b.val / 16)).toUpper :: (hexDigit (b.val % 16)).toUpper :: sessionIdChars bs

/-- The session id generated from the random bytes. -/
def newSessionId (bytes : List (Fin 256)) : String := String.mk (sessionIdChars bytes)

/-- `String.prototype.startsWith`. -/
def startsWith (s pre : String) : Bool := pre.data.isPrefixOf s.data

/-- What `await gitHubStorage.saveSession(...)` did: it returned an object with
the given `success` field, or it threw. -/
inductive ArchiveOutcome where
  | returned (success : Bool)
  | threw
  deriving DecidableEq, Repr

/-- The arguments of one call of `gitHubStorage.saveSession`. -/
structure SaveSessionCall where
  sessionId : String
  phoneNumber : String
  authDir : String
  userId : Int
  deriving DecidableEq, Repr

/-- The value of `githubSaveSuccess` after lines 385-391. -/
def githubSaveSuccess : ArchiveOutcome → Bool
  | .returned success => success
  | .threw => false

/-- `handleSuccessfulConnection(socket, sessionId, phoneNumber, userId, authDir)`,
lines 381-396, with `Date.now() = now`: the registry afterwards and the calls
of `saveSession` made.  The messages sent afterwards (lines 398-433) do not
touch the registry and their failures are caught. -/
def handleSuccessfulConnection (reg : ActiveSessions) (archive : ArchiveOutcome) (now : Int)
    (socket : Nat) (sessionId phoneNumber : String) (userId : Int) (authDir : String) :
    ActiveSessions × List SaveSessionCall :=
  let reg1 := JsMap.delete reg (tempKey userId phoneNumber)
  let calls : List SaveSessionCall :=
    [{ sessionId := sessionId, phoneNumber := phoneNumber, authDir := authDir, userId := userId }]
  let reg2 := JsMap.set reg1 sessionId
    { userId := userId, phoneNumber := phoneNumber, timestamp := now, status := .connected,
      socket := socket, authDir := authDir, savedToGitHub := some (githubSaveSuccess archive) }
  (reg2, calls)

/-- The test of line 442. -/
def isWaitingOf (userId : Int) (data : SessionEntry) : Bool :=
  decide (data.userId = userId)
    && (decide (data.status = .waiting_for_auth) || decide (data.status = .connecting))

/-- The loop at the start of `generatePairingCode` (lines 441-447): the
registry afterwards and the sockets passed to `cleanupSocket`. -/
def evictWaiting (reg : ActiveSessions) (userId : Int) : ActiveSessions × List Nat :=
  (reg.filter (fun e => !isWaitingOf userId e.2),
   (reg.filter (fun e => isWaitingOf userId e.2)).map (fun e => e.2.socket))

/-- The registration of line 506 with `Date.now() = now`. -/
def registerWaiting (reg : ActiveSessions) (userId : Int) (phoneNumber : String) (socket : Nat)
    (authDir : String) (now : Int) : ActiveSessions :=
  JsMap.set reg (tempKey userId phoneNumber)
    { userId := userId, phoneNumber := phoneNumber, timestamp := now,
      status := .waiting_for_auth, socket := socket, authDir := authDir, savedToGitHub := none }

/-- The `disconnect_session` action (lines 1023-1038): the registry afterwards,
the sockets passed to `cleanupSocket` and the value of `disconnected`. -/
def disconnectSession (reg : ActiveSessions) (userId : Int) : ActiveSessions × List Nat × Nat :=
  let sessionsToRemove := (reg.filter (fun e => decide (e.2.userId = userId))).map (fun e => e.1)
  (sessionsToRemove.foldl (fun m id => JsMap.delete m id) reg,
   (reg.filter (fun e => decide (e.2.userId = userId))).map (fun e => e.2.socket),
   sessionsToRemove.length)

/-- The keys collected by the first loop of `cleanupStaleSessions` (lines 320-324). -/
def staleSessions (reg : ActiveSessions) (now : Int) : List String :=
  (reg.filter (fun e => startsWith e.1 "temp_" && decide (now - e.2.timestamp > CLEANUP_INTERVAL))).map
    (fun e => e.1)

/-- `cleanupStaleSessions` at `Date.now() = now` with its deferred deletions
completed (lines 316-340): the registry afterwards and the sockets passed to
`cleanupSocket`. -/
def cleanupStaleSessions (reg : ActiveSessions) (now : Int) : ActiveSessions × List Nat :=
  ((staleSessions reg now).foldl (fun m id => JsMap.delete m id) reg,
   (staleSessions reg now).filterMap (fun id => (JsMap.get reg id).map (fun d => d.socket)))

/-- The number of entries of `userId` whose status is `waiting_for_auth` or
`connecting`. -/
def waitingCount (reg : ActiveSessions) (userId : Int) : Nat :=
  (reg.filter (fun e => isWaitingOf userId e.2)).length

/-- The registry together with the attempts that have run the eviction loop
and have not yet been issued a code, and the sockets closed so far. -/
structure RegistryState where
  activeSessions : ActiveSessions
  inFlight : List (Int × String)
  closed : List Nat
  deriving DecidableEq, Repr

/-- The operations on the registry. -/
inductive RegistryOp where
  /-- `generatePairingCode(phoneNumber, userId)` is entered: eviction loop. -/
  | startAttempt (userId : Int) (phoneNumber : String)
  /-- `requestPairingCode` of a started attempt succeeded: line 506. -/
  | codeIssued (userId : Int) (phoneNumber : String) (socket : Nat) (authDir : String) (now : Int)
  /-- The socket reported `open`: `handleSuccessfulConnection`. -/
  | connectionOpen (socket : Nat) (bytes : List (Fin 256)) (phoneNumber : String) (userId : Int)
      (authDir : String) (archive : ArchiveOutcome) (now : Int)
  /-- The user pressed disconnect. -/
  | disconnect (userId : Int)
  /-- The cleanup sweep. -/
  | sweep (now : Int)
  deriving DecidableEq, Repr

/-- The effect of one operation. -/
def RegistryState.apply (s : RegistryState) : RegistryOp → RegistryState
  | .startAttempt userId phoneNumber =>
    let r := evictWaiting s.activeSessions userId
    { activeSessions := r.1, inFlight := s.inFlight ++ [(userId, phoneNumber)],
      closed := s.closed ++ r.2 }
  | .codeIssued userId phoneNumber socket authDir now =>
    if (userId, phoneNumber) ∈ s.inFlight then
      { s with
        activeSessions := registerWaiting s.activeSessions userId phoneNumber socket authDir now,
        inFlight := s.inFlight.erase (userId, phoneNumber) }
    else s
  | .connectionOpen socket bytes phoneNumber userId authDir archive now =>
    { s with
      activeSessions :=
        (handleSuccessfulConnection s.activeSessions archive now socket (newSessionId bytes)
          phoneNumber userId authDir).1 }
  | .disconnect userId =>
    let r := disconnectSession s.activeSessions userId
    { s with activeSessions := r.1, closed := s.closed ++ r.2.1 }
  | .sweep now =>
    let r := cleanupStaleSessions s.activeSessions now
    { s with activeSessions := r.1, closed := s.closed ++ r.2 }

/-- The state reached from the empty registry by a sequence of operations. -/
def RegistryState.run (ops : List RegistryOp) : RegistryState :=
  ops.foldl RegistryState.apply { activeSessions := [], inFlight := [], closed := [] }

/-- The bytes that `crypto.randomBytes` gave the operation (lines 542 and
586), if it drew any. -/
def RegistryOp.randomBytes : RegistryOp → Option (List (Fin 256))
  | .connectionOpen _ bytes _ _ _ _ _ => some bytes
  | _ => none

/-- Every entry of the registry is either a waiting entry under the temporary
key of its own user and phone, or a connected entry under a session id made
from random bytes that satisfy `P`. -/
def KeyInv (P : List (Fin 256) → Prop) (reg : ActiveSessions) : Prop :=
  ∀ e ∈ reg,
    (e.2.status = .waiting_for_auth ∧ e.1 = tempKey e.2.userId e.2.phoneNumber)
      ∨ (e.2.status = .connected ∧ ∃ bytes, P bytes ∧ e.1 = newSessionId bytes)

/-- An upper-case hexadecimal digit. -/
def isUpperHex (c : Char) : Bool := "0123456789ABCDEF".data.contains c

/-! ## One pairing attempt (`generatePairingCode`, lines 480-624) -/

/-- `String.prototype.includes` on character lists. -/
def includesChars (sub : List Char) : List Char → Bool
  | [] => sub.isEmpty
  | c :: cs => sub.isPrefixOf (c :: cs) || includesChars sub cs

/-- `String.prototype.includes`. -/
def includes (s sub : String) : Bool := includesChars sub.data s.data

/-- How the promise of lines 480-624 is settled: `resolve({ code })`,
`reject({ retry: true, retryCount })` or `reject(new Error(message))`. -/
inductive Settlement where
  | resolved (code : String)
  | retry (retryCount : Nat)
  | error (message : String)
  deriving DecidableEq, Repr

/-- The settlement chosen by the `catch` block of the code request (lines
513-533) from `error.output?.statusCode` and `error.message`. -/
def requestFailure (retryCount : Nat) (statusCode : Option Int) (message : String) : Settlement :=
  if statusCode = some 428 ∨ statusCode = some 405 ∨ includes message "Connection Closed" then
    if retryCount < MAX_RETRIES then .retry (retryCount + 1)
    else .error "WhatsApp blocked requests. Try again in 2-4 hours."
  else if statusCode = some 403 then .error "Number blocked. Use different number."
  else if statusCode = some 429 then .error "Rate limited. Wait 2 hours."
  else .error ("Failed: " ++ (if message = "" then "Unknown error" else message))

/-- The settlement chosen for a close before any code was issued (lines
610-620) from `lastDisconnect?.error?.output?.statusCode`. -/
def closeBeforeCode (retryCount : Nat) (statusCode : Option Int) : Settlement :=
  if statusCode = some 428 ∨ statusCode = some 405 then
    if retryCount < MAX_RETRIES then .retry (retryCount + 1)
    else .error "WhatsApp rejected connection. Try in 2-4 hours."
  else .error "Connection failed"

/-- The outcome classes of the specification (section 7), with `retry` for the
internal retry and `codeIssued` for the success path. -/
inductive OutcomeClass where
  | codeIssued
  | retry
  | Timeout
  | Blocked
  | NumberBlocked
  | RateLimitedByRemote
  | ReconnectFailed
  | Unknown
  deriving DecidableEq, Repr

/-- The outcome class of a settlement, read off the message of the rejection. -/
def Settlement.outcomeClass : Settlement → OutcomeClass
  | .resolved _ => .codeIssued
  | .retry _ => .retry
  | .error message =>
    if message = "Connection timeout" then .Timeout
    else if message = "WhatsApp blocked requests. Try again in 2-4 hours."
        ∨ message = "WhatsApp rejected connection. Try in 2-4 hours." then .Blocked
    else if message = "Number blocked. Use different number." then .NumberBlocked
    else if message = "Rate limited. Wait 2 hours." then .RateLimitedByRemote
    else if message = "Reconnect failed. Try again." ∨ message = "Reconnect failed" then
      .ReconnectFailed
    else .Unknown

/-- The classification of a failed code request in the words of the
specification (section 4.2, step 4): by status code and retry count alone. -/
def specRequestFailureClass (retryCount : Nat) (statusCode : Option Int) : OutcomeClass :=
  if statusCode = some 428 ∨ statusCode = some 405 then
    if retryCount < 2 then .retry else .Blocked
  else if statusCode = some 403 then .NumberBlocked
  else if statusCode = some 429 then .RateLimitedByRemote
  else .Unknown

/-- The `connection` field of a `connection.update` event. -/
inductive Connection where
  | connecting
  | opened
  | close
  deriving DecidableEq, Repr

/-- The fields of a `connection.update` event read by the handler:
`connection` (`none` when absent), `lastDisconnect?.error?.output?.statusCode`,
and whether `qr` is truthy. -/
structure ConnectionUpdate where
  connection : Option Connection
  statusCode : Option Int
  qr : Bool
  deriving DecidableEq, Repr

/-- What `socket.requestPairingCode(phoneNumber)` did: it returned a code, or
it threw an error with the given `output?.statusCode` and `message`. -/
inductive RequestResult where
  | code (code : String)
  | error (statusCode : Option Int) (message : String)
  deriving DecidableEq, Repr

/-- The two sockets of an attempt: `socket` and `reconnectSocket`. -/
inductive Sock where
  | original
  | reconnect
  deriving DecidableEq, Repr

/-- The observable actions of an attempt, in the order they happen. -/
inductive Effect where
  | requestPairingCode
  | registerWaiting
  | cleanupSocket (s : Sock)
  | makeReconnectSocket
  | handleSuccessfulConnection (s : Sock)
  | settle (x : Settlement)
  deriving DecidableEq, Repr

/-- The state of one attempt: the closure variables of lines 481-484, the
timer, the listeners, the handlers suspended at an `await`, the settlement of
the promise and the actions so far. -/
structure Attempt where
  retryCount : Nat
  hasRequestedCode : Bool
  codeGenerated : Bool
  authSuccess : Bool
  isReconnecting : Bool
  /-- `connectionTimeout` is set and has neither fired nor been cleared. -/
  timeoutArmed : Bool
  /-- The `connection.update` listener is still attached to `socket`. -/
  listening : Bool
  /-- `reconnectSocket` is not `null`. -/
  reconnectSocket : Bool
  /-- The `connection.update` listener is still attached to `reconnectSocket`. -/
  reconnectListening : Bool
  /-- The handler suspended in lines 502-503, with the update it is handling. -/
  awaitingCode : Option ConnectionUpdate
  /-- A handler is suspended in lines 554-557, before `makeWASocket`. -/
  awaitingReconnect : Bool
  /-- Rejections waiting in `delay(waitTime)` (lines 521 and 613), each with
  the update whose handling continues after it. -/
  awaitingRetryDelay : List (Settlement × Option ConnectionUpdate)
  /-- The first settlement of the promise. -/
  settled : Option Settlement
  /-- The `catch` of lines 628-631 has run. -/
  caught : Bool
  effects : List Effect
  deriving DecidableEq, Repr

namespace Attempt

/-- The attempt when the promise body has run: flags false, timer armed,
listener attached to `socket`. -/
def start (retryCount : Nat) : Attempt :=
  { retryCount := retryCount, hasRequestedCode := false, codeGenerated := false,
    authSuccess := false, isReconnecting := false, timeoutArmed := true, listening := true,
    reconnectSocket := false, reconnectListening := false, awaitingCode := none,
    awaitingReconnect := false, awaitingRetryDelay := [], settled := none, caught := false,
    effects := [] }

/-- Record an action. -/
def emit (a : Attempt) (e : Effect) : Attempt := { a with effects := a.effects ++ [e] }

/-- `resolve(...)` or `reject(...)`: only the first call settles the promise. -/
def settle (a : Attempt) (x : Settlement) : Attempt :=
  let a1 := a.emit (.settle x)
  if a1.settled.isSome then a1 else { a1 with settled := some x }

/-- `clearTimeout(connectionTimeout)`. -/
def clearTimeout (a : Attempt) : Attempt := { a with timeoutArmed := false }

/-- `cleanupSocket(s)` (lines 286-294): nothing for `null`, else all listeners
are removed and the socket is ended. -/
def cleanupSocket (a : Attempt) : Sock → Attempt
  | .original => ({ a with listening := false }).emit (.cleanupSocket .original)
  | .reconnect =>
    if a.reconnectSocket then
      ({ a with reconnectListening := false }).emit (.cleanupSocket .reconnect)
    else a

/-- Lines 537-544: the `open` block of the handler of `socket`. -/
def openBlock (a : Attempt) (u : ConnectionUpdate) : Attempt :=
  if u.connection = some .opened ∧ a.isReconnecting = false then
    ({ a with authSuccess := true, timeoutArmed := false, listening := false }).emit
      (.handleSuccessfulConnection .original)
  else a

/-- Lines 546-622: the `close` block of the handler of `socket`. -/
def closeBlock (restartRequired : Int) (a : Attempt) (u : ConnectionUpdate) : Attempt :=
  if u.connection = some .close then
    if u.statusCode = some restartRequired ∨ u.statusCode = some 515 then
      if a.codeGenerated = true ∧ a.authSuccess = false ∧ a.isReconnecting = false then
        { a with isReconnecting := true, awaitingReconnect := true }
      else a
    else if a.codeGenerated = false ∧ a.authSuccess = false then
      let a2 := (a.clearTimeout).cleanupSocket .original
      match closeBeforeCode a2.retryCount u.statusCode with
      | .retry rc => { a2 with awaitingRetryDelay := a2.awaitingRetryDelay ++ [(.retry rc, none)] }
      | x => a2.settle x
    else a
  else a

/-- Lines 537-622: the handler of `socket` after the code-request block. -/
def afterRequestBlock (restartRequired : Int) (a : Attempt) (u : ConnectionUpdate) : Attempt :=
  closeBlock restartRequired (openBlock a u) u

/-- Lines 494-500: a `connection.update` event of `socket` reaches the handler;
the handler either suspends in the code request or runs lines 537-622. -/
def onConnectionUpdate (restartRequired : Int) (a : Attempt) (u : ConnectionUpdate) : Attempt :=
  if a.hasRequestedCode = false ∧ a.codeGenerated = false ∧ a.authSuccess = false
      ∧ (u.connection = some .connecting ∨ u.qr = true) then
    ({ a with hasRequestedCode := true, awaitingCode := some u }).emit .requestPairingCode
  else afterRequestBlock restartRequired a u

/-- Lines 503-533 and on: `requestPairingCode` completes and the suspended
handler goes on. -/
def onCodeRequestDone (restartRequired : Int) (a : Attempt) (r : RequestResult) : Attempt :=
  match a.awaitingCode with
  | none => a
  | some u =>
    let a0 := { a with awaitingCode := none }
    match r with
    | .code c =>
      afterRequestBlock restartRequired
        ((({ a0 with codeGenerated := true }).emit .registerWaiting).settle (.resolved c)) u
    | .error statusCode message =>
      let a1 := a0.clearTimeout
      match requestFailure a1.retryCount statusCode message with
      | .retry rc =>
        let a2 := a1.cleanupSocket .original
        { a2 with awaitingRetryDelay := a2.awaitingRetryDelay ++ [(.retry rc, some u)] }
      | x => afterRequestBlock restartRequired (a1.settle x) u

/-- Lines 521-522 and 613-614: the oldest `delay(waitTime)` elapses, the
rejection is made and the handler goes on. -/
def onRetryDelayElapsed (restartRequired : Int) (a : Attempt) : Attempt :=
  match a.awaitingRetryDelay with
  | [] => a
  | (x, cont) :: rest =>
    let a1 := ({ a with awaitingRetryDelay := rest }).settle x
    match cont with
    | none => a1
    | some u => afterRequestBlock restartRequired a1 u

/-- Lines 554-601: the handler suspended after setting `isReconnecting` goes
on; `ok = false` when `useMultiFileAuthState` or `makeWASocket` throws. -/
def onReconnectDelayElapsed (a : Attempt) (ok : Bool) : Attempt :=
  if a.awaitingReconnect = true then
    let a1 := ({ a with awaitingReconnect := false }).cleanupSocket .original
    if ok = true then
      ({ a1 with reconnectSocket := true, reconnectListening := true }).emit .makeReconnectSocket
    else ((a1.clearTimeout).cleanupSocket .reconnect).settle (.error "Reconnect failed")
  else a

/-- Lines 581-588: the `open` block of the handler of `reconnectSocket`. -/
def reconnectOpenBlock (a : Attempt) (connection : Option Connection) : Attempt :=
  if connection = some .opened then
    ({ a with authSuccess := true, timeoutArmed := false, reconnectListening := false }).emit
      (.handleSuccessfulConnection .reconnect)
  else a

/-- Lines 580-595: a `connection.update` event of `reconnectSocket`. -/
def onReconnectUpdate (a : Attempt) (connection : Option Connection) : Attempt :=
  let a1 := reconnectOpenBlock a connection
  if connection = some .close ∧ a1.authSuccess = false then
    ((a1.clearTimeout).cleanupSocket .reconnect).settle (.error "Reconnect failed. Try again.")
  else a1

/-- Lines 486-492: the timer callback. -/
def onTimeout (a : Attempt) : Attempt :=
  if a.authSuccess = false then
    ((a.cleanupSocket .original).cleanupSocket .reconnect).settle (.error "Connection timeout")
  else a

/-- Lines 628-631: once the promise is rejected, the `catch` of
`generatePairingCode` cleans both sockets and clears the timer. -/
def outerCatch (a : Attempt) : Attempt :=
  match a.settled with
  | some (.resolved _) => a
  | none => a
  | some _ =>
    if a.caught = true then a
    else { ((a.cleanupSocket .original).cleanupSocket .reconnect).clearTimeout with caught := true }

end Attempt

/-- What can happen to an attempt. -/
inductive AttemptEvent where
  /-- `socket` emits `connection.update`. -/
  | connectionUpdate (u : ConnectionUpdate)
  /-- `requestPairingCode` returns or throws. -/
  | codeRequestDone (r : RequestResult)
  /-- The oldest pending `delay(waitTime)` elapses. -/
  | retryDelayElapsed
  /-- The reconnect goes on after `delay(2000)`. -/
  | reconnectDelayElapsed (ok : Bool)
  /-- `reconnectSocket` emits `connection.update`. -/
  | reconnectUpdate (connection : Option Connection)
  /-- `CONNECTION_TIMEOUT` milliseconds have passed. -/
  | timeout
  deriving DecidableEq, Repr

namespace Attempt

/-- One event: it is delivered only to an attached listener or an armed timer,
then the `catch` of `generatePairingCode` runs if the promise is rejected. -/
def step (restartRequired : Int) (a : Attempt) : AttemptEvent → Attempt
  | .connectionUpdate u =>
    if a.listening = true then (onConnectionUpdate restartRequired a u).outerCatch else a
  | .codeRequestDone r => (onCodeRequestDone restartRequired a r).outerCatch
  | .retryDelayElapsed => (onRetryDelayElapsed restartRequired a).outerCatch
  | .reconnectDelayElapsed ok => (onReconnectDelayElapsed a ok).outerCatch
  | .reconnectUpdate c =>
    if a.reconnectListening = true then (onReconnectUpdate a c).outerCatch else a
  | .timeout =>
    if a.timeoutArmed = true then (onTimeout { a with timeoutArmed := false }).outerCatch else a

/-- A sequence of events. -/
def run (restartRequired : Int) (a : Attempt) (events : List AttemptEvent) : Attempt :=
  events.foldl (step restartRequired) a

/-- How many reconnect sockets were made. -/
def reconnectSockets (a : Attempt) : Nat := a.effects.count .makeReconnectSocket

/-- The retry bookkeeping of an attempt is sound: every retry rejection, made
or waiting in its delay, carries `retryCount + 1` and exists only when
`retryCount < MAX_RETRIES`. -/
def RetryInv (rc : Nat) (a : Attempt) : Prop :=
  a.retryCount = rc
    ∧ (∀ x, a.settled = some (.retry x) → x = rc + 1 ∧ rc < MAX_RETRIES)
    ∧ (∀ p ∈ a.awaitingRetryDelay, ∀ x, p.1 = Settlement.retry x → x = rc + 1 ∧ rc < MAX_RETRIES)

/-- The reconnect sockets made, plus the one a suspended handler is about to
make, are at most one, and none unless `isReconnecting` is set. -/
def ReconnInv (a : Attempt) : Prop :=
  a.reconnectSockets + (if a.awaitingReconnect = true then 1 else 0)
    ≤ (if a.isReconnecting = true then 1 else 0)

/-- How many times `socket.requestPairingCode` was invoked. -/
def codeRequests (a : Attempt) : Nat := a.effects.count .requestPairingCode

/-- The code was requested exactly when `hasRequestedCode` is set, and then
once. -/
def RequestInv (a : Attempt) : Prop :=
  a.codeRequests = (if a.hasRequestedCode = true then 1 else 0)

/-- From `a` to `b` no code was requested and `hasRequestedCode` was not
assigned. -/
def KeepsRequest (a b : Attempt) : Prop :=
  b.codeRequests = a.codeRequests ∧ b.hasRequestedCode = a.hasRequestedCode

/-- Nothing of the code request has happened: the flags of line 497 are
false, no handler is suspended in the request or in a reconnect, no listener
is attached to a reconnect socket, and no pending rejection carries an update
to go on with. -/
def NoRequestYet (a : Attempt) : Prop :=
  a.hasRequestedCode = false ∧ a.codeGenerated = false ∧ a.authSuccess = false
    ∧ a.awaitingCode = none ∧ a.awaitingReconnect = false ∧ a.reconnectListening = false
    ∧ (∀ p ∈ a.awaitingRetryDelay, p.2 = none)

end Attempt

/-- What `generatePairingCode` gave its caller: `{ code }`, a thrown error, or
nothing yet because the events supplied never settled the promise. -/
inductive PairingResult where
  | code (code : String)
  | thrown (message : String)
  | pending
  deriving DecidableEq, Repr

/-- What happens to one connection attempt: the set-up of lines 455-478
(`fetchLatestBaileysVersion`, `useMultiFileAuthState`, `makeWASocket`) throws
an error, or the promise body runs and the given events follow. -/
inductive AttemptScript where
  | setupThrows (message : String)
  | events (events : List AttemptEvent)
  deriving DecidableEq, Repr

/-- `generatePairingCode(phoneNumber, userId, retryCount)` (lines 440-654) as
the chain of its attempts.  `env n` is what happens to the `n`-th connection
attempt; the result lists the `retryCount` of every attempt made.  The `catch`
of line 633 recurses with `error.retryCount` whenever the rejection carries
`retry` and rethrows every other error; `fuel` bounds the depth of that
recursion and `none` means it ran out. -/
def generatePairingCode (restartRequired : Int) (env : Nat → AttemptScript) :
    (fuel : Nat) → (attemptNo : Nat) → (retryCount : Nat) → Option (PairingResult × List Nat)
  | 0, _, _ => none
  | fuel + 1, attemptNo, retryCount =>
    match env attemptNo with
    | .setupThrows message => some (.thrown message, [retryCount])
    | .events events =>
      match (Attempt.run restartRequired (Attempt.start retryCount) events).settled with
      | none => some (.pending, [retryCount])
      | some (.resolved c) => some (.code c, [retryCount])
      | some (.error message) => some (.thrown message, [retryCount])
      | some (.retry rc) =>
        (generatePairingCode restartRequired env fuel (attemptNo + 1) rc).map
          (fun r => (r.1, retryCount :: r.2))

/-! ## Pending requests (`activeRequests`) -/

/-- An object stored in `activeRequests`. -/
structure ActiveRequest where
  status : String
  timestamp : Int
  deriving DecidableEq, Repr

/-- The `activeRequests` map: Telegram user id to request. -/
abbrev ActiveRequests := JsMap Int ActiveRequest

/-- The user ids collected by the loop of `cleanupStaleRequests` (lines 300-304). -/
def staleRequests (reqs : ActiveRequests) (now : Int) : List Int :=
  (reqs.filter (fun e => decide (now - e.2.timestamp > REQUEST_TIMEOUT))).map (fun e => e.1)

/-- `cleanupStaleRequests` at `Date.now() = now` (lines 296-309): the map
afterwards. -/
def cleanupStaleRequests (reqs : ActiveRequests) (now : Int) : ActiveRequests :=
  (staleRequests reqs now).foldl (fun m id => JsMap.delete m id) reqs

/-! ## Phone numbers -/

/-- `formatPhoneNumber(phone)` (lines 230-234): `phone.replace(/\D/g, '')`
keeps the decimal digits; `none` is `null`. -/
def formatPhoneNumber (phone : String) : Option String :=
  let cleaned := phone.data.filter Char.isDigit
  if cleaned.length < 10 ∨ cleaned.length > 15 then none else some (String.mk cleaned)

/-- The pattern `\d{4}` at the start of `cs`: the four digits and what follows. -/
def matchFourDigits (cs : List Char) : Option (List Char × List Char) :=
  if 4 ≤ cs.length ∧ (cs.take 4).all Char.isDigit = true then some (cs.take 4, cs.drop 4)
  else none

/-- The pattern `\d*(\d{4})` at the start of `cs`.  The star is greedy: it
takes one more digit whenever the rest can still match, and gives digits back
otherwise. -/
def matchStarFour : List Char → Option (List Char × List Char)
  | [] => matchFourDigits []
  | c :: cs =>
    if c.isDigit = true then
      match matchStarFour cs with
      | some r => some r
      | none => matchFourDigits (c :: cs)
    else matchFourDigits (c :: cs)

/-- The pattern `(\d{3})\d*(\d{4})` at the start of `cs`: the groups `$1` and
`$2` and what follows the match. -/
def matchMask (cs : List Char) : Option (List Char × List Char × List Char) :=
  if 3 ≤ cs.length ∧ (cs.take 3).all Char.isDigit = true then
    (matchStarFour (cs.drop 3)).map (fun r => (cs.take 3, r.1, r.2))
  else none

/-- `replace(/(\d{3})\d*(\d{4})/, '$1****$2')` on the characters: the leftmost
match is replaced, the rest is kept. -/
def replaceMask : List Char → List Char
  | [] => []
  | c :: cs =>
    match matchMask (c :: cs) with
    | some (g1, g2, rest) => g1 ++ "****".data ++ g2 ++ rest
    | none => c :: replaceMask cs

/-- The masked phone number of line 124. -/
def maskPhone (phoneNumber : String) : String := String.mk (replaceMask phoneNumber.data)

/-- The directory name of `createAuthDir` (line 237): the template literal
`auth_${userId}_${Date.now()}`, an integer printing in decimal as JavaScript
prints integers below 10^21. -/
def authDirName (userId : Int) (now : Int) : String :=
  "auth_" ++ toString userId ++ "_" ++ toString now

/-! ## Durable archive (`GitHubSessionStorage`, lines 35-182)

A JSON file is represented by the value it serialises, an ISO time string by
the string `new Date().toISOString()` returned.  Paths are relative to the
working copy. -/

/-- The object `sessionData` of lines 113-118, written to `metadata.json`. -/
structure SessionData where
  sessionId : String
  phoneNumber : String
  userId : Int
  created : String
  files : List String
  status : String
  lastAccessed : String
  deriving DecidableEq, Repr

/-- A value of `index.sessions` (lines 123-126). -/
structure IndexEntry where
  sessionId : String
  phoneNumber : String
  userId : Int
  created : String
  status : String
  fileCount : Nat
  deriving DecidableEq, Repr

/-- The `stats` object of the index document. -/
structure IndexStats where
  totalSessions : Int
  lastUpdated : String
  deriving DecidableEq, Repr

/-- The index document `sessions/index.json`; `sessions` in key order. -/
structure ArchiveIndex where
  version : String
  created : String
  sessions : JsMap String IndexEntry
  stats : IndexStats
  deriving DecidableEq, Repr

/-- The `initialIndex` of `initializeRepo` (lines 70-75); the two arguments are
the two clock strings. -/
def initialIndex (created lastUpdated : String) : ArchiveIndex :=
  { version := "1.0.0", created := created, sessions := [],
    stats := { totalSessions := 0, lastUpdated := lastUpdated } }

/-- Lines 123-129: the entry of `sessionId` is assigned and the stats are
recomputed, `totalSessions` from `Object.keys(index.sessions).length`. -/
def updateIndex (index : ArchiveIndex) (sessionId phoneNumber : String) (userId : Int)
    (created : String) (fileCount : Nat) (lastUpdated : String) : ArchiveIndex :=
  let sessions := JsMap.set index.sessions sessionId
    { sessionId := sessionId, phoneNumber := maskPhone phoneNumber, userId := userId,
      created := created, status := "active", fileCount := fileCount }
  { index with
    sessions := sessions,
    stats := { totalSessions := (sessions.length : Int), lastUpdated := lastUpdated } }

/-- What a file of the working copy holds. -/
inductive FileContent where
  | data (content : String)
  | metadata (d : SessionData)
  | index (i : ArchiveIndex)
  deriving DecidableEq, Repr

/-- Files by path. -/
abbrev Files := JsMap String FileContent

/-- Two file sets hold the same content under every path. -/
def Files.same (a b : Files) : Bool :=
  (a.map Prod.fst ++ b.map Prod.fst).all (fun p => decide (JsMap.get a p = JsMap.get b p))

/-- `path.join(this.sessionsPath, sessionId, file)`. -/
def sessionFilePath (sessionId file : String) : String :=
  "sessions/" ++ sessionId ++ "/" ++ file

/-- `this.indexPath`. -/
def indexPath : String := "sessions/index.json"

/-- An entry of the credential directory: its name, whether
`statSync(...).isFile()` holds, and its content. -/
structure DirEntry where
  name : String
  isFile : Bool
  content : String
  deriving DecidableEq, Repr

/-- The local repository: whether `repoPath` exists, the working copy, the git
index, the tree of `HEAD`, the tree of the tip of `origin/main`, and the
messages of the commits made. -/
structure Repo where
  cloned : Bool
  work : Files
  staged : Files
  head : Files
  remote : Files
  commits : List String
  deriving DecidableEq, Repr

/-- The loop of lines 103-111: regular files are copied into the session
directory; the working copy afterwards and `copiedFiles`. -/
def copyAuthFiles (sessionId : String) : Files → List DirEntry → Files × List String
  | work, [] => (work, [])
  | work, f :: fs =>
    if f.isFile = true then
      let r := copyAuthFiles sessionId
        (JsMap.set work (sessionFilePath sessionId f.name) (.data f.content)) fs
      (r.1, f.name :: r.2)
    else copyAuthFiles sessionId work fs

/-- Lines 95-130, the writes of `saveSession` before `pushToGitHub`: the
working copy afterwards, and `copiedFiles.length` when nothing threw.
`authDir` is `none` when `readdirSync(authDir)` throws; reading the index
throws when `index.json` is missing or is not an index document, after the
credential files and `metadata.json` were written.  The three strings are the
three clock readings, in the order of the source. -/
def writeSession (work : Files) (sessionId phoneNumber : String)
    (authDir : Option (List DirEntry)) (userId : Int) (iso1 iso2 iso3 : String) :
    Files × Option Nat :=
  match authDir with
  | none => (work, none)
  | some authFiles =>
    let copied := copyAuthFiles sessionId work authFiles
    let sessionData : SessionData :=
      { sessionId := sessionId, phoneNumber := phoneNumber, userId := userId, created := iso1,
        files := copied.2, status := "active", lastAccessed := iso2 }
    let work1 := JsMap.set copied.1 (sessionFilePath sessionId "metadata.json")
      (.metadata sessionData)
    match JsMap.get work1 indexPath with
    | some (.index index) =>
      (JsMap.set work1 indexPath
        (.index (updateIndex index sessionId phoneNumber userId sessionData.created
          copied.2.length iso3)),
       some copied.2.length)
    | _ => (work1, none)

/-- The git commands run by `pushToGitHub`. -/
inductive GitCmd where
  | pullRebase
  | fetch
  | resetHard
  | addAll
  | diffStaged
  | commit
  | push
  deriving DecidableEq, Repr

/-- What `execSync` did: it returned, or it threw an error with this message. -/
inductive CmdOutcome where
  | ok
  | fail (message : String)
  deriving DecidableEq, Repr

/-- How a call ended. -/
inductive Completion where
  | returned
  | threw (message : String)
  deriving DecidableEq, Repr

/-- One call of `pushToGitHub`: how it ended, the repository afterwards and
the commands run, in order. -/
structure GitRun where
  completion : Completion
  repo : Repo
  trace : List GitCmd
  deriving DecidableEq, Repr

/-- `git reset --hard origin/main` as git defines it: `HEAD` and the index
become the tip of `origin/main`, every file of that tip is written with the
tip's content, a file that was tracked and is not in the tip is removed, and
untracked files stay. -/
def Repo.resetHard (r : Repo) : Repo :=
  { r with
    head := r.remote,
    staged := r.remote,
    work := r.remote ++ r.work.filter (fun f =>
      (JsMap.get r.remote f.1).isNone && (JsMap.get r.staged f.1).isNone) }

/-- Whether git finds the work tree unclean: a tracked file (a path of the git
index) whose working copy differs from the index, changed or deleted, or an
index that differs from the tree of `HEAD`.  Untracked files do not count. -/
def Repo.dirty (r : Repo) : Bool :=
  r.staged.any (fun f => decide (JsMap.get r.work f.1 ≠ JsMap.get r.staged f.1))
    || !Files.same r.staged r.head

/-- `git pull origin main --rebase`, the `k`-th of a call: git refuses to pull
with rebase over an unclean work tree, whatever the remote; on a clean work
tree the outcome is that of the environment. -/
def pullRebase (env : GitCmd → Nat → CmdOutcome) (k : Nat) (r : Repo) : CmdOutcome :=
  if r.dirty = true then .fail "error: cannot pull with rebase: You have unstaged changes."
  else env .pullRebase k

/-- The loop of lines 164-177.  `env .push k` is the outcome of the push made
with `pushAttempts = k`, `pullRebase env k r` for `k ≥ 1` the outcome of the
pull made after the `k`-th rejected push.  `fuel` bounds the iterations and
`none` means it ran out. -/
def pushLoop (env : GitCmd → Nat → CmdOutcome) :
    (fuel : Nat) → (pushAttempts : Nat) → Repo → List GitCmd → Option GitRun
  | 0, _, _, _ => none
  | fuel + 1, pushAttempts, r, trace =>
    if pushAttempts < 3 then
      match env .push pushAttempts with
      | .ok =>
        some { completion := .returned, repo := { r with remote := r.head },
               trace := trace ++ [.push] }
      | .fail pushError =>
        if pushAttempts + 1 < 3 then
          match pullRebase env (pushAttempts + 1) r with
          | .ok => pushLoop env fuel (pushAttempts + 1) r (trace ++ [.push, .pullRebase])
          | .fail pullError =>
            some { completion := .threw pullError, repo := r,
                   trace := trace ++ [.push, .pullRebase] }
        else some { completion := .threw pushError, repo := r, trace := trace ++ [.push] }
    else some { completion := .returned, repo := r, trace := trace }

/-- Lines 150-177, after the working copy was synchronised: stage, return
when the staged diff is empty, commit, push.  `git diff --staged --quiet`
exits with 0 exactly when the index equals the tree of `HEAD`. -/
def stageCommitPush (env : GitCmd → Nat → CmdOutcome) (commitMessage : String) (r : Repo)
    (trace : List GitCmd) : Option GitRun :=
  match env .addAll 0 with
  | .fail e => some { completion := .threw e, repo := r, trace := trace ++ [.addAll] }
  | .ok =>
    let r1 := { r with staged := r.work }
    if Files.same r1.staged r1.head = true then
      some { completion := .returned, repo := r1, trace := trace ++ [.addAll, .diffStaged] }
    else
      match env .commit 0 with
      | .fail e =>
        if includes e "nothing to commit" = true then
          some { completion := .returned, repo := r1,
                 trace := trace ++ [.addAll, .diffStaged, .commit] }
        else
          some { completion := .threw e, repo := r1,
                 trace := trace ++ [.addAll, .diffStaged, .commit] }
      | .ok =>
        pushLoop env 3 0
          { r1 with head := r1.staged, commits := r1.commits ++ [commitMessage] }
          (trace ++ [.addAll, .diffStaged, .commit])

/-- `pushToGitHub(commitMessage)` (lines 141-181).  A successful
`git pull origin main --rebase` leaves the trees as they are: the tip of
`origin/main` changes in this model only by the pushes of this repository. -/
def pushToGitHub (env : GitCmd → Nat → CmdOutcome) (commitMessage : String) (r : Repo) :
    Option GitRun :=
  match pullRebase env 0 r with
  | .ok => stageCommitPush env commitMessage r [.pullRebase]
  | .fail _ =>
    match env .fetch 0 with
    | .fail e => some { completion := .threw e, repo := r, trace := [.pullRebase, .fetch] }
    | .ok =>
      match env .resetHard 0 with
      | .fail e =>
        some { completion := .threw e, repo := r, trace := [.pullRebase, .fetch, .resetHard] }
      | .ok => stageCommitPush env commitMessage r.resetHard [.pullRebase, .fetch, .resetHard]

/-- The object returned by `saveSession`. -/
structure SaveResult where
  success : Bool
  filesStored : Option Nat
  deriving DecidableEq, Repr

/-- `saveSession(sessionId, phoneNumber, authDir, userId)` (lines 89-139): the
result, the repository afterwards and the git commands run.  Every error is
caught and gives `{ success: false }`. -/
def saveSession (env : GitCmd → Nat → CmdOutcome) (r : Repo) (sessionId phoneNumber : String)
    (authDir : Option (List DirEntry)) (userId : Int) (iso1 iso2 iso3 : String) :
    Option (SaveResult × Repo × List GitCmd) :=
  if r.cloned = false then some ({ success := false, filesStored := none }, r, [])
  else
    match writeSession r.work sessionId phoneNumber authDir userId iso1 iso2 iso3 with
    | (work1, none) =>
      some ({ success := false, filesStored := none }, { r with work := work1 }, [])
    | (work1, some n) =>
      (pushToGitHub env ("Add session " ++ sessionId) { r with work := work1 }).map
        (fun run =>
          match run.completion with
          | .returned => ({ success := true, filesStored := some n }, run.repo, run.trace)
          | .threw _ => ({ success := false, filesStored := none }, run.repo, run.trace))

/-- The number a list of decimal digits denotes. -/
def readDecimal (cs : List Char) : Nat :=
  cs.foldl (fun acc c => acc * 10 + (c.toNat - 48)) 0

/-- An index document without sessions, used in the examples. -/
def emptyIndexExample : ArchiveIndex :=
  initialIndex "2025-01-01T00:00:00.000Z" "2025-01-01T00:00:00.000Z"

/-- A clean clone whose only tracked file is the index document
`emptyIndexExample`, used in the examples. -/
def cleanRepoExample : Repo :=
  { cloned := true,
    work := [(indexPath, .index emptyIndexExample)],
    staged := [(indexPath, .index emptyIndexExample)],
    head := [(indexPath, .index emptyIndexExample)],
    remote := [(indexPath, .index emptyIndexExample)],
    commits := [] }

/-- Every git command succeeds. -/
def allOk : GitCmd → Nat → CmdOutcome := fun _ _ => .ok

/-- The content that the loop of lines 103-111 leaves under path `p`: that of
the last regular file copied there, if any. -/
def copyLast (sessionId : String) : List DirEntry → String → Option FileContent
  | [], _ => none
  | f :: fs, p =>
    match copyLast sessionId fs p with
    | some c => some c
    | none =>
      if f.isFile = true ∧ sessionFilePath sessionId f.name = p then some (.data f.content)
      else none

/-- A registry with a waiting and a connecting entry of user 7, a connected
entry of user 7 and a waiting entry of user 8. -/
def evictionExample : ActiveSessions :=
  [("temp_7_15551234567",
      ⟨7, "15551234567", 1000, .waiting_for_auth, 1, "auth_7_1000", none⟩),
   ("A1B2C3D4E5F60718",
      ⟨7, "15551234567", 500, .connected, 2, "auth_7_500", some true⟩),
   ("temp_8_15557654321",
      ⟨8, "15557654321", 1200, .waiting_for_auth, 3, "auth_8_1200", none⟩),
   ("temp_7_15550000000",
      ⟨7, "15550000000", 1300, .connecting, 4, "auth_7_1300", none⟩)]

/-- The repository after the synchronisation of lines 143-148 when fetch and
reset succeed: as it was when the pull is not refused, hard reset otherwise. -/
def Repo.afterSync (r : Repo) : Repo := if r.dirty = true then r.resetHard else r

/-- The commands of that synchronisation. -/
def syncTrace (r : Repo) : List GitCmd :=
  if r.dirty = true then [.pullRebase, .fetch, .resetHard] else [.pullRebase]

/-- A clean clone that tracks only a readme, with the index document that
`initializeRepo` has just created and that is not tracked yet, used in the
examples. -/
def freshRepoExample : Repo :=
  { cloned := true,
    work := [("README.md", .data "sessions"), (indexPath, .index emptyIndexExample)],
    staged := [("README.md", .data "sessions")],
    head := [("README.md", .data "sessions")],
    remote := [("README.md", .data "sessions")],
    commits := [] }

/-! ## Lemmas on `JsMap` -/

namespace JsMap

variable {κ ν : Type} [DecidableEq κ]

theorem get_set_same (m : JsMap κ ν) (k : κ) (v : ν) : get (set m k v) k = some v := by
  induction m with
  | nil => simp [set, get]
  | cons e m ih =>
    obtain ⟨k', v'⟩ := e
    by_cases h : k' = k
    · simp [set, get, h]
    · simp [set, get, h, ih]

theorem get_set_other (m : JsMap κ ν) (k k' : κ) (v : ν) (h : k' ≠ k) :
    get (set m k v) k' = get m k' := by
  induction m with
  | nil => simp [set, get, Ne.symm h]
  | cons e m ih =>
    obtain ⟨k0, v0⟩ := e
    by_cases h0 : k0 = k
    · subst h0
      simp [set, get, Ne.symm h]
    · by_cases h1 : k0 = k'
      · subst h1
        simp [set, get, h0]
      · simp [set, get, h0, h1, ih]

theorem set_of_get (m : JsMap κ ν) (k : κ) (v : ν) (h : get m k = some v) :
    set m k v = m := by
  induction m with
  | nil => simp [get] at h
  | cons e m ih =>
    obtain ⟨k', v'⟩ := e
    by_cases hk : k' = k
    · subst hk
      simp [get] at h
      simp [set, h]
    · simp [get, hk] at h
      simp [set, hk, ih h]

theorem set_set_same (m : JsMap κ ν) (k : κ) (v w : ν) :
    set (set m k v) k w = set m k w := by
  induction m with
  | nil => simp [set]
  | cons e m ih =>
    obtain ⟨k', v'⟩ := e
    by_cases hk : k' = k
    · simp [set, hk]
    · simp [set, hk, ih]

theorem get_delete_same (m : JsMap κ ν) (k : κ) : get (delete m k) k = none := by
  induction m with
  | nil => simp [delete, get]
  | cons e m ih =>
    obtain ⟨k', v'⟩ := e
    by_cases hk : k' = k
    · simpa [delete, hk] using ih
    · simpa [delete, get, hk] using ih

theorem get_delete_other (m : JsMap κ ν) (k k' : κ) (h : k' ≠ k) :
    get (delete m k) k' = get m k' := by
  induction m with
  | nil => simp [delete, get]
  | cons e m ih =>
    obtain ⟨k0, v0⟩ := e
    by_cases h0 : k0 = k
    · subst h0
      have : ¬ k0 = k' := fun e => h e.symm
      simpa [delete, get, this] using ih
    · by_cases h1 : k0 = k'
      · subst h1
        simp [delete, get, h0]
      · simpa [delete, get, h0, h1] using ih

end JsMap

/-! ## Rate limiter: single-call behaviour -/

theorem checkRateLimit_fresh (rl : RateLimiter) (userId : Int) (username : Option String)
    (now : Int) (hpriv : username ≠ some "firekidffx")
    (hnone : JsMap.get rl userId = none) :
    checkRateLimit rl userId username now
      = (true, JsMap.set rl userId { count := 1, windowStart := now }) := by
  simp [checkRateLimit, hpriv, hnone, RATE_LIMIT_WINDOW, MAX_REQUESTS_PER_WINDOW]

theorem checkRateLimit_expired (rl : RateLimiter) (userId : Int) (username : Option String)
    (now : Int) (w : RateWindow) (hpriv : username ≠ some "firekidffx")
    (hget : JsMap.get rl userId = some w)
    (hexp : now - w.windowStart > RATE_LIMIT_WINDOW) :
    checkRateLimit rl userId username now
      = (true, JsMap.set rl userId { count := 1, windowStart := now }) := by
  simp [checkRateLimit, hpriv, hget, hexp, MAX_REQUESTS_PER_WINDOW, JsMap.set_set_same]

theorem checkRateLimit_live (rl : RateLimiter) (userId : Int) (username : Option String)
    (now : Int) (w : RateWindow) (hpriv : username ≠ some "firekidffx")
    (hget : JsMap.get rl userId = some w)
    (hlive : ¬ now - w.windowStart > RATE_LIMIT_WINDOW) :
    checkRateLimit rl userId username now
      = if w.count ≥ MAX_REQUESTS_PER_WINDOW then (false, rl)
        else (true, JsMap.set rl userId { w with count := w.count + 1 }) := by
  have hs : JsMap.set rl userId w = rl := JsMap.set_of_get rl userId w hget
  simp only [checkRateLimit, hpriv, hget, hlive, if_false, Option.getD_some, Option.isSome_some,
    if_true, hs]

theorem checkRateLimitSeq_full (rl : RateLimiter) (userId : Int) (username : Option String)
    (t0 : Int) (ts : List Int) (hpriv : username ≠ some "firekidffx")
    (hget : JsMap.get rl userId = some { count := 2, windowStart := t0 })
    (hwin : ∀ t ∈ ts, t - t0 ≤ RATE_LIMIT_WINDOW) :
    checkRateLimitSeq rl userId username ts = (List.replicate ts.length false, rl) := by
  induction ts with
  | nil => simp [checkRateLimitSeq]
  | cons t ts ih =>
    have ht : ¬ t - t0 > RATE_LIMIT_WINDOW := not_lt.mpr (hwin t (List.mem_cons_self t ts))
    have hstep := checkRateLimit_live rl userId username t _ hpriv hget ht
    simp only [MAX_REQUESTS_PER_WINDOW, ge_iff_le, le_refl, if_true] at hstep
    have ih1 := ih (fun x hx => hwin x (List.mem_cons_of_mem t hx))
    simp [checkRateLimitSeq, hstep, ih1, List.replicate_succ]

theorem checkRateLimitSeq_fresh (rl : RateLimiter) (userId : Int)
    (username : Option String) (t0 : Int) (ts : List Int)
    (hpriv : username ≠ some "firekidffx")
    (hnone : JsMap.get rl userId = none)
    (hwin : ∀ t ∈ ts, t - t0 ≤ RATE_LIMIT_WINDOW) :
    (checkRateLimitSeq rl userId username (t0 :: ts)).1
        = List.replicate (min (ts.length + 1) 2) true
            ++ List.replicate (ts.length + 1 - min (ts.length + 1) 2) false
      ∧ JsMap.get (checkRateLimitSeq rl userId username (t0 :: ts)).2 userId
        = some { count := ((min (ts.length + 1) 2 : Nat) : Int), windowStart := t0 } := by
  have h0 := checkRateLimit_fresh rl userId username t0 hpriv hnone
  cases ts with
  | nil => simp [checkRateLimitSeq, h0, JsMap.get_set_same]
  | cons t1 ts =>
    have hg1 : JsMap.get (JsMap.set rl userId { count := 1, windowStart := t0 }) userId
        = some { count := 1, windowStart := t0 } := JsMap.get_set_same _ _ _
    have ht1 : ¬ t1 - t0 > RATE_LIMIT_WINDOW :=
      not_lt.mpr (hwin t1 (List.mem_cons_self t1 ts))
    have h1 := checkRateLimit_live _ userId username t1 _ hpriv hg1 ht1
    simp only [MAX_REQUESTS_PER_WINDOW, JsMap.set_set_same] at h1
    norm_num at h1
    have hg2 : JsMap.get (JsMap.set rl userId { count := 2, windowStart := t0 }) userId
        = some { count := 2, windowStart := t0 } := JsMap.get_set_same _ _ _
    have hrest := checkRateLimitSeq_full _ userId username t0 ts hpriv hg2
      (fun x hx => hwin x (List.mem_cons_of_mem t1 hx))
    have hmin : min (ts.length + 1 + 1) 2 = 2 := by omega
    simp [checkRateLimitSeq, h0, h1, hrest, hg2, hmin, List.replicate_succ]

/-- C1. A non-privileged user without a stored window calls `checkRateLimit`
`n = times.length` times, at non-decreasing times that all lie within
`RATE_LIMIT_WINDOW` of the first call.  Exactly the first `min n 2` calls are
admitted and every later one is refused, the stored count ends at `min n 2`
(an absent window counting as 0, the default of line 214), and after at least
one call the stored window is `{count: min n 2, windowStart: first time}`. -/
theorem checkRateLimit_admits_first_two (rl : RateLimiter) (userId : Int)
    (username : Option String) (times : List Int)
    (hpriv : username ≠ some "firekidffx")
    (hnone : JsMap.get rl userId = none)
    (_hmono : List.Sorted (fun a b : Int => a ≤ b) times)
    (hwin : ∀ t0 ∈ times.head?, ∀ t ∈ times, t - t0 ≤ RATE_LIMIT_WINDOW) :
    (checkRateLimitSeq rl userId username times).1
        = List.replicate (min times.length 2) true
            ++ List.replicate (times.length - min times.length 2) false
      ∧ ((JsMap.get (checkRateLimitSeq rl userId username times).2 userId).map
            (fun w => w.count)).getD 0 = ((min times.length 2 : Nat) : Int)
      ∧ ∀ t0 ∈ times.head?,
          JsMap.get (checkRateLimitSeq rl userId username times).2 userId
            = some { count := ((min times.length 2 : Nat) : Int), windowStart := t0 } := by
  cases times with
  | nil => simp [checkRateLimitSeq, hnone]
  | cons t0 ts =>
    have hw : ∀ t ∈ ts, t - t0 ≤ RATE_LIMIT_WINDOW := fun t ht =>
      hwin t0 (by simp) t (List.mem_cons_of_mem t0 ht)
    obtain ⟨h1, h2⟩ := checkRateLimitSeq_fresh rl userId username t0 ts hpriv hnone hw
    refine ⟨h1, ?_, ?_⟩
    · rw [h2]
      simp
    · intro t hmem
      simp only [List.head?_cons, Option.mem_def, Option.some.injEq] at hmem
      subst hmem
      exact h2

/-- C1 witness: four calls by user 7 at times 0, 5, 5 and 86400000 (the last
one exactly `RATE_LIMIT_WINDOW` after the first). -/
theorem checkRateLimit_admits_first_two_witness :
    (checkRateLimitSeq [] 7 (some "alice") [0, 5, 5, 86400000]).1
        = [true, true, false, false]
      ∧ ((JsMap.get (checkRateLimitSeq [] 7 (some "alice") [0, 5, 5, 86400000]).2 7).map
            (fun w => w.count)).getD 0 = 2 := by
  have h := checkRateLimit_admits_first_two [] 7 (some "alice") [0, 5, 5, 86400000]
    (by decide) rfl (by simp [List.Sorted]) (by simp [RATE_LIMIT_WINDOW])
  exact ⟨by simpa using h.1, by simpa using h.2.1⟩

/-- C2. For a non-privileged user whose stored window has expired
(`now - windowStart > RATE_LIMIT_WINDOW`), whatever the stored count,
`checkRateLimit` answers `true` and leaves that user's window equal to
`{count: 1, windowStart: now}`, the same answer and window that a first-ever
call at `now` produces from any map `rl0` without an entry for the user; the
windows of all other users are untouched. -/
theorem checkRateLimit_expired_behaves_as_first_call (rl rl0 : RateLimiter) (userId : Int)
    (username : Option String) (now : Int) (w : RateWindow)
    (hpriv : username ≠ some "firekidffx")
    (hget : JsMap.get rl userId = some w)
    (hexp : now - w.windowStart > RATE_LIMIT_WINDOW)
    (hfresh : JsMap.get rl0 userId = none) :
    (checkRateLimit rl userId username now).1 = true
      ∧ JsMap.get (checkRateLimit rl userId username now).2 userId
          = some { count := 1, windowStart := now }
      ∧ (checkRateLimit rl0 userId username now).1 = (checkRateLimit rl userId username now).1
      ∧ JsMap.get (checkRateLimit rl0 userId username now).2 userId
          = JsMap.get (checkRateLimit rl userId username now).2 userId
      ∧ ∀ other : Int, other ≠ userId →
          JsMap.get (checkRateLimit rl userId username now).2 other = JsMap.get rl other := by
  rw [checkRateLimit_expired rl userId username now w hpriv hget hexp,
    checkRateLimit_fresh rl0 userId username now hpriv hfresh]
  refine ⟨rfl, JsMap.get_set_same _ _ _, rfl, ?_, ?_⟩
  · simp [JsMap.get_set_same]
  · intro other hne
    exact JsMap.get_set_other _ _ _ _ hne

/-- C2 witness: user 7 exhausted the quota in a window opened at time 0 and
calls again one millisecond after the window length has passed. -/
theorem checkRateLimit_expired_behaves_as_first_call_witness :
    (checkRateLimit [(7, { count := 2, windowStart := 0 })] 7 none 86400001).1 = true
      ∧ JsMap.get (checkRateLimit [(7, { count := 2, windowStart := 0 })] 7 none 86400001).2 7
          = some { count := 1, windowStart := 86400001 } := by
  have h := checkRateLimit_expired_behaves_as_first_call
    [(7, { count := 2, windowStart := 0 })] [] 7 none 86400001 { count := 2, windowStart := 0 }
    (by decide) rfl (by simp [RATE_LIMIT_WINDOW]) rfl
  exact ⟨h.1, h.2.1⟩

/-- C3. Whenever `checkRateLimit` answers `false`, the whole rate-limiter map
(every user's count and windowStart, the caller's included) is the same after
the call as before. -/
theorem checkRateLimit_denial_leaves_state (rl : RateLimiter) (userId : Int)
    (username : Option String) (now : Int)
    (hdeny : (checkRateLimit rl userId username now).1 = false) :
    (checkRateLimit rl userId username now).2 = rl := by
  by_cases hpriv : username = some "firekidffx"
  · simp [checkRateLimit, hpriv] at hdeny
  · cases hget : JsMap.get rl userId with
    | none =>
      rw [checkRateLimit_fresh rl userId username now hpriv hget] at hdeny
      simp at hdeny
    | some w =>
      by_cases hexp : now - w.windowStart > RATE_LIMIT_WINDOW
      · rw [checkRateLimit_expired rl userId username now w hpriv hget hexp] at hdeny
        simp at hdeny
      · rw [checkRateLimit_live rl userId username now w hpriv hget hexp] at hdeny ⊢
        by_cases hc : w.count ≥ MAX_REQUESTS_PER_WINDOW
        · simp [hc]
        · simp [hc] at hdeny

/-- C3 witness: the third call of user 7 inside the window is refused and the
map, which also holds user 8, is unchanged. -/
theorem checkRateLimit_denial_leaves_state_witness :
    (checkRateLimit [(7, { count := 2, windowStart := 100 }), (8, { count := 1, windowStart := 3 })]
        7 (some "alice") 200).1 = false
      ∧ (checkRateLimit [(7, { count := 2, windowStart := 100 }), (8, { count := 1, windowStart := 3 })]
        7 (some "alice") 200).2
        = [(7, { count := 2, windowStart := 100 }), (8, { count := 1, windowStart := 3 })] :=
  ⟨by decide, checkRateLimit_denial_leaves_state _ 7 (some "alice") 200 (by decide)⟩

/-- C4. For every rate-limiter state, every userId and every time, a call for
the privileged caller (username `firekidffx`) answers `true` and returns the
map unchanged: no window is created, no count incremented. -/
theorem checkRateLimit_privileged (rl : RateLimiter) (userId : Int) (now : Int) :
    checkRateLimit rl userId (some "firekidffx") now = (true, rl) := by
  simp [checkRateLimit]

/-! ## Session registry -/

theorem hexDigit_toUpper_ne_t (n : Fin 16) : (hexDigit n.val).toUpper ≠ 't' := by
  revert n
  decide

theorem tempKey_data (userId : Int) (phoneNumber : String) :
    (tempKey userId phoneNumber).data
      = 't' :: 'e' :: 'm' :: 'p' :: '_' :: ((toString userId).data ++ '_' :: phoneNumber.data) := by
  simp [tempKey, String.data_append]

/-- A generated session id is never a temporary key. -/
theorem newSessionId_ne_tempKey (bytes : List (Fin 256)) (userId : Int) (phoneNumber : String) :
    newSessionId bytes ≠ tempKey userId phoneNumber := by
  intro h
  have hd := congrArg String.data h
  rw [tempKey_data] at hd
  cases bytes with
  | nil => simp [newSessionId, sessionIdChars] at hd
  | cons b bs =>
    simp only [newSessionId, sessionIdChars, List.cons.injEq] at hd
    have hlt : b.val / 16 < 16 := by
      have := b.isLt
      omega
    exact hexDigit_toUpper_ne_t ⟨b.val / 16, hlt⟩ hd.1

/-- C5 (failing input). User 42 starts an attempt for one phone number and,
before that attempt is issued its code, a second attempt for another number:
both eviction loops find nothing to evict, both attempts register their
waiting entry, and the registry then holds two `waiting_for_auth` entries of
user 42. -/
theorem activeSessions_two_waiting_after_overlapping_attempts :
    waitingCount (RegistryState.run
      [.startAttempt 42 "2348123456789", .startAttempt 42 "15551234567",
       .codeIssued 42 "2348123456789" 1 "auth_42_1000" 3000,
       .codeIssued 42 "15551234567" 2 "auth_42_1500" 3500]).activeSessions 42 = 2 := by
  decide

/-- C10. For every registry, every archive outcome and every session id other
than the temporary key (every generated id is, `newSessionId_ne_tempKey`),
after `handleSuccessfulConnection` the registry has no entry under
`temp_<userId>_<phoneNumber>`, has under `sessionId` a `connected` entry with
the given userId, phoneNumber, socket and authDir whose `savedToGitHub` is the
archive's success value (false when archival threw), `saveSession` was called
exactly once (with these arguments), and the entry under every other key is
unchanged. -/
theorem handleSuccessfulConnection_promotes (reg : ActiveSessions) (archive : ArchiveOutcome)
    (now : Int) (socket : Nat) (sessionId phoneNumber : String) (userId : Int)
    (authDir : String) (hid : sessionId ≠ tempKey userId phoneNumber) :
    JsMap.get (handleSuccessfulConnection reg archive now socket sessionId phoneNumber userId
        authDir).1 (tempKey userId phoneNumber) = none
      ∧ JsMap.get (handleSuccessfulConnection reg archive now socket sessionId phoneNumber userId
          authDir).1 sessionId
        = some { userId := userId, phoneNumber := phoneNumber, timestamp := now,
                 status := .connected, socket := socket, authDir := authDir,
                 savedToGitHub :=
                   some (match archive with
                     | .returned success => success
                     | .threw => false) }
      ∧ (handleSuccessfulConnection reg archive now socket sessionId phoneNumber userId
          authDir).2
        = [{ sessionId := sessionId, phoneNumber := phoneNumber, authDir := authDir,
             userId := userId }]
      ∧ ∀ key : String, key ≠ tempKey userId phoneNumber → key ≠ sessionId →
          JsMap.get (handleSuccessfulConnection reg archive now socket sessionId phoneNumber
            userId authDir).1 key = JsMap.get reg key := by
  refine ⟨?_, ?_, rfl, ?_⟩
  · simp only [handleSuccessfulConnection]
    rw [JsMap.get_set_other _ _ _ _ (Ne.symm hid), JsMap.get_delete_same]
  · simp only [handleSuccessfulConnection]
    rw [JsMap.get_set_same]
    cases archive <;> rfl
  · intro key h1 h2
    simp only [handleSuccessfulConnection]
    rw [JsMap.get_set_other _ _ _ _ h2, JsMap.get_delete_other _ _ _ h1]

/-- C10 witness: the archive throws while user 42 is promoted; the waiting
entry is gone, the connected entry records `savedToGitHub = false`, and the
entry of user 9 is untouched. -/
theorem handleSuccessfulConnection_promotes_witness :
    JsMap.get (handleSuccessfulConnection
        [(tempKey 42 "2348123456789",
          { userId := 42, phoneNumber := "2348123456789", timestamp := 1000,
            status := .waiting_for_auth, socket := 1, authDir := "auth_42_900",
            savedToGitHub := none }),
         ("00FF00FF00FF00FF",
          { userId := 9, phoneNumber := "15551234567", timestamp := 10, status := .connected,
            socket := 0, authDir := "auth_9_5", savedToGitHub := some true })]
        .threw 5000 1 (newSessionId [171, 205, 239, 1, 35, 69, 103, 137]) "2348123456789" 42
        "auth_42_900").1 (tempKey 42 "2348123456789") = none :=
  (handleSuccessfulConnection_promotes _ .threw 5000 1
    (newSessionId [171, 205, 239, 1, 35, 69, 103, 137]) "2348123456789" 42 "auth_42_900"
    (by decide)).1

/-! ## Attempts: retry bookkeeping -/

theorem requestFailure_retry (rc : Nat) (status : Option Int) (msg : String) (x : Nat)
    (h : requestFailure rc status msg = .retry x) : x = rc + 1 ∧ rc < MAX_RETRIES := by
  unfold requestFailure at h
  split at h
  · split at h
    · rename_i hlt
      simp only [Settlement.retry.injEq] at h
      exact ⟨h.symm, hlt⟩
    · simp at h
  · split at h
    · simp at h
    · split at h <;> simp at h

theorem closeBeforeCode_retry (rc : Nat) (status : Option Int) (x : Nat)
    (h : closeBeforeCode rc status = .retry x) : x = rc + 1 ∧ rc < MAX_RETRIES := by
  unfold closeBeforeCode at h
  split at h
  · split at h
    · rename_i hlt
      simp only [Settlement.retry.injEq] at h
      exact ⟨h.symm, hlt⟩
    · simp at h
  · simp at h

namespace Attempt

theorem retryInv_start (rc : Nat) : RetryInv rc (start rc) := by
  simp [RetryInv, start]

theorem retryInv_settle (rc : Nat) (a : Attempt) (s : Settlement) (h : RetryInv rc a)
    (hs : ∀ x, s = .retry x → x = rc + 1 ∧ rc < MAX_RETRIES) : RetryInv rc (a.settle s) := by
  obtain ⟨h1, h2, h3⟩ := h
  unfold settle
  cases hset : a.settled with
  | none =>
    refine ⟨by simpa [emit, hset] using h1, ?_, by simpa [emit, hset] using h3⟩
    intro x hx
    simp [emit, hset] at hx
    exact hs x hx
  | some y =>
    refine ⟨by simpa [emit, hset] using h1, ?_, by simpa [emit, hset] using h3⟩
    intro x hx
    simp [emit, hset] at hx
    exact h2 x (by rw [hset, hx])

theorem retryInv_congr (rc : Nat) (a b : Attempt) (h : RetryInv rc a)
    (h1 : b.retryCount = a.retryCount) (h2 : b.settled = a.settled)
    (h3 : b.awaitingRetryDelay = a.awaitingRetryDelay) : RetryInv rc b := by
  unfold RetryInv at *
  rw [h1, h2, h3]
  exact h

theorem retryInv_cleanupSocket (rc : Nat) (a : Attempt) (s : Sock) (h : RetryInv rc a) :
    RetryInv rc (a.cleanupSocket s) := by
  apply retryInv_congr rc a _ h <;> cases s <;> simp [cleanupSocket, emit] <;> split <;> rfl

theorem retryInv_openBlock (rc : Nat) (a : Attempt) (u : ConnectionUpdate) (h : RetryInv rc a) :
    RetryInv rc (openBlock a u) := by
  unfold openBlock
  split
  · exact retryInv_congr rc a _ h rfl rfl rfl
  · exact h

theorem retryInv_closeBlock (rr : Int) (rc : Nat) (a : Attempt) (u : ConnectionUpdate)
    (h : RetryInv rc a) : RetryInv rc (closeBlock rr a u) := by
  unfold closeBlock
  split
  · split
    · split
      · exact retryInv_congr rc a _ h rfl rfl rfl
      · exact h
    · split
      · have h2 : RetryInv rc ((a.clearTimeout).cleanupSocket .original) :=
          retryInv_cleanupSocket rc _ _ (retryInv_congr rc a _ h rfl rfl rfl)
        have hrc : ((a.clearTimeout).cleanupSocket .original).retryCount = rc := h2.1
        dsimp only
        split
        · rename_i x hx
          rw [hrc] at hx
          have hx1 := closeBeforeCode_retry rc u.statusCode x hx
          refine ⟨h2.1, h2.2.1, ?_⟩
          intro p hp y hy
          simp only [List.mem_append, List.mem_singleton] at hp
          rcases hp with hp | hp
          · exact h2.2.2 p hp y hy
          · subst hp
            simp only [Settlement.retry.injEq] at hy
            subst hy
            exact hx1
        · rename_i x hx
          apply retryInv_settle rc _ _ h2
          intro y hy
          exact absurd hy (hx y)
      · exact h
  · exact h

theorem retryInv_afterRequestBlock (rr : Int) (rc : Nat) (a : Attempt) (u : ConnectionUpdate)
    (h : RetryInv rc a) : RetryInv rc (afterRequestBlock rr a u) :=
  retryInv_closeBlock rr rc _ u (retryInv_openBlock rc a u h)

theorem retryInv_onConnectionUpdate (rr : Int) (rc : Nat) (a : Attempt) (u : ConnectionUpdate)
    (h : RetryInv rc a) : RetryInv rc (onConnectionUpdate rr a u) := by
  unfold onConnectionUpdate
  split
  · exact retryInv_congr rc a _ h rfl rfl rfl
  · exact retryInv_afterRequestBlock rr rc a u h

theorem retryInv_onCodeRequestDone (rr : Int) (rc : Nat) (a : Attempt) (r : RequestResult)
    (h : RetryInv rc a) : RetryInv rc (onCodeRequestDone rr a r) := by
  unfold onCodeRequestDone
  split
  · exact h
  · rename_i u hu
    have h0 : RetryInv rc { a with awaitingCode := none } := retryInv_congr rc a _ h rfl rfl rfl
    dsimp only
    split
    · rename_i c
      apply retryInv_afterRequestBlock
      apply retryInv_settle
      · exact retryInv_congr rc a _ h rfl rfl rfl
      · intro x hx
        simp at hx
    · rename_i statusCode message
      have h1 : RetryInv rc (clearTimeout { a with awaitingCode := none }) :=
        retryInv_congr rc a _ h rfl rfl rfl
      have hrc : (clearTimeout { a with awaitingCode := none }).retryCount = rc := h1.1
      split
      · rename_i x hx
        rw [hrc] at hx
        have hx1 := requestFailure_retry rc statusCode message x hx
        have h2 := retryInv_cleanupSocket rc _ .original h1
        refine ⟨h2.1, h2.2.1, ?_⟩
        intro p hp y hy
        simp only [List.mem_append, List.mem_singleton] at hp
        rcases hp with hp | hp
        · exact h2.2.2 p hp y hy
        · subst hp
          simp only [Settlement.retry.injEq] at hy
          subst hy
          exact hx1
      · rename_i x hx
        apply retryInv_afterRequestBlock
        apply retryInv_settle rc _ _ h1
        intro y hy
        exact absurd hy (hx y)

theorem retryInv_onRetryDelayElapsed (rr : Int) (rc : Nat) (a : Attempt)
    (h : RetryInv rc a) : RetryInv rc (onRetryDelayElapsed rr a) := by
  unfold onRetryDelayElapsed
  split
  · exact h
  · rename_i x cont rest hrest
    have hx : ∀ y, x = Settlement.retry y → y = rc + 1 ∧ rc < MAX_RETRIES := by
      intro y hy
      exact h.2.2 (x, cont) (by rw [hrest]; exact List.mem_cons_self _ _) y hy
    have h1 : RetryInv rc (settle { a with awaitingRetryDelay := rest } x) := by
      apply retryInv_settle _ _ _ _ hx
      refine ⟨h.1, h.2.1, ?_⟩
      intro p hp y hy
      exact h.2.2 p (by rw [hrest]; exact List.mem_cons_of_mem _ hp) y hy
    dsimp only
    split
    · exact h1
    · exact retryInv_afterRequestBlock rr rc _ _ h1

theorem retryInv_onReconnectDelayElapsed (rc : Nat) (a : Attempt) (ok : Bool)
    (h : RetryInv rc a) : RetryInv rc (onReconnectDelayElapsed a ok) := by
  unfold onReconnectDelayElapsed
  split
  · have h1 : RetryInv rc (cleanupSocket { a with awaitingReconnect := false } .original) :=
      retryInv_cleanupSocket rc _ _ (retryInv_congr rc a _ h rfl rfl rfl)
    dsimp only
    split
    · exact retryInv_congr rc _ _ h1 rfl rfl rfl
    · apply retryInv_settle
      · exact retryInv_cleanupSocket rc _ _ (retryInv_congr rc _ _ h1 rfl rfl rfl)
      · intro x hx
        simp at hx
  · exact h

theorem retryInv_onReconnectUpdate (rc : Nat) (a : Attempt) (c : Option Connection)
    (h : RetryInv rc a) : RetryInv rc (onReconnectUpdate a c) := by
  have h1 : RetryInv rc (reconnectOpenBlock a c) := by
    unfold reconnectOpenBlock
    split
    · exact retryInv_congr rc a _ h rfl rfl rfl
    · exact h
  unfold onReconnectUpdate
  dsimp only
  split
  · apply retryInv_settle
    · exact retryInv_cleanupSocket rc _ _ (retryInv_congr rc _ _ h1 rfl rfl rfl)
    · intro x hx
      simp at hx
  · exact h1

theorem retryInv_onTimeout (rc : Nat) (a : Attempt) (h : RetryInv rc a) :
    RetryInv rc (onTimeout a) := by
  unfold onTimeout
  split
  · apply retryInv_settle
    · exact retryInv_cleanupSocket rc _ _ (retryInv_cleanupSocket rc _ _ h)
    · intro x hx
      simp at hx
  · exact h

theorem retryInv_outerCatch (rc : Nat) (a : Attempt) (h : RetryInv rc a) :
    RetryInv rc (outerCatch a) := by
  unfold outerCatch
  split
  · exact h
  · exact h
  · split
    · exact h
    · exact retryInv_congr rc _ _
        (retryInv_cleanupSocket rc _ .reconnect (retryInv_cleanupSocket rc _ .original h))
        rfl rfl rfl

theorem retryInv_step (rr : Int) (rc : Nat) (a : Attempt) (e : AttemptEvent)
    (h : RetryInv rc a) : RetryInv rc (step rr a e) := by
  cases e with
  | connectionUpdate u =>
    simp only [step]
    split
    · exact retryInv_outerCatch rc _ (retryInv_onConnectionUpdate rr rc a u h)
    · exact h
  | codeRequestDone r => exact retryInv_outerCatch rc _ (retryInv_onCodeRequestDone rr rc a r h)
  | retryDelayElapsed => exact retryInv_outerCatch rc _ (retryInv_onRetryDelayElapsed rr rc a h)
  | reconnectDelayElapsed ok =>
    exact retryInv_outerCatch rc _ (retryInv_onReconnectDelayElapsed rc a ok h)
  | reconnectUpdate c =>
    simp only [step]
    split
    · exact retryInv_outerCatch rc _ (retryInv_onReconnectUpdate rc a c h)
    · exact h
  | timeout =>
    simp only [step]
    split
    · exact retryInv_outerCatch rc _ (retryInv_onTimeout rc _ (retryInv_congr rc a _ h rfl rfl rfl))
    · exact h

theorem retryInv_run (rr : Int) (rc : Nat) (events : List AttemptEvent) :
    ∀ a : Attempt, RetryInv rc a → RetryInv rc (run rr a events) := by
  induction events with
  | nil => intro a h; exact h
  | cons e es ih =>
    intro a h
    exact ih _ (retryInv_step rr rc a e h)

/-- Every retry rejection of an attempt carries `retryCount + 1` and is made
only when `retryCount < MAX_RETRIES`. -/
theorem settled_retry (rr : Int) (rc : Nat) (events : List AttemptEvent) (x : Nat)
    (h : (run rr (start rc) events).settled = some (.retry x)) :
    x = rc + 1 ∧ rc < MAX_RETRIES :=
  (retryInv_run rr rc events _ (retryInv_start rc)).2.1 x h

end Attempt

/-! ## The retry chain of `generatePairingCode` -/

theorem generatePairingCode_fuel_succ (rr : Int) (env : Nat → AttemptScript) :
    ∀ (fuel n rc : Nat) (r : PairingResult × List Nat),
      generatePairingCode rr env fuel n rc = some r →
      generatePairingCode rr env (fuel + 1) n rc = some r := by
  intro fuel
  induction fuel with
  | zero => intro n rc r h; simp [generatePairingCode] at h
  | succ fuel ih =>
    intro n rc r h
    rw [generatePairingCode] at h ⊢
    split at h
    · exact h
    · split at h
      · exact h
      · exact h
      · exact h
      · rename_i x hs
        cases hrec : generatePairingCode rr env fuel (n + 1) x with
        | none => simp [hrec] at h
        | some r1 =>
          rw [hrec] at h
          rw [ih (n + 1) x r1 hrec]
          exact h

theorem generatePairingCode_fuel_le (rr : Int) (env : Nat → AttemptScript)
    (fuel fuel1 n rc : Nat) (r : PairingResult × List Nat) (hle : fuel ≤ fuel1)
    (h : generatePairingCode rr env fuel n rc = some r) :
    generatePairingCode rr env fuel1 n rc = some r := by
  induction hle with
  | refl => exact h
  | step _ ih => exact generatePairingCode_fuel_succ rr env _ n rc r ih

theorem generatePairingCode_bounded (rr : Int) (env : Nat → AttemptScript) :
    ∀ (fuel n rc : Nat), 0 < fuel → MAX_RETRIES + 1 ≤ fuel + rc →
      ∃ r, generatePairingCode rr env fuel n rc = some r
        ∧ r.2 = List.range' rc r.2.length
        ∧ 0 < r.2.length
        ∧ (rc ≤ MAX_RETRIES → r.2.length + rc ≤ MAX_RETRIES + 1)
        ∧ (MAX_RETRIES < rc → r.2.length = 1) := by
  intro fuel
  induction fuel with
  | zero => intro n rc h; omega
  | succ fuel ih =>
    intro n rc _ hfuel
    rw [generatePairingCode]
    split
    · exact ⟨_, rfl, by simp [List.range'], by simp, by simp; omega, by simp⟩
    · rename_i events _
      split
      · exact ⟨_, rfl, by simp [List.range'], by simp, by simp; omega, by simp⟩
      · exact ⟨_, rfl, by simp [List.range'], by simp, by simp; omega, by simp⟩
      · exact ⟨_, rfl, by simp [List.range'], by simp, by simp; omega, by simp⟩
      · rename_i x hs
        obtain ⟨hx, hlt⟩ := Attempt.settled_retry rr rc events x hs
        subst hx
        have hpos : 0 < fuel := by
          simp only [MAX_RETRIES] at hfuel hlt
          omega
        obtain ⟨r, hr, hrange, hlen, hbound, _⟩ := ih (n + 1) (rc + 1) hpos (by omega)
        refine ⟨(r.1, rc :: r.2), by simp [hr], ?_, by simp, ?_, ?_⟩
        · simp only [List.length_cons, List.range'_succ]
          rw [← hrange]
        · intro _
          have := hbound (by simp only [MAX_RETRIES] at hlt ⊢; omega)
          simp only [List.length_cons]
          omega
        · intro hgt
          omega

/-- C6. One logical call `generatePairingCode(phone, userId)` (initial
retryCount 0) terminates whatever happens to its connections: with recursion
depth `MAX_RETRIES + 1 = 3` (or any larger bound) it gives a result, it
performs at most `MAX_RETRIES + 1 = 3` connection attempts, the attempts carry
the retry counts 0, 1, 2, ... in this order (each retry recurses with
retryCount exactly one larger), and an attempt is rejected for retry only with
`retryCount + 1` and only when its `retryCount < MAX_RETRIES`. -/
theorem generatePairingCode_at_most_three_attempts (restartRequired : Int)
    (env : Nat → AttemptScript) :
    (∃ r, generatePairingCode restartRequired env (MAX_RETRIES + 1) 0 0 = some r
        ∧ r.2.length ≤ MAX_RETRIES + 1
        ∧ r.2 = List.range r.2.length
        ∧ ∀ fuel, MAX_RETRIES + 1 ≤ fuel →
            generatePairingCode restartRequired env fuel 0 0 = some r)
      ∧ ∀ (retryCount : Nat) (events : List AttemptEvent) (next : Nat),
          (Attempt.run restartRequired (Attempt.start retryCount) events).settled
              = some (.retry next) →
          next = retryCount + 1 ∧ retryCount < MAX_RETRIES := by
  refine ⟨?_, fun rc events x h => Attempt.settled_retry restartRequired rc events x h⟩
  obtain ⟨r, hr, hrange, _, hbound, _⟩ :=
    generatePairingCode_bounded restartRequired env (MAX_RETRIES + 1) 0 0 (by simp) (by simp)
  refine ⟨r, hr, ?_, ?_, ?_⟩
  · have := hbound (Nat.zero_le _)
    omega
  · rw [List.range_eq_range']
    exact hrange
  · intro fuel hfuel
    exact generatePairingCode_fuel_le restartRequired env _ fuel 0 0 r hfuel hr

/-- C6 witness: every connection meets a transient block, alternately as a
failed code request (status 428) and as a close before any code (status 405);
the call makes the attempts 0, 1, 2 and then fails as blocked. -/
theorem generatePairingCode_at_most_three_attempts_witness :
    generatePairingCode 515
        (fun n =>
          if n % 2 = 0 then
            .events
              [.connectionUpdate { connection := some .connecting, statusCode := none, qr := false },
               .codeRequestDone (.error (some 428) "Precondition Required"), .retryDelayElapsed]
          else
            .events
              [.connectionUpdate { connection := some .close, statusCode := some 405, qr := false },
               .retryDelayElapsed])
        (MAX_RETRIES + 1) 0 0
      = some (.thrown "WhatsApp blocked requests. Try again in 2-4 hours.", [0, 1, 2]) := by
  obtain ⟨r, hr, _, _, _⟩ := (generatePairingCode_at_most_three_attempts 515
    (fun n =>
      if n % 2 = 0 then
        .events
          [.connectionUpdate { connection := some .connecting, statusCode := none, qr := false },
           .codeRequestDone (.error (some 428) "Precondition Required"), .retryDelayElapsed]
      else
        .events
          [.connectionUpdate { connection := some .close, statusCode := some 405, qr := false },
           .retryDelayElapsed])).1
  rw [hr]
  have hd : generatePairingCode 515
        (fun n =>
          if n % 2 = 0 then
            .events
              [.connectionUpdate { connection := some .connecting, statusCode := none, qr := false },
               .codeRequestDone (.error (some 428) "Precondition Required"), .retryDelayElapsed]
          else
            .events
              [.connectionUpdate { connection := some .close, statusCode := some 405, qr := false },
               .retryDelayElapsed])
        (MAX_RETRIES + 1) 0 0
      = some (.thrown "WhatsApp blocked requests. Try again in 2-4 hours.", [0, 1, 2]) := by
    decide
  rw [hr] at hd
  exact hd

/-! ## Classification of failures -/

theorem outcomeClass_failed (text : String) :
    (Settlement.error ("Failed: " ++ text)).outcomeClass = .Unknown := by
  have hd : ("Failed: " ++ text).data = 'F' :: 'a' :: 'i' :: 'l' :: 'e' :: 'd' :: ':' :: ' ' :: text.data := by
    simp [String.data_append]
  have hne : ∀ s : String, s.data.head? ≠ some 'F' → "Failed: " ++ text ≠ s := by
    intro s hs he
    apply hs
    rw [← he, hd]
    rfl
  simp only [Settlement.outcomeClass]
  rw [if_neg (hne _ (by decide)), if_neg, if_neg (hne _ (by decide)), if_neg (hne _ (by decide)),
    if_neg]
  · rintro (h | h)
    · exact hne _ (by decide) h
    · exact hne _ (by decide) h
  · rintro (h | h)
    · exact hne _ (by decide) h
    · exact hne _ (by decide) h

theorem requestFailure_class_of_not_includes (rc : Nat) (status : Option Int) (msg : String)
    (hmsg : includes msg "Connection Closed" = false) :
    (requestFailure rc status msg).outcomeClass = specRequestFailureClass rc status := by
  unfold requestFailure specRequestFailureClass
  by_cases h1 : status = some 428 ∨ status = some 405
  · have h1' : status = some 428 ∨ status = some 405 ∨ includes msg "Connection Closed" = true := by
      rcases h1 with h | h
      · exact Or.inl h
      · exact Or.inr (Or.inl h)
    rw [if_pos h1', if_pos h1]
    by_cases h2 : rc < MAX_RETRIES
    · have h2' : rc < 2 := h2
      rw [if_pos h2, if_pos h2']
      rfl
    · have h2' : ¬ rc < 2 := h2
      rw [if_neg h2, if_neg h2']
      decide
  · have h1' : ¬ (status = some 428 ∨ status = some 405 ∨ includes msg "Connection Closed" = true) := by
      rintro (h | h | h)
      · exact h1 (Or.inl h)
      · exact h1 (Or.inr h)
      · rw [hmsg] at h
        exact Bool.false_ne_true h
    rw [if_neg h1', if_neg h1]
    by_cases h3 : status = some 403
    · rw [if_pos h3, if_pos h3]
      decide
    · rw [if_neg h3, if_neg h3]
      by_cases h4 : status = some 429
      · rw [if_pos h4, if_pos h4]
        decide
      · rw [if_neg h4, if_neg h4]
        exact outcomeClass_failed _

theorem requestFailure_of_includes (rc : Nat) (status : Option Int) (msg : String)
    (hmsg : includes msg "Connection Closed" = true) :
    requestFailure rc status msg
      = if rc < MAX_RETRIES then .retry (rc + 1)
        else .error "WhatsApp blocked requests. Try again in 2-4 hours." := by
  unfold requestFailure
  rw [if_pos (Or.inr (Or.inr hmsg))]

/-! ## Attempts: the first settlement stays -/

namespace Attempt

theorem settled_settle_of_some (a : Attempt) (y x : Settlement) (h : a.settled = some x) :
    (a.settle y).settled = some x := by
  simp [settle, emit, h]

theorem settled_settle_of_none (a : Attempt) (y : Settlement) (h : a.settled = none) :
    (a.settle y).settled = some y := by
  simp [settle, emit, h]

theorem settled_cleanupSocket (a : Attempt) (s : Sock) :
    (a.cleanupSocket s).settled = a.settled := by
  cases s
  · rfl
  · simp only [cleanupSocket]
    split <;> rfl

theorem settled_openBlock (a : Attempt) (u : ConnectionUpdate) :
    (openBlock a u).settled = a.settled := by
  unfold openBlock
  split <;> rfl

theorem settled_closeBlock_of_some (rr : Int) (a : Attempt) (u : ConnectionUpdate)
    (x : Settlement) (h : a.settled = some x) : (closeBlock rr a u).settled = some x := by
  unfold closeBlock
  split
  · split
    · split
      · exact h
      · exact h
    · split
      · have h2 : ((a.clearTimeout).cleanupSocket .original).settled = some x := by
          rw [settled_cleanupSocket]
          exact h
        dsimp only
        split
        · exact h2
        · exact settled_settle_of_some _ _ _ h2
      · exact h
  · exact h

theorem settled_afterRequestBlock_of_some (rr : Int) (a : Attempt) (u : ConnectionUpdate)
    (x : Settlement) (h : a.settled = some x) : (afterRequestBlock rr a u).settled = some x :=
  settled_closeBlock_of_some rr _ u x (by rw [settled_openBlock]; exact h)

theorem settled_outerCatch (a : Attempt) : (outerCatch a).settled = a.settled := by
  unfold outerCatch
  split
  · rfl
  · rfl
  · split
    · rfl
    · show (((a.cleanupSocket .original).cleanupSocket .reconnect).clearTimeout).settled = _
      simp only [clearTimeout]
      rw [settled_cleanupSocket, settled_cleanupSocket]

theorem settled_onConnectionUpdate_of_some (rr : Int) (a : Attempt) (u : ConnectionUpdate)
    (x : Settlement) (h : a.settled = some x) : (onConnectionUpdate rr a u).settled = some x := by
  unfold onConnectionUpdate
  split
  · exact h
  · exact settled_afterRequestBlock_of_some rr a u x h

theorem settled_onCodeRequestDone_of_some (rr : Int) (a : Attempt) (r : RequestResult)
    (x : Settlement) (h : a.settled = some x) : (onCodeRequestDone rr a r).settled = some x := by
  unfold onCodeRequestDone
  split
  · exact h
  · dsimp only
    split
    · apply settled_afterRequestBlock_of_some
      apply settled_settle_of_some
      exact h
    · split
      · show (cleanupSocket _ .original).settled = some x
        rw [settled_cleanupSocket]
        exact h
      · apply settled_afterRequestBlock_of_some
        apply settled_settle_of_some
        exact h

theorem settled_onRetryDelayElapsed_of_some (rr : Int) (a : Attempt)
    (x : Settlement) (h : a.settled = some x) : (onRetryDelayElapsed rr a).settled = some x := by
  unfold onRetryDelayElapsed
  split
  · exact h
  · dsimp only
    split
    · exact settled_settle_of_some _ _ _ h
    · exact settled_afterRequestBlock_of_some rr _ _ x (settled_settle_of_some _ _ _ h)

theorem settled_onReconnectDelayElapsed_of_some (a : Attempt) (ok : Bool)
    (x : Settlement) (h : a.settled = some x) :
    (onReconnectDelayElapsed a ok).settled = some x := by
  unfold onReconnectDelayElapsed
  split
  · dsimp only
    split
    · show (cleanupSocket _ .original).settled = some x
      rw [settled_cleanupSocket]
      exact h
    · apply settled_settle_of_some
      rw [settled_cleanupSocket]
      show (cleanupSocket _ .original).settled = some x
      rw [settled_cleanupSocket]
      exact h
  · exact h

theorem settled_onReconnectUpdate_of_some (a : Attempt) (c : Option Connection)
    (x : Settlement) (h : a.settled = some x) : (onReconnectUpdate a c).settled = some x := by
  have h1 : (reconnectOpenBlock a c).settled = some x := by
    unfold reconnectOpenBlock
    split
    · exact h
    · exact h
  unfold onReconnectUpdate
  dsimp only
  split
  · apply settled_settle_of_some
    rw [settled_cleanupSocket]
    exact h1
  · exact h1

theorem settled_onTimeout_of_some (a : Attempt) (x : Settlement) (h : a.settled = some x) :
    (onTimeout a).settled = some x := by
  unfold onTimeout
  split
  · apply settled_settle_of_some
    rw [settled_cleanupSocket, settled_cleanupSocket]
    exact h
  · exact h

/-- Once the promise is settled, no later event changes its settlement. -/
theorem settled_step_of_some (rr : Int) (a : Attempt) (e : AttemptEvent) (x : Settlement)
    (h : a.settled = some x) : (step rr a e).settled = some x := by
  cases e with
  | connectionUpdate u =>
    simp only [step]
    split
    · rw [settled_outerCatch]
      exact settled_onConnectionUpdate_of_some rr a u x h
    · exact h
  | codeRequestDone r =>
    simp only [step]
    rw [settled_outerCatch]
    exact settled_onCodeRequestDone_of_some rr a r x h
  | retryDelayElapsed =>
    simp only [step]
    rw [settled_outerCatch]
    exact settled_onRetryDelayElapsed_of_some rr a x h
  | reconnectDelayElapsed ok =>
    simp only [step]
    rw [settled_outerCatch]
    exact settled_onReconnectDelayElapsed_of_some a ok x h
  | reconnectUpdate c =>
    simp only [step]
    split
    · rw [settled_outerCatch]
      exact settled_onReconnectUpdate_of_some a c x h
    · exact h
  | timeout =>
    simp only [step]
    split
    · rw [settled_outerCatch]
      exact settled_onTimeout_of_some _ x h
    · exact h

theorem settled_run_of_some (rr : Int) (events : List AttemptEvent) (x : Settlement) :
    ∀ a : Attempt, a.settled = some x → (run rr a events).settled = some x := by
  induction events with
  | nil => intro a h; exact h
  | cons e es ih =>
    intro a h
    exact ih _ (settled_step_of_some rr a e x h)

theorem awaitingRetryDelay_cleanupSocket (a : Attempt) (s : Sock) :
    (a.cleanupSocket s).awaitingRetryDelay = a.awaitingRetryDelay := by
  cases s
  · rfl
  · simp only [cleanupSocket]
    split <;> rfl

theorem outerCatch_of_none (a : Attempt) (h : a.settled = none) : outerCatch a = a := by
  unfold outerCatch
  rw [h]

theorem settled_retryDelay (rr : Int) (b : Attempt) (x : Settlement)
    (cont : Option ConnectionUpdate) (rest : List (Settlement × Option ConnectionUpdate))
    (hs : b.settled = none) (hq : b.awaitingRetryDelay = (x, cont) :: rest) :
    (onRetryDelayElapsed rr (outerCatch b)).settled = some x := by
  rw [outerCatch_of_none b hs]
  unfold onRetryDelayElapsed
  simp only [hq]
  cases cont with
  | none => exact settled_settle_of_none _ _ hs
  | some u => exact settled_afterRequestBlock_of_some rr _ _ _ (settled_settle_of_none _ _ hs)

/-- The promise of an attempt whose code request fails is settled as the
`catch` block of lines 513-533 decides, once the retry delay (if any) is over. -/
theorem settled_after_request_failure (rr : Int) (a : Attempt) (u : ConnectionUpdate)
    (status : Option Int) (msg : String)
    (hawait : a.awaitingCode = some u) (hnot : a.settled = none)
    (hq : a.awaitingRetryDelay = []) :
    (run rr a [.codeRequestDone (.error status msg), .retryDelayElapsed]).settled
      = some (requestFailure a.retryCount status msg) := by
  simp only [run, List.foldl, step]
  rw [settled_outerCatch]
  unfold onCodeRequestDone
  simp only [hawait]
  have hrc : (clearTimeout { a with awaitingCode := none }).retryCount = a.retryCount := rfl
  have hs1 : (clearTimeout { a with awaitingCode := none }).settled = none := hnot
  have hq1 : (cleanupSocket (clearTimeout { a with awaitingCode := none }) .original).awaitingRetryDelay
      = [] := by
    rw [awaitingRetryDelay_cleanupSocket]
    exact hq
  have hs2 : (cleanupSocket (clearTimeout { a with awaitingCode := none }) .original).settled
      = none := by
    rw [settled_cleanupSocket]
    exact hnot
  split
  · rename_i x hx
    rw [hrc] at hx
    rw [hx]
    apply settled_retryDelay rr _ (.retry x) (some u) []
    · exact hs2
    · simp [hq1]
  · rename_i x hx
    rw [hrc]
    apply settled_onRetryDelayElapsed_of_some
    rw [settled_outerCatch]
    apply settled_afterRequestBlock_of_some
    exact settled_settle_of_none _ _ hs1

/-- The promise of an attempt whose socket closes before any code was issued,
with a status other than the restart codes, is settled as lines 610-620
decide, once the retry delay (if any) is over. -/
theorem settled_after_close_before_code (rr : Int) (a : Attempt) (status : Option Int)
    (hlisten : a.listening = true)
    (hcode : a.codeGenerated = false) (hauth : a.authSuccess = false)
    (hnot : a.settled = none) (hq : a.awaitingRetryDelay = [])
    (hrr : status ≠ some rr) (h515 : status ≠ some 515) :
    (run rr a [.connectionUpdate { connection := some .close, statusCode := status, qr := false },
        .retryDelayElapsed]).settled
      = some (closeBeforeCode a.retryCount status) := by
  simp only [run, List.foldl, step, hlisten, if_true]
  rw [settled_outerCatch]
  unfold onConnectionUpdate
  rw [if_neg (by simp)]
  unfold afterRequestBlock
  have ho : openBlock a { connection := some .close, statusCode := status, qr := false } = a := by
    simp [openBlock]
  rw [ho]
  unfold closeBlock
  simp only [if_true]
  rw [if_neg (by simp [hrr, h515]), if_pos ⟨hcode, hauth⟩]
  have hrc : ((a.clearTimeout).cleanupSocket .original).retryCount = a.retryCount := rfl
  have hs2 : ((a.clearTimeout).cleanupSocket .original).settled = none := hnot
  have hq1 : ((a.clearTimeout).cleanupSocket .original).awaitingRetryDelay = [] := hq
  split
  · rename_i x hx
    rw [hrc] at hx
    rw [hx]
    apply settled_retryDelay rr _ (.retry x) none []
    · exact hs2
    · simp [hq1]
  · rename_i x hx
    rw [hrc]
    apply settled_onRetryDelayElapsed_of_some
    rw [settled_outerCatch]
    exact settled_settle_of_none _ _ hs2

end Attempt

theorem closeBeforeCode_class (rc : Nat) (status : Option Int) :
    (closeBeforeCode rc status).outcomeClass
      = if status = some 428 ∨ status = some 405 then
          if rc < 2 then .retry else .Blocked
        else .Unknown := by
  unfold closeBeforeCode
  by_cases h1 : status = some 428 ∨ status = some 405
  · rw [if_pos h1, if_pos h1]
    by_cases h2 : rc < MAX_RETRIES
    · have h2' : rc < 2 := h2
      rw [if_pos h2, if_pos h2']
      rfl
    · have h2' : ¬ rc < 2 := h2
      rw [if_neg h2, if_neg h2']
      decide
  · rw [if_neg h1, if_neg h1]
    decide

/-- C7 (counterexample). A code request that fails with status 403 and the
message `Connection Closed` on the first attempt is answered with a retry
(retryCount 1), where the claim promises `Failed(NumberBlocked)` without
retry for status 403 whatever the message. -/
theorem requestFailure_message_overrides_status :
    (Attempt.run 515 (Attempt.start 0)
        [.connectionUpdate { connection := some .connecting, statusCode := none, qr := false },
         .codeRequestDone (.error (some 403) "Connection Closed"),
         .retryDelayElapsed]).settled = some (.retry 1)
      ∧ (requestFailure 0 (some 403) "Connection Closed").outcomeClass = .retry
      ∧ specRequestFailureClass 0 (some 403) = .NumberBlocked := by
  decide

/-- C7 (amended). When `requestPairingCode` fails in an attempt whose promise
is still open, the promise is settled with `requestFailure retryCount status
message`.  For a message that does not contain `Connection Closed` its class
depends on the status code and retryCount alone: 428 or 405 gives a retry
when retryCount < 2 and Blocked otherwise, 403 gives NumberBlocked, 429 gives
RateLimitedByRemote, every other status gives Unknown.  For a message that
contains `Connection Closed` the failure is a transient block whatever the
status: a retry with retryCount + 1 when retryCount < 2, Blocked otherwise. -/
theorem requestFailure_outcome (restartRequired : Int) (a : Attempt) (u : ConnectionUpdate)
    (status : Option Int) (message : String)
    (hawait : a.awaitingCode = some u) (hopen : a.settled = none)
    (hq : a.awaitingRetryDelay = []) :
    (Attempt.run restartRequired a
        [.codeRequestDone (.error status message), .retryDelayElapsed]).settled
        = some (requestFailure a.retryCount status message)
      ∧ (includes message "Connection Closed" = false →
          (requestFailure a.retryCount status message).outcomeClass
            = specRequestFailureClass a.retryCount status)
      ∧ (includes message "Connection Closed" = true →
          requestFailure a.retryCount status message
            = if a.retryCount < 2 then .retry (a.retryCount + 1)
              else .error "WhatsApp blocked requests. Try again in 2-4 hours.")
      ∧ (Settlement.error "WhatsApp blocked requests. Try again in 2-4 hours.").outcomeClass
          = .Blocked :=
  ⟨Attempt.settled_after_request_failure restartRequired a u status message hawait hopen hq,
   requestFailure_class_of_not_includes a.retryCount status message,
   requestFailure_of_includes a.retryCount status message,
   by decide⟩

/-- C7 witness: the code request of a first attempt fails with status 403 and
the message `Forbidden`; the promise is rejected as number blocked. -/
theorem requestFailure_outcome_witness :
    (Attempt.run 515
        (Attempt.step 515 (Attempt.start 0)
          (.connectionUpdate { connection := some .connecting, statusCode := none, qr := false }))
        [.codeRequestDone (.error (some 403) "Forbidden"), .retryDelayElapsed]).settled
      = some (.error "Number blocked. Use different number.") :=
  (requestFailure_outcome 515
    (Attempt.step 515 (Attempt.start 0)
      (.connectionUpdate { connection := some .connecting, statusCode := none, qr := false }))
    { connection := some .connecting, statusCode := none, qr := false }
    (some 403) "Forbidden" (by decide) (by decide) (by decide)).1

/-- C8 (counterexample). On a first attempt a close with status 403 before
any code rejects with `Connection failed` (class Unknown), while a code
request failing with the same status 403 rejects as NumberBlocked. -/
theorem closeBeforeCode_differs_from_requestFailure :
    (Attempt.run 515 (Attempt.start 0)
        [.connectionUpdate { connection := some .close, statusCode := some 403, qr := false },
         .retryDelayElapsed]).settled = some (.error "Connection failed")
      ∧ (Settlement.error "Connection failed").outcomeClass = .Unknown
      ∧ (Attempt.run 515 (Attempt.start 0)
          [.connectionUpdate { connection := some .connecting, statusCode := none, qr := false },
           .codeRequestDone (.error (some 403) "Forbidden"),
           .retryDelayElapsed]).settled = some (.error "Number blocked. Use different number.")
      ∧ (Settlement.error "Number blocked. Use different number.").outcomeClass
          = .NumberBlocked := by
  decide

/-- C8 (amended). Take an attempt `a` that is still listening, has no code and
no authentication and an open promise, and an attempt `b` with the same
retryCount whose code request is in flight.  For every status other than the
restart codes, a close delivered to `a` settles with `closeBeforeCode` and a
request failure in `b` with `requestFailure`; when the status is neither 403
nor 429 and the message does not contain `Connection Closed` the two have the
same outcome class (retry, Blocked or Unknown), and for status 403 or 429 the
close is Unknown. -/
theorem closeBeforeCode_outcome (restartRequired : Int) (a b : Attempt) (u : ConnectionUpdate)
    (status : Option Int) (message : String)
    (hlisten : a.listening = true) (hcode : a.codeGenerated = false)
    (hauth : a.authSuccess = false) (hopenA : a.settled = none)
    (hqA : a.awaitingRetryDelay = [])
    (hawait : b.awaitingCode = some u) (hopenB : b.settled = none)
    (hqB : b.awaitingRetryDelay = []) (hrc : b.retryCount = a.retryCount)
    (hrr : status ≠ some restartRequired) (h515 : status ≠ some 515) :
    (Attempt.run restartRequired a
        [.connectionUpdate { connection := some .close, statusCode := status, qr := false },
         .retryDelayElapsed]).settled = some (closeBeforeCode a.retryCount status)
      ∧ (Attempt.run restartRequired b
          [.codeRequestDone (.error status message), .retryDelayElapsed]).settled
          = some (requestFailure a.retryCount status message)
      ∧ (status ≠ some 403 → status ≠ some 429 →
          includes message "Connection Closed" = false →
          (closeBeforeCode a.retryCount status).outcomeClass
            = (requestFailure a.retryCount status message).outcomeClass)
      ∧ (status = some 403 ∨ status = some 429 →
          (closeBeforeCode a.retryCount status).outcomeClass = .Unknown) := by
  refine ⟨Attempt.settled_after_close_before_code restartRequired a status hlisten hcode hauth
      hopenA hqA hrr h515, ?_, ?_, ?_⟩
  · rw [← hrc]
    exact Attempt.settled_after_request_failure restartRequired b u status message hawait hopenB hqB
  · intro h403 h429 hmsg
    rw [requestFailure_class_of_not_includes _ _ _ hmsg, closeBeforeCode_class]
    unfold specRequestFailureClass
    by_cases h1 : status = some 428 ∨ status = some 405
    · rw [if_pos h1, if_pos h1]
    · rw [if_neg h1, if_neg h1, if_neg h403, if_neg h429]
  · intro h
    rw [closeBeforeCode_class]
    have h1 : ¬ (status = some 428 ∨ status = some 405) := by
      rcases h with h | h <;> simp [h]
    rw [if_neg h1]

/-- C8 witness: status 428 on a third attempt (retryCount 2): the close before
any code and the failed code request are both rejected as blocked. -/
theorem closeBeforeCode_outcome_witness :
    (closeBeforeCode 2 (some 428)).outcomeClass
      = (requestFailure 2 (some 428) "Precondition Required").outcomeClass :=
  (closeBeforeCode_outcome 515 (Attempt.start 2)
    (Attempt.step 515 (Attempt.start 2)
      (.connectionUpdate { connection := some .connecting, statusCode := none, qr := false }))
    { connection := some .connecting, statusCode := none, qr := false }
    (some 428) "Precondition Required"
    (by decide) (by decide) (by decide) (by decide) (by decide) (by decide) (by decide)
    (by decide) (by decide) (by decide) (by decide)).2.2.1 (by decide) (by decide) (by decide)

/-! ## Attempts: at most one reconnect -/

namespace Attempt

theorem reconnInv_congr (a b : Attempt) (h : ReconnInv a)
    (h1 : b.reconnectSockets = a.reconnectSockets)
    (h2 : b.awaitingReconnect = a.awaitingReconnect)
    (h3 : b.isReconnecting = a.isReconnecting) : ReconnInv b := by
  unfold ReconnInv at *
  rw [h1, h2, h3]
  exact h

theorem reconnectSockets_emit (a : Attempt) (e : Effect) (he : e ≠ .makeReconnectSocket) :
    (a.emit e).reconnectSockets = a.reconnectSockets := by
  simp [reconnectSockets, emit, List.count_append, List.count_singleton, he]

theorem reconnectSockets_settle (a : Attempt) (x : Settlement) :
    (a.settle x).reconnectSockets = a.reconnectSockets := by
  unfold settle
  dsimp only
  split
  · exact reconnectSockets_emit a _ (by simp)
  · exact reconnectSockets_emit a _ (by simp)

theorem reconnectSockets_cleanupSocket (a : Attempt) (s : Sock) :
    (a.cleanupSocket s).reconnectSockets = a.reconnectSockets := by
  cases s
  · exact reconnectSockets_emit _ _ (by simp)
  · simp only [cleanupSocket]
    split
    · exact reconnectSockets_emit _ _ (by simp)
    · rfl

theorem awaitingReconnect_settle (a : Attempt) (x : Settlement) :
    (a.settle x).awaitingReconnect = a.awaitingReconnect := by
  unfold settle
  dsimp only
  split <;> rfl

theorem isReconnecting_settle (a : Attempt) (x : Settlement) :
    (a.settle x).isReconnecting = a.isReconnecting := by
  unfold settle
  dsimp only
  split <;> rfl

theorem awaitingReconnect_cleanupSocket (a : Attempt) (s : Sock) :
    (a.cleanupSocket s).awaitingReconnect = a.awaitingReconnect := by
  cases s
  · rfl
  · simp only [cleanupSocket]
    split <;> rfl

theorem isReconnecting_cleanupSocket (a : Attempt) (s : Sock) :
    (a.cleanupSocket s).isReconnecting = a.isReconnecting := by
  cases s
  · rfl
  · simp only [cleanupSocket]
    split <;> rfl

theorem reconnInv_settle (a : Attempt) (x : Settlement) (h : ReconnInv a) :
    ReconnInv (a.settle x) :=
  reconnInv_congr a _ h (reconnectSockets_settle a x) (awaitingReconnect_settle a x)
    (isReconnecting_settle a x)

theorem reconnInv_cleanupSocket (a : Attempt) (s : Sock) (h : ReconnInv a) :
    ReconnInv (a.cleanupSocket s) :=
  reconnInv_congr a _ h (reconnectSockets_cleanupSocket a s) (awaitingReconnect_cleanupSocket a s)
    (isReconnecting_cleanupSocket a s)

theorem reconnInv_start (rc : Nat) : ReconnInv (start rc) := by
  simp [ReconnInv, start, reconnectSockets]

theorem reconnInv_openBlock (a : Attempt) (u : ConnectionUpdate) (h : ReconnInv a) :
    ReconnInv (openBlock a u) := by
  unfold openBlock
  split
  · exact reconnInv_congr a _ h (reconnectSockets_emit _ _ (by simp)) rfl rfl
  · exact h

theorem reconnInv_closeBlock (rr : Int) (a : Attempt) (u : ConnectionUpdate) (h : ReconnInv a) :
    ReconnInv (closeBlock rr a u) := by
  unfold closeBlock
  split
  · split
    · split
      · rename_i hg
        unfold ReconnInv at h ⊢
        rw [hg.2.2] at h
        simp only [Bool.false_eq_true, if_false, Nat.le_zero, Nat.add_eq_zero] at h
        show a.reconnectSockets + _ ≤ _
        rw [h.1]
        simp
      · exact h
    · split
      · have h2 : ReconnInv ((a.clearTimeout).cleanupSocket .original) :=
          reconnInv_cleanupSocket _ _ (reconnInv_congr a _ h rfl rfl rfl)
        dsimp only
        split
        · exact reconnInv_congr _ _ h2 rfl rfl rfl
        · exact reconnInv_settle _ _ h2
      · exact h
  · exact h

theorem reconnInv_afterRequestBlock (rr : Int) (a : Attempt) (u : ConnectionUpdate)
    (h : ReconnInv a) : ReconnInv (afterRequestBlock rr a u) :=
  reconnInv_closeBlock rr _ u (reconnInv_openBlock a u h)

theorem reconnInv_onConnectionUpdate (rr : Int) (a : Attempt) (u : ConnectionUpdate)
    (h : ReconnInv a) : ReconnInv (onConnectionUpdate rr a u) := by
  unfold onConnectionUpdate
  split
  · exact reconnInv_congr a _ h (reconnectSockets_emit _ _ (by simp)) rfl rfl
  · exact reconnInv_afterRequestBlock rr a u h

theorem reconnInv_onCodeRequestDone (rr : Int) (a : Attempt) (r : RequestResult)
    (h : ReconnInv a) : ReconnInv (onCodeRequestDone rr a r) := by
  unfold onCodeRequestDone
  split
  · exact h
  · dsimp only
    split
    · apply reconnInv_afterRequestBlock
      apply reconnInv_settle
      exact reconnInv_congr a _ h (reconnectSockets_emit _ _ (by simp)) rfl rfl
    · have h1 : ReconnInv (clearTimeout { a with awaitingCode := none }) :=
        reconnInv_congr a _ h rfl rfl rfl
      split
      · exact reconnInv_congr _ _ (reconnInv_cleanupSocket _ .original h1) rfl rfl rfl
      · apply reconnInv_afterRequestBlock
        exact reconnInv_settle _ _ h1

theorem reconnInv_onRetryDelayElapsed (rr : Int) (a : Attempt) (h : ReconnInv a) :
    ReconnInv (onRetryDelayElapsed rr a) := by
  unfold onRetryDelayElapsed
  split
  · exact h
  · rename_i x cont rest _
    have h1 : ReconnInv (settle { a with awaitingRetryDelay := rest } x) :=
      reconnInv_settle _ _ (reconnInv_congr a _ h rfl rfl rfl)
    dsimp only
    split
    · exact h1
    · exact reconnInv_afterRequestBlock rr _ _ h1

theorem reconnInv_onReconnectDelayElapsed (a : Attempt) (ok : Bool) (h : ReconnInv a) :
    ReconnInv (onReconnectDelayElapsed a ok) := by
  unfold onReconnectDelayElapsed
  split
  · rename_i haw
    have hsock : (cleanupSocket { a with awaitingReconnect := false } .original).reconnectSockets
        = a.reconnectSockets := reconnectSockets_cleanupSocket _ _
    have hbound : a.reconnectSockets + 1 ≤ (if a.isReconnecting = true then 1 else 0) := by
      unfold ReconnInv at h
      rw [haw] at h
      simpa using h
    dsimp only
    split
    · unfold ReconnInv
      show (List.count Effect.makeReconnectSocket
          ((cleanupSocket { a with awaitingReconnect := false } .original).effects
            ++ [Effect.makeReconnectSocket])) + _ ≤ _
      rw [List.count_append]
      have hs : List.count Effect.makeReconnectSocket
          (cleanupSocket { a with awaitingReconnect := false } .original).effects
          = a.reconnectSockets := hsock
      rw [hs]
      simpa using hbound
    · apply reconnInv_settle
      apply reconnInv_cleanupSocket
      apply reconnInv_congr _ _ (reconnInv_cleanupSocket { a with awaitingReconnect := false }
        .original ?_) rfl rfl rfl
      unfold ReconnInv
      show a.reconnectSockets + _ ≤ _
      simp only [Bool.false_eq_true, if_false, Nat.add_zero]
      omega
  · exact h

theorem reconnInv_onReconnectUpdate (a : Attempt) (c : Option Connection) (h : ReconnInv a) :
    ReconnInv (onReconnectUpdate a c) := by
  have h1 : ReconnInv (reconnectOpenBlock a c) := by
    unfold reconnectOpenBlock
    split
    · exact reconnInv_congr a _ h (reconnectSockets_emit _ _ (by simp)) rfl rfl
    · exact h
  unfold onReconnectUpdate
  dsimp only
  split
  · apply reconnInv_settle
    apply reconnInv_cleanupSocket
    exact reconnInv_congr _ _ h1 rfl rfl rfl
  · exact h1

theorem reconnInv_onTimeout (a : Attempt) (h : ReconnInv a) : ReconnInv (onTimeout a) := by
  unfold onTimeout
  split
  · exact reconnInv_settle _ _ (reconnInv_cleanupSocket _ _ (reconnInv_cleanupSocket _ _ h))
  · exact h

theorem reconnInv_outerCatch (a : Attempt) (h : ReconnInv a) : ReconnInv (outerCatch a) := by
  unfold outerCatch
  split
  · exact h
  · exact h
  · split
    · exact h
    · exact reconnInv_congr _ _
        (reconnInv_cleanupSocket _ .reconnect (reconnInv_cleanupSocket _ .original h)) rfl rfl rfl

theorem reconnInv_step (rr : Int) (a : Attempt) (e : AttemptEvent) (h : ReconnInv a) :
    ReconnInv (step rr a e) := by
  cases e with
  | connectionUpdate u =>
    simp only [step]
    split
    · exact reconnInv_outerCatch _ (reconnInv_onConnectionUpdate rr a u h)
    · exact h
  | codeRequestDone r => exact reconnInv_outerCatch _ (reconnInv_onCodeRequestDone rr a r h)
  | retryDelayElapsed => exact reconnInv_outerCatch _ (reconnInv_onRetryDelayElapsed rr a h)
  | reconnectDelayElapsed ok =>
    exact reconnInv_outerCatch _ (reconnInv_onReconnectDelayElapsed a ok h)
  | reconnectUpdate c =>
    simp only [step]
    split
    · exact reconnInv_outerCatch _ (reconnInv_onReconnectUpdate a c h)
    · exact h
  | timeout =>
    simp only [step]
    split
    · exact reconnInv_outerCatch _ (reconnInv_onTimeout _ (reconnInv_congr a _ h rfl rfl rfl))
    · exact h

theorem reconnInv_run (rr : Int) (events : List AttemptEvent) :
    ∀ a : Attempt, ReconnInv a → ReconnInv (run rr a events) := by
  induction events with
  | nil => intro a h; exact h
  | cons e es ih =>
    intro a h
    exact ih _ (reconnInv_step rr a e h)

theorem outerCatch_of_resolved (a : Attempt) (c : String) (h : a.settled = some (.resolved c)) :
    outerCatch a = a := by
  unfold outerCatch
  rw [h]

theorem awaitingReconnect_outerCatch (a : Attempt) :
    (outerCatch a).awaitingReconnect = a.awaitingReconnect := by
  unfold outerCatch
  split
  · rfl
  · rfl
  · split
    · rfl
    · show (((a.cleanupSocket .original).cleanupSocket .reconnect).clearTimeout).awaitingReconnect = _
      simp only [clearTimeout]
      rw [awaitingReconnect_cleanupSocket, awaitingReconnect_cleanupSocket]

theorem reconnectSockets_outerCatch (a : Attempt) :
    (outerCatch a).reconnectSockets = a.reconnectSockets := by
  unfold outerCatch
  split
  · rfl
  · rfl
  · split
    · rfl
    · show ((a.cleanupSocket .original).cleanupSocket .reconnect).reconnectSockets = _
      rw [reconnectSockets_cleanupSocket, reconnectSockets_cleanupSocket]

theorem openBlock_reconnect (a : Attempt) (u : ConnectionUpdate) :
    (openBlock a u).awaitingReconnect = a.awaitingReconnect
      ∧ (openBlock a u).reconnectSockets = a.reconnectSockets
      ∧ (openBlock a u).isReconnecting = a.isReconnecting := by
  unfold openBlock
  split
  · exact ⟨rfl, reconnectSockets_emit _ _ (by simp), rfl⟩
  · exact ⟨rfl, rfl, rfl⟩

theorem closeBlock_reconnect (rr : Int) (a : Attempt) (u : ConnectionUpdate)
    (hrec : a.isReconnecting = true) :
    (closeBlock rr a u).awaitingReconnect = a.awaitingReconnect
      ∧ (closeBlock rr a u).reconnectSockets = a.reconnectSockets := by
  unfold closeBlock
  split
  · split
    · rw [if_neg (by simp [hrec])]
      exact ⟨rfl, rfl⟩
    · split
      · dsimp only
        split
        · exact ⟨rfl, reconnectSockets_emit _ _ (by simp)⟩
        · rw [awaitingReconnect_settle, reconnectSockets_settle]
          exact ⟨rfl, reconnectSockets_emit _ _ (by simp)⟩
      · exact ⟨rfl, rfl⟩
  · exact ⟨rfl, rfl⟩

theorem onConnectionUpdate_reconnect (rr : Int) (a : Attempt) (u : ConnectionUpdate)
    (hrec : a.isReconnecting = true) :
    (onConnectionUpdate rr a u).awaitingReconnect = a.awaitingReconnect
      ∧ (onConnectionUpdate rr a u).reconnectSockets = a.reconnectSockets := by
  unfold onConnectionUpdate
  split
  · exact ⟨rfl, reconnectSockets_emit _ _ (by simp)⟩
  · unfold afterRequestBlock
    obtain ⟨h1, h2, h3⟩ := openBlock_reconnect a u
    obtain ⟨h4, h5⟩ := closeBlock_reconnect rr (openBlock a u) u (by rw [h3]; exact hrec)
    exact ⟨h4.trans h1, h5.trans h2⟩

end Attempt

/-- C9. Whatever events reach one attempt, at most one reconnect socket is
made.  A mandatory-restart close (status 515 or `restartRequired`) that
arrives on the listening original socket after the code was issued, before
authentication and with `isReconnecting` unset, sets `isReconnecting`, and the
handler then closes the original socket and makes one new socket; once
`isReconnecting` is set no event on the original socket starts another
reconnect. -/
theorem at_most_one_reconnect (restartRequired : Int) :
    (∀ (retryCount : Nat) (events : List AttemptEvent),
        (Attempt.run restartRequired (Attempt.start retryCount) events).reconnectSockets ≤ 1)
      ∧ (∀ (a : Attempt) (status : Option Int) (qr : Bool) (code : String),
          a.listening = true → a.codeGenerated = true → a.authSuccess = false →
          a.isReconnecting = false → a.settled = some (.resolved code) →
          (status = some 515 ∨ status = some restartRequired) →
          (Attempt.run restartRequired a
              [.connectionUpdate { connection := some .close, statusCode := status, qr := qr }]
            ).isReconnecting = true
            ∧ (Attempt.run restartRequired a
                [.connectionUpdate { connection := some .close, statusCode := status, qr := qr },
                 .reconnectDelayElapsed true]).effects
              = a.effects ++ [.cleanupSocket .original, .makeReconnectSocket])
      ∧ (∀ (a : Attempt) (u : ConnectionUpdate),
          a.isReconnecting = true →
          (Attempt.step restartRequired a (.connectionUpdate u)).awaitingReconnect
              = a.awaitingReconnect
            ∧ (Attempt.step restartRequired a (.connectionUpdate u)).reconnectSockets
              = a.reconnectSockets) := by
  refine ⟨?_, ?_, ?_⟩
  · intro rc events
    have h := Attempt.reconnInv_run restartRequired events _ (Attempt.reconnInv_start rc)
    unfold Attempt.ReconnInv at h
    split at h <;> split at h <;> omega
  · intro a status qr code hlisten hcode hauth hrec hset hstatus
    have hguard : ¬ (a.hasRequestedCode = false ∧ a.codeGenerated = false ∧ a.authSuccess = false
        ∧ ((some Connection.close : Option Connection) = some .connecting ∨ qr = true)) := by
      rw [hcode]
      simp
    have hst : status = some restartRequired ∨ status = some 515 := hstatus.symm
    have hupd : Attempt.onConnectionUpdate restartRequired a
        { connection := some .close, statusCode := status, qr := qr }
        = { a with isReconnecting := true, awaitingReconnect := true } := by
      unfold Attempt.onConnectionUpdate
      rw [if_neg hguard]
      unfold Attempt.afterRequestBlock
      have ho : Attempt.openBlock a { connection := some .close, statusCode := status, qr := qr }
          = a := by
        simp [Attempt.openBlock]
      rw [ho]
      unfold Attempt.closeBlock
      simp only [if_true]
      rw [if_pos hst, if_pos ⟨hcode, hauth, hrec⟩]
    have hstep : Attempt.step restartRequired a
        (.connectionUpdate { connection := some .close, statusCode := status, qr := qr })
        = { a with isReconnecting := true, awaitingReconnect := true } := by
      simp only [Attempt.step, hlisten, if_true, hupd]
      unfold Attempt.outerCatch
      simp only [hset]
    have hstep2 : (Attempt.step restartRequired
        { a with isReconnecting := true, awaitingReconnect := true }
        (.reconnectDelayElapsed true)).effects
        = a.effects ++ [.cleanupSocket .original, .makeReconnectSocket] := by
      have hb : ({ a with isReconnecting := true, awaitingReconnect := true } : Attempt).settled
          = some (.resolved code) := hset
      simp only [Attempt.step]
      rw [Attempt.outerCatch_of_resolved _ code
        (Attempt.settled_onReconnectDelayElapsed_of_some _ true _ hb)]
      simp [Attempt.onReconnectDelayElapsed, Attempt.cleanupSocket, Attempt.emit]
    refine ⟨?_, ?_⟩
    · simp only [Attempt.run, List.foldl]
      rw [hstep]
    · simp only [Attempt.run, List.foldl]
      rw [hstep]
      exact hstep2
  · intro a u hrec
    simp only [Attempt.step]
    split
    · rw [Attempt.awaitingReconnect_outerCatch, Attempt.reconnectSockets_outerCatch]
      exact Attempt.onConnectionUpdate_reconnect restartRequired a u hrec
    · exact ⟨rfl, rfl⟩

/-- C9 witness: after the code was issued a mandatory-restart close (status
515) arrives and the reconnect goes on: the original socket is cleaned up and
one reconnect socket is made. -/
theorem at_most_one_reconnect_witness :
    (Attempt.run 515
        (Attempt.run 515 (Attempt.start 0)
          [.connectionUpdate { connection := some .connecting, statusCode := none, qr := false },
           .codeRequestDone (.code "ABCD1234")])
        [.connectionUpdate { connection := some .close, statusCode := some 515, qr := false },
         .reconnectDelayElapsed true]).effects
      = (Attempt.run 515 (Attempt.start 0)
          [.connectionUpdate { connection := some .connecting, statusCode := none, qr := false },
           .codeRequestDone (.code "ABCD1234")]).effects
        ++ [.cleanupSocket .original, .makeReconnectSocket] :=
  ((at_most_one_reconnect 515).2.1
    (Attempt.run 515 (Attempt.start 0)
      [.connectionUpdate { connection := some .connecting, statusCode := none, qr := false },
       .codeRequestDone (.code "ABCD1234")])
    (some 515) false "ABCD1234" (by decide) (by decide) (by decide) (by decide) (by decide)
    (Or.inl rfl)).2


/-! ## Sweeps and disconnect -/

namespace JsMap

variable {κ ν : Type} [DecidableEq κ]

theorem foldl_delete (ks : List κ) :
    ∀ m : JsMap κ ν, ks.foldl (fun m id => delete m id) m = m.filter (fun e => decide (e.1 ∉ ks)) := by
  induction ks with
  | nil => intro m; simp
  | cons k ks ih =>
    intro m
    rw [List.foldl_cons, ih]
    simp only [delete, List.filter_filter]
    apply List.filter_congr
    intro e _
    by_cases h1 : e.1 = k <;> by_cases h2 : e.1 ∈ ks <;> simp [h1, h2]

/-- Deleting the keys of the entries selected by `p` from a map with distinct
keys removes exactly the selected entries. -/
theorem foldl_delete_selected (m : JsMap κ ν) (p : κ × ν → Bool)
    (hkeys : (m.map Prod.fst).Nodup) :
    ((m.filter p).map (fun e => e.1)).foldl (fun m id => delete m id) m
      = m.filter (fun e => !p e) := by
  rw [foldl_delete]
  apply List.filter_congr
  intro e he
  have hiff : e.1 ∈ (m.filter p).map (fun e => e.1) ↔ p e = true := by
    constructor
    · intro hmem
      obtain ⟨e1, he1, hk⟩ := List.mem_map.mp hmem
      have hm1 : e1 ∈ m := (List.mem_filter.mp he1).1
      have : e1 = e := List.inj_on_of_nodup_map hkeys hm1 he hk
      rw [← this]
      exact (List.mem_filter.mp he1).2
    · intro hp
      exact List.mem_map.mpr ⟨e, List.mem_filter.mpr ⟨he, hp⟩, rfl⟩
  by_cases hp : p e = true
  · simp [hiff.mpr hp, hp]
  · have : e.1 ∉ (m.filter p).map (fun e => e.1) := fun h => hp (hiff.mp h)
    simp [this, hp]

theorem get_eq_none_of_not_mem (m : JsMap κ ν) (k : κ) (h : k ∉ m.map Prod.fst) :
    get m k = none := by
  induction m with
  | nil => rfl
  | cons e m ih =>
    obtain ⟨k1, v1⟩ := e
    simp only [List.map_cons, List.mem_cons, not_or] at h
    simp only [get]
    rw [if_neg (fun hk => h.1 hk.symm)]
    exact ih h.2

theorem get_filter (m : JsMap κ ν) (q : κ × ν → Bool) (k : κ)
    (hkeys : (m.map Prod.fst).Nodup) :
    get (m.filter q) k = (get m k).filter (fun v => q (k, v)) := by
  induction m with
  | nil => rfl
  | cons e m ih =>
    obtain ⟨k1, v1⟩ := e
    simp only [List.map_cons, List.nodup_cons] at hkeys
    by_cases hk : k1 = k
    · subst hk
      by_cases hq : q (k1, v1) = true
      · simp [List.filter_cons, hq, get, Option.filter]
      · have hnot : k1 ∉ (m.filter q).map Prod.fst := by
          intro hmem
          obtain ⟨e1, he1, hk1⟩ := List.mem_map.mp hmem
          exact hkeys.1 (List.mem_map.mpr ⟨e1, (List.mem_filter.mp he1).1, hk1⟩)
        simp [List.filter_cons, hq, get, Option.filter, get_eq_none_of_not_mem _ _ hnot]
    · by_cases hq : q (k1, v1) = true
      · simp [List.filter_cons, hq, get, hk, ih hkeys.2]
      · simp [List.filter_cons, hq, get, hk, ih hkeys.2]

theorem get_of_mem (m : JsMap κ ν) (e : κ × ν) (hkeys : (m.map Prod.fst).Nodup)
    (he : e ∈ m) : get m e.1 = some e.2 := by
  induction m with
  | nil => simp at he
  | cons e1 m ih =>
    obtain ⟨k1, v1⟩ := e1
    simp only [List.map_cons, List.nodup_cons] at hkeys
    rcases List.mem_cons.mp he with h | h
    · subst h
      simp [get]
    · have hne : k1 ≠ e.1 := by
        intro hk
        exact hkeys.1 (List.mem_map.mpr ⟨e, h, hk.symm⟩)
      simp only [get]
      rw [if_neg hne]
      exact ih hkeys.2 h

theorem filterMap_get_keys (m : JsMap κ ν) (p : κ × ν → Bool) {β : Type} (f : ν → β)
    (hkeys : (m.map Prod.fst).Nodup) :
    ((m.filter p).map (fun e => e.1)).filterMap (fun id => (get m id).map f)
      = (m.filter p).map (fun e => f e.2) := by
  rw [List.filterMap_map]
  have hall : ∀ e ∈ m.filter p,
      ((fun id => (get m id).map f) ∘ fun e => e.1) e = some (f e.2) := by
    intro e he
    simp only [Function.comp]
    rw [get_of_mem m e hkeys (List.mem_filter.mp he).1]
    rfl
  generalize m.filter p = l at hall
  induction l with
  | nil => rfl
  | cons e l ih =>
    rw [List.filterMap_cons, hall e (List.mem_cons_self _ _)]
    simp only [List.map_cons]
    rw [ih (fun x hx => hall x (List.mem_cons_of_mem _ hx))]

end JsMap

theorem startsWith_newSessionId (bytes : List (Fin 256)) :
    startsWith (newSessionId bytes) "temp_" = false := by
  cases bytes with
  | nil => rfl
  | cons b bs =>
    have hlt : b.val / 16 < 16 := by
      have := b.isLt
      omega
    have hne := hexDigit_toUpper_ne_t ⟨b.val / 16, hlt⟩
    have hd : ("temp_" : String).data = ['t', 'e', 'm', 'p', '_'] := rfl
    simp only [startsWith, newSessionId, sessionIdChars, hd, List.isPrefixOf]
    simp only [Bool.and_eq_false_imp, beq_iff_eq]
    intro h
    exact absurd h.symm hne

/-- C11. After `cleanupStaleSessions` at time `now` (deferred deletions done),
on a registry with distinct keys, the registry is the prior one without
exactly the entries whose key starts with `temp_` and whose age
`now - timestamp` exceeds `CLEANUP_INTERVAL` = 180000 ms; the sockets closed
are those of the removed entries; an entry that is not older than the interval
(one created 1 second earlier, say) and an entry under a generated session id
(every connected entry), whatever its age, is still there unchanged. -/
theorem cleanupStaleSessions_removes_exactly_stale (reg : ActiveSessions) (now : Int)
    (hkeys : (reg.map Prod.fst).Nodup) :
    CLEANUP_INTERVAL = 180000
      ∧ (cleanupStaleSessions reg now).1
        = reg.filter (fun e =>
            !(startsWith e.1 "temp_" && decide (now - e.2.timestamp > CLEANUP_INTERVAL)))
      ∧ (cleanupStaleSessions reg now).2
        = (reg.filter (fun e =>
            startsWith e.1 "temp_" && decide (now - e.2.timestamp > CLEANUP_INTERVAL))).map
            (fun e => e.2.socket)
      ∧ (∀ (key : String) (entry : SessionEntry), JsMap.get reg key = some entry →
          startsWith key "temp_" = true → now - entry.timestamp > CLEANUP_INTERVAL →
          JsMap.get (cleanupStaleSessions reg now).1 key = none)
      ∧ (∀ (key : String) (entry : SessionEntry), JsMap.get reg key = some entry →
          now - entry.timestamp ≤ CLEANUP_INTERVAL →
          JsMap.get (cleanupStaleSessions reg now).1 key = some entry)
      ∧ (∀ (bytes : List (Fin 256)) (entry : SessionEntry),
          JsMap.get reg (newSessionId bytes) = some entry →
          JsMap.get (cleanupStaleSessions reg now).1 (newSessionId bytes) = some entry) := by
  have h1 : (cleanupStaleSessions reg now).1
      = reg.filter (fun e =>
          !(startsWith e.1 "temp_" && decide (now - e.2.timestamp > CLEANUP_INTERVAL))) :=
    JsMap.foldl_delete_selected reg _ hkeys
  refine ⟨rfl, h1, ?_, ?_, ?_, ?_⟩
  · exact JsMap.filterMap_get_keys reg _ (fun d => d.socket) hkeys
  · intro key entry hget hpre hold
    rw [h1, JsMap.get_filter _ _ _ hkeys, hget]
    simp [Option.filter, hpre, hold]
  · intro key entry hget hyoung
    rw [h1, JsMap.get_filter _ _ _ hkeys, hget]
    have : ¬ now - entry.timestamp > CLEANUP_INTERVAL := not_lt.mpr hyoung
    simp [Option.filter, this]
  · intro bytes entry hget
    rw [h1, JsMap.get_filter _ _ _ hkeys, hget]
    simp [Option.filter, startsWith_newSessionId]

/-- C11 witness: at time 200000 a temporary entry from time 1000 is swept and
its socket closed; a temporary entry created 1 second before the sweep and a
connected entry from time 0 stay. -/
theorem cleanupStaleSessions_removes_exactly_stale_witness :
    (cleanupStaleSessions
        [(tempKey 42 "2348123456789",
          { userId := 42, phoneNumber := "2348123456789", timestamp := 1000,
            status := .waiting_for_auth, socket := 1, authDir := "auth_42_900",
            savedToGitHub := none }),
         (tempKey 43 "15551234567",
          { userId := 43, phoneNumber := "15551234567", timestamp := 199000,
            status := .waiting_for_auth, socket := 2, authDir := "auth_43_198000",
            savedToGitHub := none }),
         ("00FF00FF00FF00FF",
          { userId := 9, phoneNumber := "447712345678", timestamp := 0, status := .connected,
            socket := 3, authDir := "auth_9_0", savedToGitHub := some true })]
        200000).2 = [1] := by
  have h := (cleanupStaleSessions_removes_exactly_stale
    [(tempKey 42 "2348123456789",
      { userId := 42, phoneNumber := "2348123456789", timestamp := 1000,
        status := .waiting_for_auth, socket := 1, authDir := "auth_42_900",
        savedToGitHub := none }),
     (tempKey 43 "15551234567",
      { userId := 43, phoneNumber := "15551234567", timestamp := 199000,
        status := .waiting_for_auth, socket := 2, authDir := "auth_43_198000",
        savedToGitHub := none }),
     ("00FF00FF00FF00FF",
      { userId := 9, phoneNumber := "447712345678", timestamp := 0, status := .connected,
        socket := 3, authDir := "auth_9_0", savedToGitHub := some true })]
    200000 (by decide)).2.2.1
  rw [h]
  decide

/-- C12. After `cleanupStaleRequests` at time `now`, on a map with distinct
keys, `activeRequests` is the prior map without exactly the entries whose age
`now - timestamp` exceeds `REQUEST_TIMEOUT` = 180000 ms; every entry that is
not older than the timeout is still there unchanged. -/
theorem cleanupStaleRequests_removes_exactly_stale (reqs : ActiveRequests) (now : Int)
    (hkeys : (reqs.map Prod.fst).Nodup) :
    REQUEST_TIMEOUT = 180000
      ∧ cleanupStaleRequests reqs now
        = reqs.filter (fun e => !decide (now - e.2.timestamp > REQUEST_TIMEOUT))
      ∧ (∀ (userId : Int) (r : ActiveRequest), JsMap.get reqs userId = some r →
          now - r.timestamp > REQUEST_TIMEOUT →
          JsMap.get (cleanupStaleRequests reqs now) userId = none)
      ∧ (∀ (userId : Int) (r : ActiveRequest), JsMap.get reqs userId = some r →
          now - r.timestamp ≤ REQUEST_TIMEOUT →
          JsMap.get (cleanupStaleRequests reqs now) userId = some r) := by
  have h1 : cleanupStaleRequests reqs now
      = reqs.filter (fun e => !decide (now - e.2.timestamp > REQUEST_TIMEOUT)) :=
    JsMap.foldl_delete_selected reqs _ hkeys
  refine ⟨rfl, h1, ?_, ?_⟩
  · intro userId r hget hold
    rw [h1, JsMap.get_filter _ _ _ hkeys, hget]
    simp [Option.filter, hold]
  · intro userId r hget hyoung
    rw [h1, JsMap.get_filter _ _ _ hkeys, hget]
    have : ¬ now - r.timestamp > REQUEST_TIMEOUT := not_lt.mpr hyoung
    simp [Option.filter, this]

/-- C12 witness: at time 200000 the request of user 7 from time 1000 is
dropped and the request of user 8 from time 20000 (exactly 180000 ms old)
stays. -/
theorem cleanupStaleRequests_removes_exactly_stale_witness :
    cleanupStaleRequests
        [(7, { status := "waiting_number", timestamp := 1000 }),
         (8, { status := "generating", timestamp := 20000 })] 200000
      = [(8, { status := "generating", timestamp := 20000 })] := by
  have h := (cleanupStaleRequests_removes_exactly_stale
    [(7, { status := "waiting_number", timestamp := 1000 }),
     (8, { status := "generating", timestamp := 20000 })] 200000 (by decide)).2.1
  rw [h]
  decide

/-- C17. After the `disconnect_session` action of `userId`, on a registry with
distinct keys, the registry is the prior one without exactly the entries whose
`userId` field is `userId`: none of that user is left, every entry of another
user is still there unchanged, the sockets closed are those of the removed
entries, and the count reported is the number of entries the user had. -/
theorem disconnectSession_removes_user (reg : ActiveSessions) (userId : Int)
    (hkeys : (reg.map Prod.fst).Nodup) :
    (disconnectSession reg userId).1 = reg.filter (fun e => !decide (e.2.userId = userId))
      ∧ (∀ e ∈ (disconnectSession reg userId).1, e.2.userId ≠ userId)
      ∧ (∀ (key : String) (entry : SessionEntry), JsMap.get reg key = some entry →
          entry.userId ≠ userId →
          JsMap.get (disconnectSession reg userId).1 key = some entry)
      ∧ (disconnectSession reg userId).2.1
          = (reg.filter (fun e => decide (e.2.userId = userId))).map (fun e => e.2.socket)
      ∧ (disconnectSession reg userId).2.2
          = (reg.filter (fun e => decide (e.2.userId = userId))).length := by
  have h1 : (disconnectSession reg userId).1
      = reg.filter (fun e => !decide (e.2.userId = userId)) :=
    JsMap.foldl_delete_selected reg _ hkeys
  refine ⟨h1, ?_, ?_, rfl, ?_⟩
  · intro e he
    rw [h1] at he
    simpa using (List.mem_filter.mp he).2
  · intro key entry hget hne
    rw [h1, JsMap.get_filter _ _ _ hkeys, hget]
    simp [Option.filter, hne]
  · simp [disconnectSession]

/-- C17 witness: user 42 has a waiting and a connected entry, user 9 one
connected entry; after the disconnect of 42 only the entry of 9 is left, the
sockets 1 and 4 were closed and the count is 2. -/
theorem disconnectSession_removes_user_witness :
    disconnectSession
        [(tempKey 42 "2348123456789",
          { userId := 42, phoneNumber := "2348123456789", timestamp := 1000,
            status := .waiting_for_auth, socket := 1, authDir := "auth_42_900",
            savedToGitHub := none }),
         ("00FF00FF00FF00FF",
          { userId := 9, phoneNumber := "447712345678", timestamp := 0, status := .connected,
            socket := 3, authDir := "auth_9_0", savedToGitHub := some true }),
         ("ABCDEF0123456789",
          { userId := 42, phoneNumber := "15551234567", timestamp := 50, status := .connected,
            socket := 4, authDir := "auth_42_40", savedToGitHub := some false })]
        42
      = ([("00FF00FF00FF00FF",
          { userId := 9, phoneNumber := "447712345678", timestamp := 0, status := .connected,
            socket := 3, authDir := "auth_9_0", savedToGitHub := some true })], [1, 4], 2) := by
  have h := disconnectSession_removes_user
    [(tempKey 42 "2348123456789",
      { userId := 42, phoneNumber := "2348123456789", timestamp := 1000,
        status := .waiting_for_auth, socket := 1, authDir := "auth_42_900",
        savedToGitHub := none }),
     ("00FF00FF00FF00FF",
      { userId := 9, phoneNumber := "447712345678", timestamp := 0, status := .connected,
        socket := 3, authDir := "auth_9_0", savedToGitHub := some true }),
     ("ABCDEF0123456789",
      { userId := 42, phoneNumber := "15551234567", timestamp := 50, status := .connected,
        socket := 4, authDir := "auth_42_40", savedToGitHub := some false })]
    42 (by decide)
  refine Prod.ext h.1 (Prod.ext h.2.2.2.1 h.2.2.2.2)


/-! ## Phone masking -/

theorem matchStarFour_digits (ds : List Char) (hd : ∀ c ∈ ds, c.isDigit = true) :
    matchStarFour ds
      = if 4 ≤ ds.length then some (ds.drop (ds.length - 4), []) else none := by
  induction ds with
  | nil => simp [matchStarFour, matchFourDigits]
  | cons c cs ih =>
    have hc : c.isDigit = true := hd c (List.mem_cons_self _ _)
    have hcs : ∀ x ∈ cs, x.isDigit = true := fun x hx => hd x (List.mem_cons_of_mem _ hx)
    rw [matchStarFour, if_pos hc, ih hcs]
    by_cases h4 : 4 ≤ cs.length
    · have h5 : 4 ≤ (c :: cs).length := by simp only [List.length_cons]; omega
      rw [if_pos h4, if_pos h5]
      have : (c :: cs).length - 4 = (cs.length - 4) + 1 := by
        simp only [List.length_cons]
        omega
      rw [this, List.drop_succ_cons]
    · rw [if_neg h4]
      by_cases h3 : cs.length = 3
      · have h5 : 4 ≤ (c :: cs).length := by simp only [List.length_cons]; omega
        have hall : ((c :: cs).take 4).all Char.isDigit = true := by
          rw [List.all_eq_true]
          intro x hx
          exact hd x (List.mem_of_mem_take hx)
        have htake : (c :: cs).take 4 = c :: cs := by
          apply List.take_of_length_le
          simp only [List.length_cons]
          omega
        have hdrop : (c :: cs).drop 4 = [] := by
          apply List.drop_of_length_le
          simp only [List.length_cons]
          omega
        have hz : (c :: cs).length - 4 = 0 := by
          simp only [List.length_cons]
          omega
        simp only [matchFourDigits]
        rw [if_pos ⟨h5, hall⟩, if_pos h5, htake, hdrop, hz, List.drop_zero]
      · have h5 : ¬ 4 ≤ (c :: cs).length := by simp only [List.length_cons]; omega
        simp only [matchFourDigits]
        rw [if_neg (fun h => h5 h.1), if_neg h5]

theorem replaceMask_digits (ds : List Char) (hd : ∀ c ∈ ds, c.isDigit = true)
    (hlen : 7 ≤ ds.length) :
    replaceMask ds = ds.take 3 ++ ['*', '*', '*', '*'] ++ ds.drop (ds.length - 4) := by
  cases ds with
  | nil => simp at hlen
  | cons c cs =>
    have h3 : 3 ≤ (c :: cs).length := by omega
    have hall : ((c :: cs).take 3).all Char.isDigit = true := by
      rw [List.all_eq_true]
      intro x hx
      exact hd x (List.mem_of_mem_take hx)
    have hrest : ∀ x ∈ (c :: cs).drop 3, x.isDigit = true :=
      fun x hx => hd x (List.mem_of_mem_drop hx)
    have hlen4 : 4 ≤ ((c :: cs).drop 3).length := by
      rw [List.length_drop]
      omega
    have hm : matchMask (c :: cs)
        = some ((c :: cs).take 3, (c :: cs).drop ((c :: cs).length - 4), []) := by
      unfold matchMask
      rw [if_pos ⟨h3, hall⟩, matchStarFour_digits _ hrest, if_pos hlen4]
      simp only [Option.map_some', List.drop_drop, List.length_drop]
      have : 3 + ((c :: cs).length - 3 - 4) = (c :: cs).length - 4 := by omega
      rw [this]
    rw [replaceMask, hm]
    simp

theorem formatPhoneNumber_some (input phone : String)
    (h : formatPhoneNumber input = some phone) :
    phone.data = input.data.filter Char.isDigit
      ∧ (∀ c ∈ phone.data, c.isDigit = true)
      ∧ 10 ≤ phone.data.length ∧ phone.data.length ≤ 15 := by
  unfold formatPhoneNumber at h
  dsimp only at h
  split at h
  · simp at h
  · rename_i hlen
    simp only [Option.some.injEq] at h
    subst h
    refine ⟨rfl, ?_, ?_, ?_⟩
    · intro c hc
      exact (List.mem_filter.mp hc).2
    · show 10 ≤ (input.data.filter Char.isDigit).length
      omega
    · show (input.data.filter Char.isDigit).length ≤ 15
      omega

/-- C13. For every phone number that `formatPhoneNumber` returns (10 to 15
decimal digits), the phone value that `saveSession` stores in the index
document for the session is the first 3 digits of the number, then `****`,
then its last 4 digits: 11 characters, none of them a digit from between. -/
theorem saveSession_masks_phone (input phone : String)
    (hphone : formatPhoneNumber input = some phone)
    (index : ArchiveIndex) (sessionId : String) (userId : Int) (created : String)
    (fileCount : Nat) (lastUpdated : String) :
    (JsMap.get (updateIndex index sessionId phone userId created fileCount lastUpdated).sessions
        sessionId).map (fun e => e.phoneNumber)
        = some (String.mk (phone.data.take 3 ++ ['*', '*', '*', '*']
            ++ phone.data.drop (phone.data.length - 4)))
      ∧ (phone.data.take 3).length = 3
      ∧ (phone.data.drop (phone.data.length - 4)).length = 4
      ∧ (maskPhone phone).data.length = 11 := by
  obtain ⟨_, hdig, hlo, hhi⟩ := formatPhoneNumber_some input phone hphone
  have hmask : maskPhone phone
      = String.mk (phone.data.take 3 ++ ['*', '*', '*', '*']
          ++ phone.data.drop (phone.data.length - 4)) := by
    unfold maskPhone
    rw [replaceMask_digits phone.data hdig (by omega)]
  have h3 : (phone.data.take 3).length = 3 := by
    rw [List.length_take]
    omega
  have h4 : (phone.data.drop (phone.data.length - 4)).length = 4 := by
    rw [List.length_drop]
    omega
  refine ⟨?_, h3, h4, ?_⟩
  · simp only [updateIndex]
    rw [JsMap.get_set_same]
    simp [hmask]
  · rw [hmask]
    simp only [List.length_append, h3, h4, List.length_cons, List.length_nil]

/-- C13 witness: the text `+234 812 345 6789` is formatted to `2348123456789`
and stored as `234****6789`. -/
theorem saveSession_masks_phone_witness :
    (JsMap.get (updateIndex (initialIndex "2025-01-01T00:00:00.000Z" "2025-01-01T00:00:00.000Z")
        "ABCDEF0123456789" "2348123456789" 42 "2025-01-02T00:00:00.000Z" 3
        "2025-01-02T00:00:00.001Z").sessions "ABCDEF0123456789").map (fun e => e.phoneNumber)
      = some "234****6789" :=
  (saveSession_masks_phone "+234 812 345 6789" "2348123456789" (by decide)
    (initialIndex "2025-01-01T00:00:00.000Z" "2025-01-01T00:00:00.000Z")
    "ABCDEF0123456789" 42 "2025-01-02T00:00:00.000Z" 3 "2025-01-02T00:00:00.001Z").1

/-! ## The index document -/

namespace JsMap

variable {κ ν : Type} [DecidableEq κ]

theorem keys_set (m : JsMap κ ν) (k : κ) (v : ν) :
    (set m k v).map Prod.fst
      = if (get m k).isSome then m.map Prod.fst else m.map Prod.fst ++ [k] := by
  induction m with
  | nil => simp [set, get]
  | cons e m ih =>
    obtain ⟨k1, v1⟩ := e
    by_cases hk : k1 = k
    · subst hk
      simp [set, get]
    · simp only [set, get, if_neg hk, List.map_cons, ih]
      split <;> simp

theorem nodup_keys_set (m : JsMap κ ν) (k : κ) (v : ν) (h : (m.map Prod.fst).Nodup) :
    ((set m k v).map Prod.fst).Nodup := by
  rw [keys_set]
  split
  · exact h
  · rename_i hnone
    have hk : k ∉ m.map Prod.fst := by
      intro hmem
      obtain ⟨e, he, hke⟩ := List.mem_map.mp hmem
      have := get_of_mem m e h he
      rw [hke] at this
      rw [this] at hnone
      simp at hnone
    exact List.Nodup.append h (List.nodup_singleton k) (by simpa using hk)

end JsMap

/-- C14. Whenever `saveSession` gets as far as writing the index document
(whatever index document it read and whatever stats that one held, for a
session id that is new or already present), the document written has
`stats.totalSessions` equal to the number of keys of `sessions`, its keys are
distinct when the keys read were, and the key count grows by one exactly for a
new session id; the initial index of `initializeRepo` has no sessions and
`totalSessions` 0. -/
theorem saveSession_index_totalSessions (work work1 : Files) (sessionId phoneNumber : String)
    (authDir : Option (List DirEntry)) (userId : Int) (iso1 iso2 iso3 : String) (n : Nat)
    (hwrite : writeSession work sessionId phoneNumber authDir userId iso1 iso2 iso3
      = (work1, some n)) :
    (∃ old new : ArchiveIndex,
        JsMap.get work1 indexPath = some (.index new)
          ∧ new = updateIndex old sessionId phoneNumber userId iso1 n iso3
          ∧ new.stats.totalSessions = ((new.sessions.map Prod.fst).length : Int)
          ∧ ((old.sessions.map Prod.fst).Nodup → (new.sessions.map Prod.fst).Nodup)
          ∧ (new.sessions.map Prod.fst).length
              = if (JsMap.get old.sessions sessionId).isSome then
                  (old.sessions.map Prod.fst).length
                else (old.sessions.map Prod.fst).length + 1)
      ∧ ∀ created lastUpdated : String,
          (initialIndex created lastUpdated).sessions = []
            ∧ (initialIndex created lastUpdated).stats.totalSessions = 0 := by
  refine ⟨?_, fun _ _ => ⟨rfl, rfl⟩⟩
  unfold writeSession at hwrite
  cases authDir with
  | none => simp at hwrite
  | some authFiles =>
    dsimp only at hwrite
    split at hwrite
    · rename_i old hold
      simp only [Prod.mk.injEq, Option.some.injEq] at hwrite
      obtain ⟨hw, hn⟩ := hwrite
      refine ⟨old, updateIndex old sessionId phoneNumber userId iso1 n iso3, ?_, rfl, ?_, ?_, ?_⟩
      · rw [← hw, JsMap.get_set_same, hn]
      · simp [updateIndex]
      · intro hnodup
        exact JsMap.nodup_keys_set _ _ _ hnodup
      · simp only [updateIndex, JsMap.keys_set]
        split <;> simp
    · simp at hwrite

/-- C14 witness: an index whose stats claim 7 sessions while it holds one; a
new session is saved and the document written counts its keys. -/
theorem saveSession_index_totalSessions_witness :
    ∃ old new : ArchiveIndex,
      JsMap.get (writeSession
          [(indexPath, .index
              { version := "1.0.0", created := "t0",
                sessions := [("00FF00FF00FF00FF",
                  { sessionId := "00FF00FF00FF00FF", phoneNumber := "447****5678", userId := 9,
                    created := "t1", status := "active", fileCount := 2 })],
                stats := { totalSessions := 7, lastUpdated := "t1" } })]
          "ABCDEF0123456789" "2348123456789" (some [⟨"creds.json", true, "e30="⟩]) 42
          "t2" "t3" "t4").1 indexPath = some (.index new)
        ∧ new = updateIndex old "ABCDEF0123456789" "2348123456789" 42 "t2" 1 "t4"
        ∧ new.stats.totalSessions = ((new.sessions.map Prod.fst).length : Int) := by
  obtain ⟨old, new, h1, h2, h3, _, _⟩ := (saveSession_index_totalSessions
    [(indexPath, .index
        { version := "1.0.0", created := "t0",
          sessions := [("00FF00FF00FF00FF",
            { sessionId := "00FF00FF00FF00FF", phoneNumber := "447****5678", userId := 9,
              created := "t1", status := "active", fileCount := 2 })],
          stats := { totalSessions := 7, lastUpdated := "t1" } })]
    (writeSession
      [(indexPath, .index
          { version := "1.0.0", created := "t0",
            sessions := [("00FF00FF00FF00FF",
              { sessionId := "00FF00FF00FF00FF", phoneNumber := "447****5678", userId := 9,
                created := "t1", status := "active", fileCount := 2 })],
            stats := { totalSessions := 7, lastUpdated := "t1" } })]
      "ABCDEF0123456789" "2348123456789" (some [⟨"creds.json", true, "e30="⟩]) 42
      "t2" "t3" "t4").1
    "ABCDEF0123456789" "2348123456789" (some [⟨"creds.json", true, "e30="⟩]) 42
    "t2" "t3" "t4" 1 (by decide)).1
  exact ⟨old, new, h1, h2, h3⟩


/-! ## Decimal text of integers -/

/-- The number a list of decimal digits denotes. -/
theorem digitChar_lt_ten (k : Fin 10) :
    (Nat.digitChar k.val).toNat - 48 = k.val ∧ (Nat.digitChar k.val).isDigit = true := by
  revert k
  decide

theorem toDigitsCore_readDecimal :
    ∀ (fuel n : Nat) (ds : List Char), n < fuel →
      ∃ xs : List Char, Nat.toDigitsCore 10 fuel n ds = xs ++ ds
        ∧ readDecimal xs = n ∧ (∀ c ∈ xs, c.isDigit = true) ∧ xs ≠ [] := by
  intro fuel
  induction fuel with
  | zero => intro n ds h; omega
  | succ fuel ih =>
    intro n ds hn
    have hmod : n % 10 < 10 := Nat.mod_lt _ (by omega)
    obtain ⟨hval, hdig⟩ := digitChar_lt_ten ⟨n % 10, hmod⟩
    simp only at hval hdig
    rw [Nat.toDigitsCore]
    by_cases h0 : n / 10 = 0
    · simp only [h0, if_true]
      refine ⟨[Nat.digitChar (n % 10)], rfl, ?_, ?_, by simp⟩
      · simp only [readDecimal, List.foldl_cons, List.foldl_nil, Nat.zero_mul, Nat.zero_add, hval]
        omega
      · intro c hc
        simp only [List.mem_singleton] at hc
        rw [hc]
        exact hdig
    · simp only [h0, if_false]
      obtain ⟨xs, hxs, hread, hall, _⟩ := ih (n / 10) (Nat.digitChar (n % 10) :: ds) (by omega)
      refine ⟨xs ++ [Nat.digitChar (n % 10)], ?_, ?_, ?_, by simp⟩
      · rw [hxs]
        simp
      · have hr : readDecimal (xs ++ [Nat.digitChar (n % 10)])
            = readDecimal xs * 10 + ((Nat.digitChar (n % 10)).toNat - 48) := by
          simp [readDecimal, List.foldl_append]
        rw [hr, hread, hval]
        omega
      · intro c hc
        rcases List.mem_append.mp hc with h | h
        · exact hall c h
        · simp only [List.mem_singleton] at h
          rw [h]
          exact hdig

theorem natToString_data (n : Nat) :
    readDecimal (toString n).data = n ∧ (∀ c ∈ (toString n).data, c.isDigit = true)
      ∧ (toString n).data ≠ [] := by
  obtain ⟨xs, hxs, hread, hall, hne⟩ := toDigitsCore_readDecimal (n + 1) n [] (by omega)
  have hd : (toString n).data = xs := by
    show (Nat.repr n).data = xs
    simp only [Nat.repr, Nat.toDigits, List.asString, hxs, List.append_nil]
  rw [hd]
  exact ⟨hread, hall, hne⟩

theorem natToString_injective (a b : Nat) (h : (toString a).data = (toString b).data) :
    a = b := by
  rw [← (natToString_data a).1, ← (natToString_data b).1, h]

theorem intToString_data (i : Int) :
    (toString i).data
      = match i with
        | Int.ofNat m => (toString m).data
        | Int.negSucc m => '-' :: (toString (m + 1)).data := by
  cases i with
  | ofNat m => rfl
  | negSucc m =>
    show ("-" ++ toString (Nat.succ m)).data = _
    rw [String.data_append]
    rfl

theorem intToString_no_underscore (i : Int) : '_' ∉ (toString i).data := by
  intro hmem
  rw [intToString_data] at hmem
  cases i with
  | ofNat m =>
    have := (natToString_data m).2.1 _ hmem
    exact absurd this (by decide)
  | negSucc m =>
    simp only [List.mem_cons] at hmem
    rcases hmem with h | h
    · exact absurd h (by decide)
    · have := (natToString_data (m + 1)).2.1 _ h
      exact absurd this (by decide)

theorem intToString_injective (i j : Int) (h : (toString i).data = (toString j).data) :
    i = j := by
  rw [intToString_data, intToString_data] at h
  cases i with
  | ofNat a =>
    cases j with
    | ofNat b =>
      simp only at h
      rw [natToString_injective a b h]
    | negSucc b =>
      simp only at h
      obtain ⟨_, hall, hne⟩ := natToString_data a
      rw [h] at hall
      exact absurd (hall '-' (List.mem_cons_self _ _)) (by decide)
  | negSucc a =>
    cases j with
    | ofNat b =>
      simp only at h
      obtain ⟨_, hall, hne⟩ := natToString_data b
      rw [← h] at hall
      exact absurd (hall '-' (List.mem_cons_self _ _)) (by decide)
    | negSucc b =>
      simp only [List.cons.injEq, true_and] at h
      have := natToString_injective (a + 1) (b + 1) h
      have hab : a = b := by omega
      rw [hab]

theorem split_at_separator (sep : Char) :
    ∀ (xs ys xs1 ys1 : List Char), sep ∉ xs → sep ∉ xs1 →
      xs ++ sep :: ys = xs1 ++ sep :: ys1 → xs = xs1 ∧ ys = ys1 := by
  intro xs
  induction xs with
  | nil =>
    intro ys xs1 ys1 _ h1 h
    cases xs1 with
    | nil => simpa using h
    | cons c cs =>
      simp only [List.nil_append, List.cons_append, List.cons.injEq] at h
      exact absurd (by rw [h.1]; exact List.mem_cons_self _ _) h1
  | cons x xs ih =>
    intro ys xs1 ys1 h0 h1 h
    cases xs1 with
    | nil =>
      simp only [List.nil_append, List.cons_append, List.cons.injEq] at h
      exact absurd (by rw [← h.1]; exact List.mem_cons_self _ _) h0
    | cons c cs =>
      simp only [List.cons_append, List.cons.injEq] at h
      obtain ⟨hxs, hys⟩ := ih ys cs ys1 (fun hm => h0 (List.mem_cons_of_mem _ hm))
        (fun hm => h1 (List.mem_cons_of_mem _ hm)) h.2
      exact ⟨by rw [h.1, hxs], hys⟩

/-- C18. The directory name `auth_<userId>_<timestamp>` built by
`createAuthDir` determines the pair: two names are equal only for the same
integer userId and the same integer timestamp (non-negative timestamps
included); in particular different userIds never give the same name, whatever
the timestamps. -/
theorem authDirName_injective (userId userId1 : Int) (now now1 : Int) :
    (authDirName userId now = authDirName userId1 now1 → userId = userId1 ∧ now = now1)
      ∧ (userId ≠ userId1 → authDirName userId now ≠ authDirName userId1 now1) := by
  have key : authDirName userId now = authDirName userId1 now1 →
      userId = userId1 ∧ now = now1 := by
    intro h
    have hd := congrArg String.data h
    simp only [authDirName, String.data_append] at hd
    simp only [List.append_assoc, List.append_cancel_left_eq, List.singleton_append] at hd
    obtain ⟨hu, ht⟩ := split_at_separator '_' _ _ _ _ (intToString_no_underscore userId)
      (intToString_no_underscore userId1) hd
    exact ⟨intToString_injective _ _ hu, intToString_injective _ _ ht⟩
  exact ⟨key, fun hne h => hne (key h).1⟩

/-- C18 witness: users 1 and 11 with timestamps 11000 and 1000. -/
theorem authDirName_injective_witness :
    authDirName 1 11000 ≠ authDirName 11 1000 :=
  (authDirName_injective 1 11 11000 1000).2 (by decide)


/-! ## Synchronising the archive -/

theorem pushLoop_total (env : GitCmd → Nat → CmdOutcome) :
    ∀ (fuel k : Nat) (r : Repo) (trace : List GitCmd), 0 < fuel → 3 ≤ fuel + k →
      ∃ run, pushLoop env fuel k r trace = some run
        ∧ run.trace.count .push ≤ trace.count .push + (3 - k)
        ∧ run.repo.commits = r.commits := by
  intro fuel
  induction fuel with
  | zero => intro k r trace h; omega
  | succ fuel ih =>
    intro k r trace _ hk
    rw [pushLoop]
    by_cases h3 : k < 3
    · rw [if_pos h3]
      cases hpush : env .push k with
      | ok =>
        refine ⟨_, rfl, ?_, rfl⟩
        simp only [List.count_append, List.count_singleton, beq_self_eq_true, if_true]
        omega
      | fail e =>
        simp only
        by_cases h2 : k + 1 < 3
        · rw [if_pos h2]
          cases hpull : pullRebase env (k + 1) r with
          | ok =>
            simp only
            obtain ⟨run, hrun, hcount, hcommits⟩ :=
              ih (k + 1) r (trace ++ [.push, .pullRebase]) (by omega) (by omega)
            refine ⟨run, hrun, ?_, hcommits⟩
            have hc : (trace ++ [GitCmd.push, GitCmd.pullRebase]).count .push
                = trace.count .push + 1 := by
              simp [List.count_append, List.count_cons]
            rw [hc] at hcount
            omega
          | fail e1 =>
            refine ⟨_, rfl, ?_, rfl⟩
            have hc : (trace ++ [GitCmd.push, GitCmd.pullRebase]).count .push
                = trace.count .push + 1 := by
              simp [List.count_append, List.count_cons]
            simp only [hc]
            omega
        · rw [if_neg h2]
          refine ⟨_, rfl, ?_, rfl⟩
          simp only [List.count_append, List.count_singleton, beq_self_eq_true, if_true]
          omega
    · rw [if_neg h3]
      exact ⟨_, rfl, by simp, rfl⟩

/-- `pushToGitHub` always ends, and never pushes more than three times. -/
theorem pushToGitHub_total (env : GitCmd → Nat → CmdOutcome) (msg : String) (r : Repo) :
    ∃ run, pushToGitHub env msg r = some run ∧ run.trace.count .push ≤ 3 := by
  have hstage : ∀ (r1 : Repo) (trace : List GitCmd), trace.count .push = 0 →
      ∃ run, stageCommitPush env msg r1 trace = some run ∧ run.trace.count .push ≤ 3 := by
    intro r1 trace htrace
    unfold stageCommitPush
    cases env .addAll 0 with
    | fail e => exact ⟨_, rfl, by simp [List.count_append, List.count_cons, htrace]⟩
    | ok =>
      dsimp only
      split
      · exact ⟨_, rfl, by simp [List.count_append, List.count_cons, htrace]⟩
      · cases env .commit 0 with
        | fail e =>
          dsimp only
          split
          · exact ⟨_, rfl, by simp [List.count_append, List.count_cons, htrace]⟩
          · exact ⟨_, rfl, by simp [List.count_append, List.count_cons, htrace]⟩
        | ok =>
          dsimp only
          obtain ⟨run, hrun, hcount, _⟩ := pushLoop_total env 3 0
            { r1 with staged := r1.work, head := r1.work, commits := r1.commits ++ [msg] }
            (trace ++ [.addAll, .diffStaged, .commit]) (by omega) (by omega)
          refine ⟨run, hrun, ?_⟩
          have hc : (trace ++ [GitCmd.addAll, GitCmd.diffStaged, GitCmd.commit]).count .push
              = 0 := by
            simp [List.count_append, List.count_cons, htrace]
          rw [hc] at hcount
          omega
  unfold pushToGitHub
  cases pullRebase env 0 r with
  | ok => exact hstage r _ (by decide)
  | fail e =>
    dsimp only
    cases env .fetch 0 with
    | fail e1 => exact ⟨_, rfl, by simp [List.count_cons]⟩
    | ok =>
      dsimp only
      cases env .resetHard 0 with
      | fail e2 => exact ⟨_, rfl, by simp [List.count_cons]⟩
      | ok => exact hstage _ _ (by decide)

/-- C15 (failing input). The working copy has a change to commit, staging and
commit succeed, the first push is rejected and the pull made to
re-synchronise fails: `pushToGitHub` throws the error of the pull after a
single push attempt, and no second push is made. -/
theorem pushToGitHub_throws_after_one_push :
    pushToGitHub
        (fun cmd k =>
          if cmd = .push ∧ k = 0 then .fail "rejected: fetch first"
          else if cmd = .pullRebase ∧ k = 1 then .fail "could not apply: merge conflict"
          else .ok)
        "Add session ABCDEF0123456789"
        { cloned := true, work := [("sessions/ABCDEF0123456789/creds.json", .data "e30=")],
          staged := [], head := [], remote := [], commits := [] }
      = some
        { completion := .threw "could not apply: merge conflict",
          repo :=
            { cloned := true,
              work := [("sessions/ABCDEF0123456789/creds.json", .data "e30=")],
              staged := [("sessions/ABCDEF0123456789/creds.json", .data "e30=")],
              head := [("sessions/ABCDEF0123456789/creds.json", .data "e30=")],
              remote := [], commits := ["Add session ABCDEF0123456789"] },
          trace := [.pullRebase, .addAll, .diffStaged, .commit, .push, .pullRebase] } := by
  decide

/-- C19 (failing input). The tip of `origin/main` tracks `sessions/index.json`.
`saveSession` writes the credential file, `metadata.json` and the new index
entry, the pull with rebase fails and the fallback (fetch, hard reset) runs:
the reset writes the tip's `index.json` over the edit, so the working copy and
the commit that follows hold the credential file and `metadata.json` but the
old index, without the session, while the call reports success. -/
theorem saveSession_reset_discards_index_edit :
    JsMap.get (writeSession cleanRepoExample.work "ABCDEF0123456789" "2348123456789"
        (some [⟨"creds.json", true, "e30="⟩]) 42 "2025-01-02T00:00:00.000Z"
        "2025-01-02T00:00:00.001Z" "2025-01-02T00:00:00.002Z").1 indexPath
        = some (.index (updateIndex emptyIndexExample "ABCDEF0123456789" "2348123456789" 42
            "2025-01-02T00:00:00.000Z" 1 "2025-01-02T00:00:00.002Z"))
      ∧ updateIndex emptyIndexExample "ABCDEF0123456789" "2348123456789" 42
          "2025-01-02T00:00:00.000Z" 1 "2025-01-02T00:00:00.002Z" ≠ emptyIndexExample
      ∧ (saveSession
          (fun cmd k =>
            if cmd = .pullRebase ∧ k = 0 then .fail "cannot pull with rebase: unstaged changes"
            else .ok)
          cleanRepoExample "ABCDEF0123456789" "2348123456789"
          (some [⟨"creds.json", true, "e30="⟩]) 42 "2025-01-02T00:00:00.000Z"
          "2025-01-02T00:00:00.001Z" "2025-01-02T00:00:00.002Z").map
          (fun x => (x.1.success, x.2.2, x.2.1.commits))
        = some (true,
            [.pullRebase, .fetch, .resetHard, .addAll, .diffStaged, .commit, .push],
            ["Add session ABCDEF0123456789"])
      ∧ (saveSession
          (fun cmd k =>
            if cmd = .pullRebase ∧ k = 0 then .fail "cannot pull with rebase: unstaged changes"
            else .ok)
          cleanRepoExample "ABCDEF0123456789" "2348123456789"
          (some [⟨"creds.json", true, "e30="⟩]) 42 "2025-01-02T00:00:00.000Z"
          "2025-01-02T00:00:00.001Z" "2025-01-02T00:00:00.002Z").map
          (fun x => (JsMap.get x.2.1.work indexPath, JsMap.get x.2.1.head indexPath,
            JsMap.get x.2.1.head (sessionFilePath "ABCDEF0123456789" "creds.json"),
            (JsMap.get x.2.1.head (sessionFilePath "ABCDEF0123456789" "metadata.json")).isSome))
        = some (some (.index emptyIndexExample), some (.index emptyIndexExample),
            some (.data "e30="), true) := by
  refine ⟨by decide, by decide, by decide, by decide⟩


/-! ## Saving the same session twice -/

theorem copyAuthFiles_names (sessionId : String) (fs : List DirEntry) :
    ∀ work : Files, (copyAuthFiles sessionId work fs).2
      = (fs.filter (fun f => f.isFile)).map (fun f => f.name) := by
  induction fs with
  | nil => intro work; rfl
  | cons f fs ih =>
    intro work
    by_cases hf : f.isFile = true
    · simp [copyAuthFiles, hf, ih]
    · simp [copyAuthFiles, hf, ih]

theorem copyAuthFiles_get (sessionId : String) (fs : List DirEntry) (p : String) :
    ∀ work : Files, JsMap.get (copyAuthFiles sessionId work fs).1 p
      = match copyLast sessionId fs p with
        | some c => some c
        | none => JsMap.get work p := by
  induction fs with
  | nil => intro work; rfl
  | cons f fs ih =>
    intro work
    by_cases hf : f.isFile = true
    · simp only [copyAuthFiles, hf, if_true, copyLast, true_and]
      rw [ih]
      cases copyLast sessionId fs p with
      | some c => rfl
      | none =>
        by_cases hp : sessionFilePath sessionId f.name = p
        · simp only [hp, if_true]
          exact JsMap.get_set_same _ _ _
        · simp only [hp, if_false]
          exact JsMap.get_set_other _ _ _ _ (fun h => hp h.symm)
    · have hff : f.isFile = false := by simpa using hf
      simp only [copyAuthFiles, copyLast, hff, Bool.false_eq_true, false_and, if_false]
      rw [ih]
      cases copyLast sessionId fs p <;> rfl

theorem sessionFilePath_ne_indexPath (sessionId file : String) :
    sessionFilePath sessionId file ≠ indexPath := by
  intro h
  have hd := congrArg String.data h
  simp only [sessionFilePath, indexPath, String.data_append] at hd
  simp only [List.append_assoc, List.cons_append, List.nil_append, List.cons.injEq,
    true_and] at hd
  have hmem : '/' ∈ sessionId.data ++ '/' :: file.data := by simp
  rw [hd] at hmem
  exact absurd hmem (by decide)

theorem copyLast_indexPath (sessionId : String) (fs : List DirEntry) :
    copyLast sessionId fs indexPath = none := by
  induction fs with
  | nil => rfl
  | cons f fs ih =>
    simp only [copyLast, ih]
    rw [if_neg (fun h => sessionFilePath_ne_indexPath _ _ h.2)]

theorem updateIndex_idem (index : ArchiveIndex) (sessionId phoneNumber : String) (userId : Int)
    (created : String) (fileCount : Nat) (lastUpdated : String) :
    updateIndex (updateIndex index sessionId phoneNumber userId created fileCount lastUpdated)
        sessionId phoneNumber userId created fileCount lastUpdated
      = updateIndex index sessionId phoneNumber userId created fileCount lastUpdated := by
  simp [updateIndex, JsMap.set_set_same]

theorem Files.same_of_get (a b : Files) (h : ∀ p, JsMap.get a p = JsMap.get b p) :
    Files.same a b = true := by
  simp [Files.same, h]

theorem pushLoop_allOk (r : Repo) (trace : List GitCmd) :
    pushLoop allOk 3 0 r trace
      = some { completion := .returned, repo := { r with remote := r.head },
               trace := trace ++ [.push] } := by
  simp [pushLoop, allOk]

/-- What the writes of `saveSession` leave under each path, when they succeed
on a working copy whose index document is `old`. -/
theorem writeSession_get (work work1 : Files) (sessionId phoneNumber : String)
    (authFiles : List DirEntry) (userId : Int) (iso1 iso2 iso3 : String) (n : Nat)
    (hwrite : writeSession work sessionId phoneNumber (some authFiles) userId iso1 iso2 iso3
      = (work1, some n)) :
    ∃ old : ArchiveIndex, JsMap.get work indexPath = some (.index old)
      ∧ n = ((authFiles.filter (fun f => f.isFile)).map (fun f => f.name)).length
      ∧ ∀ p : String, JsMap.get work1 p
          = if p = indexPath then
              some (.index (updateIndex old sessionId phoneNumber userId iso1 n iso3))
            else if p = sessionFilePath sessionId "metadata.json" then
              some (.metadata
                { sessionId := sessionId, phoneNumber := phoneNumber, userId := userId,
                  created := iso1,
                  files := (authFiles.filter (fun f => f.isFile)).map (fun f => f.name),
                  status := "active", lastAccessed := iso2 })
            else
              match copyLast sessionId authFiles p with
              | some c => some c
              | none => JsMap.get work p := by
  unfold writeSession at hwrite
  dsimp only at hwrite
  have hidx : JsMap.get (JsMap.set (copyAuthFiles sessionId work authFiles).1
        (sessionFilePath sessionId "metadata.json")
        (.metadata
          { sessionId := sessionId, phoneNumber := phoneNumber, userId := userId, created := iso1,
            files := (copyAuthFiles sessionId work authFiles).2, status := "active",
            lastAccessed := iso2 })) indexPath
      = JsMap.get work indexPath := by
    rw [JsMap.get_set_other _ _ _ _ (fun h => sessionFilePath_ne_indexPath _ _ h.symm),
      copyAuthFiles_get, copyLast_indexPath]
  rw [hidx] at hwrite
  split at hwrite
  · rename_i old hold
    simp only [Prod.mk.injEq, Option.some.injEq] at hwrite
    obtain ⟨hw, hn⟩ := hwrite
    refine ⟨old, hold, ?_, ?_⟩
    · rw [← hn, copyAuthFiles_names]
    · intro p
      rw [← hw]
      by_cases hp : p = indexPath
      · rw [if_pos hp, hp, JsMap.get_set_same, hn]
      · rw [if_neg hp, JsMap.get_set_other _ _ _ _ hp]
        by_cases hm : p = sessionFilePath sessionId "metadata.json"
        · rw [if_pos hm, hm, JsMap.get_set_same, copyAuthFiles_names]
        · rw [if_neg hm, JsMap.get_set_other _ _ _ _ hm, copyAuthFiles_get]
  · simp at hwrite

theorem writeSession_some (work : Files) (sessionId phoneNumber : String)
    (authFiles : List DirEntry) (userId : Int) (iso1 iso2 iso3 : String) (old : ArchiveIndex)
    (hold : JsMap.get work indexPath = some (.index old)) :
    ∃ work1, writeSession work sessionId phoneNumber (some authFiles) userId iso1 iso2 iso3
      = (work1, some ((authFiles.filter (fun f => f.isFile)).map (fun f => f.name)).length) := by
  unfold writeSession
  dsimp only
  have hidx : JsMap.get (JsMap.set (copyAuthFiles sessionId work authFiles).1
        (sessionFilePath sessionId "metadata.json")
        (.metadata
          { sessionId := sessionId, phoneNumber := phoneNumber, userId := userId, created := iso1,
            files := (copyAuthFiles sessionId work authFiles).2, status := "active",
            lastAccessed := iso2 })) indexPath
      = some (.index old) := by
    rw [JsMap.get_set_other _ _ _ _ (fun h => sessionFilePath_ne_indexPath _ _ h.symm),
      copyAuthFiles_get, copyLast_indexPath]
    exact hold
  rw [hidx]
  exact ⟨_, by rw [copyAuthFiles_names]⟩

/-! ## Timeout against protocol events -/

/-- C20 (failing input). The code is issued, a mandatory-restart close starts
the reconnect, and the 180 s timeout fires while the reconnect handler is
still in its `delay(2000)`: the timeout cleans up the original socket, finds
`reconnectSocket` still `null`, and its rejection comes after the promise was
resolved.  The reconnect handler then makes the reconnect socket, and the
`open` event of that socket calls `handleSuccessfulConnection`: the attempt
is promoted after the timeout has fired. -/
theorem timeout_then_reconnect_promotes :
    (Attempt.run 515 (Attempt.start 0)
        [.connectionUpdate { connection := some .connecting, statusCode := none, qr := false },
         .codeRequestDone (.code "ABCD1234"),
         .connectionUpdate { connection := some .close, statusCode := some 515, qr := false },
         .timeout,
         .reconnectDelayElapsed true,
         .reconnectUpdate (some .opened)]).effects
      = [.requestPairingCode, .registerWaiting, .settle (.resolved "ABCD1234"),
         .cleanupSocket .original, .settle (.error "Connection timeout"),
         .cleanupSocket .original, .makeReconnectSocket,
         .handleSuccessfulConnection .reconnect]
      ∧ (Attempt.run 515 (Attempt.start 0)
          [.connectionUpdate { connection := some .connecting, statusCode := none, qr := false },
           .codeRequestDone (.code "ABCD1234"),
           .connectionUpdate { connection := some .close, statusCode := some 515, qr := false },
           .timeout]).reconnectSocket = false
      ∧ (Attempt.run 515 (Attempt.start 0)
          [.connectionUpdate { connection := some .connecting, statusCode := none, qr := false },
           .codeRequestDone (.code "ABCD1234"),
           .connectionUpdate { connection := some .close, statusCode := some 515, qr := false },
           .timeout,
           .reconnectDelayElapsed true,
           .reconnectUpdate (some .opened)]).authSuccess = true := by
  decide


/-! ## C24: `formatPhoneNumber` keeps exactly the digits -/

theorem filter_isDigit_of_all (cs : List Char) (h : ∀ c ∈ cs, c.isDigit = true) :
    cs.filter Char.isDigit = cs :=
  List.filter_eq_self.mpr h

/-- C24. For every input string, `formatPhoneNumber` returns the decimal
digits of the string in their original order when their number is between
10 and 15 inclusive, and `null` (here `none`) otherwise; every result it
returns consists of digits only, has length 10 to 15 and is returned
unchanged when it is given to `formatPhoneNumber` again. -/
theorem formatPhoneNumber_digits_fixed_point (phone : String) :
    (formatPhoneNumber phone
        = if 10 ≤ (phone.data.filter Char.isDigit).length
              ∧ (phone.data.filter Char.isDigit).length ≤ 15
          then some (String.mk (phone.data.filter Char.isDigit)) else none)
      ∧ ∀ cleaned, formatPhoneNumber phone = some cleaned →
          (∀ c ∈ cleaned.data, c.isDigit = true)
            ∧ 10 ≤ cleaned.length ∧ cleaned.length ≤ 15
            ∧ formatPhoneNumber cleaned = some cleaned := by
  have hfirst : formatPhoneNumber phone
        = if 10 ≤ (phone.data.filter Char.isDigit).length
              ∧ (phone.data.filter Char.isDigit).length ≤ 15
          then some (String.mk (phone.data.filter Char.isDigit)) else none := by
    unfold formatPhoneNumber
    dsimp only
    by_cases h : 10 ≤ (phone.data.filter Char.isDigit).length
        ∧ (phone.data.filter Char.isDigit).length ≤ 15
    · rw [if_pos h, if_neg (by omega)]
    · rw [if_neg h, if_pos (by omega)]
  refine ⟨hfirst, ?_⟩
  intro cleaned hc
  obtain ⟨_, hdig, hlo, hhi⟩ := formatPhoneNumber_some phone cleaned hc
  refine ⟨hdig, hlo, hhi, ?_⟩
  have hfix : cleaned.data.filter Char.isDigit = cleaned.data :=
    filter_isDigit_of_all cleaned.data hdig
  unfold formatPhoneNumber
  dsimp only
  rw [hfix, if_neg (by omega)]

theorem formatPhoneNumber_digits_fixed_point_witness :
    formatPhoneNumber "+1 (415) 555-2671" = some "14155552671"
      ∧ formatPhoneNumber "14155552671" = some "14155552671"
      ∧ formatPhoneNumber "555-2671" = none
      ∧ formatPhoneNumber "1234567890123456" = none :=
  ⟨by decide,
   ((formatPhoneNumber_digits_fixed_point "+1 (415) 555-2671").2 "14155552671" (by decide)).2.2.2,
   by decide, by decide⟩


/-! ## C21: the eviction loop of `generatePairingCode` -/

theorem isWaitingOf_iff (userId : Int) (data : SessionEntry) :
    isWaitingOf userId data = true
      ↔ data.userId = userId
          ∧ (data.status = .waiting_for_auth ∨ data.status = .connecting) := by
  simp [isWaitingOf]

theorem JsMap.mem_of_get {κ ν : Type} [DecidableEq κ] (m : JsMap κ ν) (k : κ) (v : ν)
    (h : JsMap.get m k = some v) : (k, v) ∈ m := by
  induction m with
  | nil => simp [JsMap.get] at h
  | cons e m ih =>
    obtain ⟨k1, v1⟩ := e
    by_cases hk : k1 = k
    · subst hk
      simp [JsMap.get] at h
      subst h
      exact List.mem_cons_self _ _
    · simp [JsMap.get, hk] at h
      exact List.mem_cons_of_mem _ (ih h)

/-- The registry that `evictWaiting` returns is the one obtained by calling
`activeSessions.delete(sessionId)` (line 445) for each matching key. -/
theorem evictWaiting_eq_foldl_delete (reg : ActiveSessions) (userId : Int)
    (hkeys : (reg.map Prod.fst).Nodup) :
    ((reg.filter (fun e => isWaitingOf userId e.2)).map (fun e => e.1)).foldl
        (fun m id => JsMap.delete m id) reg
      = (evictWaiting reg userId).1 :=
  JsMap.foldl_delete_selected reg (fun e => isWaitingOf userId e.2) hkeys

/-- C21. For every registry (a map, so with distinct keys) and every userId,
after the eviction loop at the start of `generatePairingCode` no key holds an
entry of that user with status `waiting_for_auth` or `connecting`; the sockets
passed to `cleanupSocket` are exactly the sockets of the evicted entries; and
every other entry (the connected entries of that user and all entries of
other users) is still found under its key, unchanged, no entry being added. -/
theorem evictWaiting_removes_exactly_waiting (reg : ActiveSessions) (userId : Int)
    (hkeys : (reg.map Prod.fst).Nodup) :
    (∀ k data, JsMap.get (evictWaiting reg userId).1 k = some data →
        ¬ (data.userId = userId
            ∧ (data.status = .waiting_for_auth ∨ data.status = .connecting)))
      ∧ (∀ k data, JsMap.get reg k = some data →
          data.userId = userId
            ∧ (data.status = .waiting_for_auth ∨ data.status = .connecting) →
          JsMap.get (evictWaiting reg userId).1 k = none
            ∧ data.socket ∈ (evictWaiting reg userId).2)
      ∧ (∀ s ∈ (evictWaiting reg userId).2, ∃ k data, JsMap.get reg k = some data
          ∧ data.userId = userId
          ∧ (data.status = .waiting_for_auth ∨ data.status = .connecting)
          ∧ data.socket = s)
      ∧ (∀ k data, JsMap.get reg k = some data →
          ¬ (data.userId = userId
              ∧ (data.status = .waiting_for_auth ∨ data.status = .connecting)) →
          JsMap.get (evictWaiting reg userId).1 k = some data)
      ∧ (∀ k data, JsMap.get (evictWaiting reg userId).1 k = some data →
          JsMap.get reg k = some data) := by
  have hget : ∀ k, JsMap.get (evictWaiting reg userId).1 k
      = (JsMap.get reg k).filter (fun v => !isWaitingOf userId v) := fun k =>
    JsMap.get_filter reg (fun e => !isWaitingOf userId e.2) k hkeys
  have hw : ∀ data : SessionEntry, (data.userId = userId
      ∧ (data.status = .waiting_for_auth ∨ data.status = .connecting))
      ↔ isWaitingOf userId data = true := fun data => (isWaitingOf_iff userId data).symm
  refine ⟨?_, ?_, ?_, ?_, ?_⟩
  · intro k data h hd
    rw [hget k] at h
    cases hg : JsMap.get reg k with
    | none => simp [hg] at h
    | some v =>
      rw [hg] at h
      have hv := (hw data).mp hd
      by_cases hq : isWaitingOf userId v = true
      · simp [Option.filter, hq] at h
      · simp [Option.filter, hq] at h
        subst h
        exact hq hv
  · intro k data h hd
    have hv := (hw data).mp hd
    constructor
    · rw [hget k, h]
      simp [Option.filter, hv]
    · have hmem : (k, data) ∈ reg := JsMap.mem_of_get reg k data h
      exact List.mem_map.mpr ⟨(k, data), List.mem_filter.mpr ⟨hmem, hv⟩, rfl⟩
  · intro s hs
    obtain ⟨e, he, hes⟩ := List.mem_map.mp hs
    obtain ⟨hmem, hv⟩ := List.mem_filter.mp he
    exact ⟨e.1, e.2, JsMap.get_of_mem reg e hkeys hmem,
      ((hw e.2).mpr hv).1, ((hw e.2).mpr hv).2, hes⟩
  · intro k data h hd
    have hv : ¬ isWaitingOf userId data = true := fun hx => hd ((hw data).mpr hx)
    rw [hget k, h]
    simp [Option.filter, hv]
  · intro k data h
    rw [hget k] at h
    cases hg : JsMap.get reg k with
    | none => simp [hg] at h
    | some v =>
      rw [hg] at h
      by_cases hq : isWaitingOf userId v = true
      · simp [Option.filter, hq] at h
      · simp [Option.filter, hq] at h
        rw [h]


theorem evictWaiting_removes_exactly_waiting_witness :
    (evictionExample.map Prod.fst).Nodup
      ∧ (JsMap.get (evictWaiting evictionExample 7).1 "temp_7_15551234567" = none
          ∧ 1 ∈ (evictWaiting evictionExample 7).2)
      ∧ (evictWaiting evictionExample 7).2 = [1, 4]
      ∧ (evictWaiting evictionExample 7).1.map Prod.fst
          = ["A1B2C3D4E5F60718", "temp_8_15557654321"] :=
  ⟨by decide,
   (evictWaiting_removes_exactly_waiting evictionExample 7 (by decide)).2.1
      "temp_7_15551234567"
      ⟨7, "15551234567", 1000, .waiting_for_auth, 1, "auth_7_1000", none⟩
      (by decide) ⟨rfl, Or.inl rfl⟩,
   by decide, by decide⟩


/-! ## C22: the pairing code is requested at most once -/

namespace Attempt

theorem keepsRequest_refl (a : Attempt) : KeepsRequest a a := ⟨rfl, rfl⟩

theorem keepsRequest_trans {a b c : Attempt} (h1 : KeepsRequest a b) (h2 : KeepsRequest b c) :
    KeepsRequest a c :=
  ⟨h2.1.trans h1.1, h2.2.trans h1.2⟩

theorem keepsRequest_of_eq (a b : Attempt) (h1 : b.effects = a.effects)
    (h2 : b.hasRequestedCode = a.hasRequestedCode) : KeepsRequest a b := by
  unfold KeepsRequest codeRequests
  rw [h1]
  exact ⟨rfl, h2⟩

theorem keepsRequest_emit (a : Attempt) (e : Effect) (he : e ≠ .requestPairingCode) :
    KeepsRequest a (a.emit e) := by
  unfold KeepsRequest codeRequests emit
  simp [List.count_append, List.count_cons, he]

theorem keepsRequest_clearTimeout (a : Attempt) : KeepsRequest a a.clearTimeout :=
  keepsRequest_of_eq _ _ rfl rfl

theorem keepsRequest_settle (a : Attempt) (x : Settlement) : KeepsRequest a (a.settle x) := by
  unfold settle
  dsimp only
  split
  · exact keepsRequest_emit a _ (by simp)
  · exact keepsRequest_trans (keepsRequest_emit a _ (by simp)) (keepsRequest_of_eq _ _ rfl rfl)

theorem keepsRequest_cleanupSocket (a : Attempt) (s : Sock) :
    KeepsRequest a (a.cleanupSocket s) := by
  cases s
  · exact keepsRequest_trans (keepsRequest_of_eq a { a with listening := false } rfl rfl)
      (keepsRequest_emit _ _ (by simp))
  · simp only [cleanupSocket]
    split
    · exact keepsRequest_trans (keepsRequest_of_eq a { a with reconnectListening := false } rfl rfl)
        (keepsRequest_emit _ _ (by simp))
    · exact keepsRequest_refl a

theorem keepsRequest_openBlock (a : Attempt) (u : ConnectionUpdate) :
    KeepsRequest a (openBlock a u) := by
  unfold openBlock
  split
  · exact keepsRequest_trans
      (keepsRequest_of_eq a { a with authSuccess := true, timeoutArmed := false, listening := false }
        rfl rfl)
      (keepsRequest_emit _ _ (by simp))
  · exact keepsRequest_refl a

theorem keepsRequest_closeBlock (rr : Int) (a : Attempt) (u : ConnectionUpdate) :
    KeepsRequest a (closeBlock rr a u) := by
  unfold closeBlock
  split
  · split
    · split
      · exact keepsRequest_of_eq _ _ rfl rfl
      · exact keepsRequest_refl a
    · split
      · have h2 : KeepsRequest a ((a.clearTimeout).cleanupSocket .original) :=
          keepsRequest_trans (keepsRequest_of_eq a a.clearTimeout rfl rfl)
            (keepsRequest_cleanupSocket _ _)
        dsimp only
        split
        · exact keepsRequest_trans h2 (keepsRequest_of_eq _ _ rfl rfl)
        · exact keepsRequest_trans h2 (keepsRequest_settle _ _)
      · exact keepsRequest_refl a
  · exact keepsRequest_refl a

theorem keepsRequest_afterRequestBlock (rr : Int) (a : Attempt) (u : ConnectionUpdate) :
    KeepsRequest a (afterRequestBlock rr a u) :=
  keepsRequest_trans (keepsRequest_openBlock a u) (keepsRequest_closeBlock rr _ u)

theorem keepsRequest_onCodeRequestDone (rr : Int) (a : Attempt) (r : RequestResult) :
    KeepsRequest a (onCodeRequestDone rr a r) := by
  unfold onCodeRequestDone
  split
  · exact keepsRequest_refl a
  · dsimp only
    split
    · refine keepsRequest_trans ?_ (keepsRequest_afterRequestBlock rr _ _)
      refine keepsRequest_trans ?_ (keepsRequest_settle _ _)
      exact keepsRequest_trans
        (keepsRequest_of_eq a { a with awaitingCode := none, codeGenerated := true } rfl rfl)
        (keepsRequest_emit _ _ (by simp))
    · have h1 : KeepsRequest a (clearTimeout { a with awaitingCode := none }) :=
        keepsRequest_of_eq _ _ rfl rfl
      split
      · exact keepsRequest_trans (keepsRequest_trans h1 (keepsRequest_cleanupSocket _ .original))
          (keepsRequest_of_eq _ _ rfl rfl)
      · exact keepsRequest_trans (keepsRequest_trans h1 (keepsRequest_settle _ _))
          (keepsRequest_afterRequestBlock rr _ _)

theorem keepsRequest_onRetryDelayElapsed (rr : Int) (a : Attempt) :
    KeepsRequest a (onRetryDelayElapsed rr a) := by
  unfold onRetryDelayElapsed
  split
  · exact keepsRequest_refl a
  · rename_i x cont rest hq
    have h1 : KeepsRequest a (settle { a with awaitingRetryDelay := rest } x) :=
      keepsRequest_trans (keepsRequest_of_eq a { a with awaitingRetryDelay := rest } rfl rfl)
        (keepsRequest_settle _ _)
    dsimp only
    split
    · exact h1
    · exact keepsRequest_trans h1 (keepsRequest_afterRequestBlock rr _ _)

theorem keepsRequest_onReconnectDelayElapsed (a : Attempt) (ok : Bool) :
    KeepsRequest a (onReconnectDelayElapsed a ok) := by
  unfold onReconnectDelayElapsed
  split
  · have h1 : KeepsRequest a (cleanupSocket { a with awaitingReconnect := false } .original) :=
      keepsRequest_trans (keepsRequest_of_eq a { a with awaitingReconnect := false } rfl rfl)
        (keepsRequest_cleanupSocket _ _)
    dsimp only
    split
    · refine keepsRequest_trans h1 ?_
      exact keepsRequest_trans (keepsRequest_of_eq _ _ rfl rfl) (keepsRequest_emit _ _ (by simp))
    · refine keepsRequest_trans h1 ?_
      refine keepsRequest_trans ?_ (keepsRequest_settle _ _)
      exact keepsRequest_trans (keepsRequest_clearTimeout _)
        (keepsRequest_cleanupSocket _ _)
  · exact keepsRequest_refl a

theorem keepsRequest_reconnectOpenBlock (a : Attempt) (c : Option Connection) :
    KeepsRequest a (reconnectOpenBlock a c) := by
  unfold reconnectOpenBlock
  split
  · exact keepsRequest_trans
      (keepsRequest_of_eq a
        { a with authSuccess := true, timeoutArmed := false, reconnectListening := false } rfl rfl)
      (keepsRequest_emit _ _ (by simp))
  · exact keepsRequest_refl a

theorem keepsRequest_onReconnectUpdate (a : Attempt) (c : Option Connection) :
    KeepsRequest a (onReconnectUpdate a c) := by
  unfold onReconnectUpdate
  dsimp only
  have h1 := keepsRequest_reconnectOpenBlock a c
  split
  · refine keepsRequest_trans h1 ?_
    refine keepsRequest_trans ?_ (keepsRequest_settle _ _)
    exact keepsRequest_trans (keepsRequest_clearTimeout _)
      (keepsRequest_cleanupSocket _ _)
  · exact h1

theorem keepsRequest_onTimeout (a : Attempt) : KeepsRequest a (onTimeout a) := by
  unfold onTimeout
  split
  · refine keepsRequest_trans ?_ (keepsRequest_settle _ _)
    exact keepsRequest_trans (keepsRequest_cleanupSocket _ _) (keepsRequest_cleanupSocket _ _)
  · exact keepsRequest_refl a

theorem keepsRequest_outerCatch (a : Attempt) : KeepsRequest a (outerCatch a) := by
  unfold outerCatch
  split
  · exact keepsRequest_refl a
  · exact keepsRequest_refl a
  · split
    · exact keepsRequest_refl a
    · refine keepsRequest_trans
        (keepsRequest_trans (keepsRequest_cleanupSocket a .original)
          (keepsRequest_cleanupSocket _ .reconnect)) ?_
      exact keepsRequest_of_eq _ _ rfl rfl

end Attempt


namespace Attempt

theorem requestInv_of_keeps {a b : Attempt} (h : RequestInv a) (hk : KeepsRequest a b) :
    RequestInv b := by
  unfold RequestInv at *
  rw [hk.1, hk.2]
  exact h

/-- The request branch of lines 497-500: one more request, flag set. -/
theorem onConnectionUpdate_request (rr : Int) (a : Attempt) (u : ConnectionUpdate)
    (hg : a.hasRequestedCode = false ∧ a.codeGenerated = false ∧ a.authSuccess = false
      ∧ (u.connection = some .connecting ∨ u.qr = true)) :
    (onConnectionUpdate rr a u).hasRequestedCode = true
      ∧ (onConnectionUpdate rr a u).codeRequests = a.codeRequests + 1 := by
  unfold onConnectionUpdate
  rw [if_pos hg]
  constructor
  · rfl
  · unfold codeRequests emit
    simp [List.count_append]

theorem onConnectionUpdate_keeps (rr : Int) (a : Attempt) (u : ConnectionUpdate)
    (hg : ¬ (a.hasRequestedCode = false ∧ a.codeGenerated = false ∧ a.authSuccess = false
      ∧ (u.connection = some .connecting ∨ u.qr = true))) :
    KeepsRequest a (onConnectionUpdate rr a u) := by
  unfold onConnectionUpdate
  rw [if_neg hg]
  exact keepsRequest_afterRequestBlock rr a u

/-- Every step either requests no code and leaves `hasRequestedCode`, or it
finds the flag unset, sets it and requests the code once. -/
theorem step_request (rr : Int) (a : Attempt) (e : AttemptEvent) :
    KeepsRequest a (step rr a e)
      ∨ (a.hasRequestedCode = false ∧ (step rr a e).hasRequestedCode = true
          ∧ (step rr a e).codeRequests = a.codeRequests + 1) := by
  cases e with
  | connectionUpdate u =>
    simp only [step]
    split
    · by_cases hg : a.hasRequestedCode = false ∧ a.codeGenerated = false ∧ a.authSuccess = false
          ∧ (u.connection = some .connecting ∨ u.qr = true)
      · right
        have h1 := onConnectionUpdate_request rr a u hg
        have h2 := keepsRequest_outerCatch (onConnectionUpdate rr a u)
        exact ⟨hg.1, h2.2.trans h1.1, h2.1.trans h1.2⟩
      · left
        exact keepsRequest_trans (onConnectionUpdate_keeps rr a u hg) (keepsRequest_outerCatch _)
    · exact Or.inl (keepsRequest_refl a)
  | codeRequestDone r =>
    exact Or.inl (keepsRequest_trans (keepsRequest_onCodeRequestDone rr a r)
      (keepsRequest_outerCatch _))
  | retryDelayElapsed =>
    exact Or.inl (keepsRequest_trans (keepsRequest_onRetryDelayElapsed rr a)
      (keepsRequest_outerCatch _))
  | reconnectDelayElapsed ok =>
    exact Or.inl (keepsRequest_trans (keepsRequest_onReconnectDelayElapsed a ok)
      (keepsRequest_outerCatch _))
  | reconnectUpdate c =>
    simp only [step]
    split
    · exact Or.inl (keepsRequest_trans (keepsRequest_onReconnectUpdate a c)
        (keepsRequest_outerCatch _))
    · exact Or.inl (keepsRequest_refl a)
  | timeout =>
    simp only [step]
    split
    · refine Or.inl (keepsRequest_trans ?_ (keepsRequest_outerCatch _))
      exact keepsRequest_trans (keepsRequest_of_eq a { a with timeoutArmed := false } rfl rfl)
        (keepsRequest_onTimeout _)
    · exact Or.inl (keepsRequest_refl a)

theorem requestInv_start (rc : Nat) : RequestInv (start rc) := by
  simp [RequestInv, start, codeRequests]

theorem requestInv_step (rr : Int) (a : Attempt) (e : AttemptEvent) (h : RequestInv a) :
    RequestInv (step rr a e) := by
  rcases step_request rr a e with hk | ⟨h0, h1, h2⟩
  · exact requestInv_of_keeps h hk
  · unfold RequestInv at *
    rw [h2, h1, h, h0]
    simp

theorem requestInv_run (rr : Int) (events : List AttemptEvent) (a : Attempt)
    (h : RequestInv a) : RequestInv (run rr a events) := by
  induction events generalizing a with
  | nil => exact h
  | cons e es ih => exact ih (step rr a e) (requestInv_step rr a e h)

theorem hasRequestedCode_step (rr : Int) (a : Attempt) (e : AttemptEvent)
    (h : a.hasRequestedCode = true) : (step rr a e).hasRequestedCode = true := by
  rcases step_request rr a e with hk | ⟨h0, _, _⟩
  · rw [hk.2, h]
  · rw [h] at h0
    cases h0

theorem hasRequestedCode_run (rr : Int) (events : List AttemptEvent) (a : Attempt)
    (h : a.hasRequestedCode = true) : (run rr a events).hasRequestedCode = true := by
  induction events generalizing a with
  | nil => exact h
  | cons e es ih => exact ih (step rr a e) (hasRequestedCode_step rr a e h)

theorem codeRequests_le_one (a : Attempt) (h : RequestInv a) : a.codeRequests ≤ 1 := by
  unfold RequestInv at h
  rw [h]
  split <;> omega

theorem run_append (rr : Int) (a : Attempt) (xs ys : List AttemptEvent) :
    run rr a (xs ++ ys) = run rr (run rr a xs) ys := by
  simp [run, List.foldl_append]

end Attempt


namespace Attempt

theorem noRequestYet_congr (a b : Attempt) (h : NoRequestYet a)
    (h1 : b.hasRequestedCode = a.hasRequestedCode) (h2 : b.codeGenerated = a.codeGenerated)
    (h3 : b.authSuccess = a.authSuccess) (h4 : b.awaitingCode = a.awaitingCode)
    (h5 : b.awaitingReconnect = a.awaitingReconnect) (h6 : b.reconnectListening = false)
    (h7 : ∀ p ∈ b.awaitingRetryDelay, p ∈ a.awaitingRetryDelay ∨ p.2 = none) :
    NoRequestYet b := by
  obtain ⟨g1, g2, g3, g4, g5, _, g7⟩ := h
  refine ⟨h1.trans g1, h2.trans g2, h3.trans g3, h4.trans g4, h5.trans g5, h6, ?_⟩
  intro p hp
  rcases h7 p hp with hq | hq
  · exact g7 p hq
  · exact hq

theorem noRequestYet_settle (a : Attempt) (x : Settlement) (h : NoRequestYet a) :
    NoRequestYet (a.settle x) := by
  unfold settle emit
  dsimp only
  split
  · exact noRequestYet_congr a _ h rfl rfl rfl rfl rfl h.2.2.2.2.2.1 (fun p hp => Or.inl hp)
  · exact noRequestYet_congr a _ h rfl rfl rfl rfl rfl h.2.2.2.2.2.1 (fun p hp => Or.inl hp)

theorem noRequestYet_cleanupSocket (a : Attempt) (s : Sock) (h : NoRequestYet a) :
    NoRequestYet (a.cleanupSocket s) := by
  cases s
  · exact noRequestYet_congr a _ h rfl rfl rfl rfl rfl h.2.2.2.2.2.1 (fun p hp => Or.inl hp)
  · simp only [cleanupSocket]
    split
    · exact noRequestYet_congr a _ h rfl rfl rfl rfl rfl rfl (fun p hp => Or.inl hp)
    · exact h

theorem noRequestYet_clearTimeout (a : Attempt) (h : NoRequestYet a) :
    NoRequestYet a.clearTimeout :=
  noRequestYet_congr a _ h rfl rfl rfl rfl rfl h.2.2.2.2.2.1 (fun _ hp => Or.inl hp)

theorem noRequestYet_outerCatch (a : Attempt) (h : NoRequestYet a) :
    NoRequestYet (outerCatch a) := by
  unfold outerCatch
  split
  · exact h
  · exact h
  · split
    · exact h
    · have h2 := noRequestYet_cleanupSocket _ .reconnect (noRequestYet_cleanupSocket a .original h)
      exact noRequestYet_congr _ _ h2 rfl rfl rfl rfl rfl h2.2.2.2.2.2.1 (fun p hp => Or.inl hp)

theorem noRequestYet_closeBlock (rr : Int) (a : Attempt) (u : ConnectionUpdate)
    (h : NoRequestYet a) : NoRequestYet (closeBlock rr a u) := by
  unfold closeBlock
  split
  · split
    · split
      · rename_i hc
        rw [h.2.1] at hc
        exact absurd hc.1 (by simp)
      · exact h
    · split
      · have h2 : NoRequestYet ((a.clearTimeout).cleanupSocket .original) :=
          noRequestYet_cleanupSocket _ _ (noRequestYet_clearTimeout a h)
        dsimp only
        split
        · refine noRequestYet_congr _ _ h2 rfl rfl rfl rfl rfl h2.2.2.2.2.2.1 ?_
          intro p hp
          rcases List.mem_append.mp hp with hq | hq
          · exact Or.inl hq
          · right
            simp only [List.mem_singleton] at hq
            rw [hq]
        · exact noRequestYet_settle _ _ h2
      · exact h
  · exact h

theorem noRequestYet_step (rr : Int) (a : Attempt) (e : AttemptEvent) (h : NoRequestYet a)
    (he : ∀ v, e = .connectionUpdate v →
      ¬ (v.connection = some .connecting ∨ v.qr = true) ∧ v.connection ≠ some .opened) :
    NoRequestYet (step rr a e) := by
  cases e with
  | connectionUpdate u =>
    obtain ⟨hu1, hu2⟩ := he u rfl
    simp only [step]
    split
    · apply noRequestYet_outerCatch
      unfold onConnectionUpdate
      rw [if_neg (fun hg => hu1 hg.2.2.2)]
      unfold afterRequestBlock openBlock
      rw [if_neg (fun hg => hu2 hg.1)]
      exact noRequestYet_closeBlock rr a u h
    · exact h
  | codeRequestDone r =>
    simp only [step]
    apply noRequestYet_outerCatch
    unfold onCodeRequestDone
    rw [h.2.2.2.1]
    exact h
  | retryDelayElapsed =>
    simp only [step]
    apply noRequestYet_outerCatch
    unfold onRetryDelayElapsed
    split
    · exact h
    · rename_i x cont rest hq
      have hcont : cont = none := by
        have := h.2.2.2.2.2.2 (x, cont) (by rw [hq]; exact List.mem_cons_self _ _)
        exact this
      subst hcont
      dsimp only
      apply noRequestYet_settle
      refine noRequestYet_congr a _ h rfl rfl rfl rfl rfl h.2.2.2.2.2.1 ?_
      intro p hp
      left
      rw [hq]
      exact List.mem_cons_of_mem _ hp
  | reconnectDelayElapsed ok =>
    simp only [step]
    apply noRequestYet_outerCatch
    unfold onReconnectDelayElapsed
    rw [if_neg (by rw [h.2.2.2.2.1]; simp)]
    exact h
  | reconnectUpdate c =>
    simp only [step]
    rw [if_neg (by rw [h.2.2.2.2.2.1]; simp)]
    exact h
  | timeout =>
    simp only [step]
    split
    · apply noRequestYet_outerCatch
      have h0 : NoRequestYet { a with timeoutArmed := false } :=
        noRequestYet_congr a _ h rfl rfl rfl rfl rfl h.2.2.2.2.2.1 (fun p hp => Or.inl hp)
      unfold onTimeout
      split
      · exact noRequestYet_settle _ _
          (noRequestYet_cleanupSocket _ _ (noRequestYet_cleanupSocket _ _ h0))
      · exact h0
    · exact h

theorem noRequestYet_start (rc : Nat) : NoRequestYet (start rc) := by
  simp [NoRequestYet, start]

theorem noRequestYet_run (rr : Int) (events : List AttemptEvent) (a : Attempt)
    (h : NoRequestYet a)
    (he : ∀ v, .connectionUpdate v ∈ events →
      ¬ (v.connection = some .connecting ∨ v.qr = true) ∧ v.connection ≠ some .opened) :
    NoRequestYet (run rr a events) := by
  induction events generalizing a with
  | nil => exact h
  | cons e es ih =>
    apply ih (step rr a e)
    · apply noRequestYet_step rr a e h
      intro v hv
      exact he v (by rw [hv]; exact List.mem_cons_self _ _)
    · intro v hv
      exact he v (List.mem_cons_of_mem _ hv)

end Attempt


/-- C22. For every sequence of events of one attempt, `requestPairingCode` is
invoked at most once. It is invoked on the first `connection.update` event
delivered to the handler of `socket` whose connection is `connecting` or that
carries a QR offer, provided no `open` was seen before it: no request was made
before that event, one has been made when the event is handled, and whatever
follows (the request returning a code or throwing, further events of either
kind) the number of requests stays one. -/
theorem requestPairingCode_at_most_once (restartRequired : Int) (retryCount : Nat) :
    (∀ events : List AttemptEvent,
        ((Attempt.start retryCount).run restartRequired events).codeRequests ≤ 1)
      ∧ ∀ (before later : List AttemptEvent) (u : ConnectionUpdate),
          (∀ v, AttemptEvent.connectionUpdate v ∈ before →
            ¬ (v.connection = some .connecting ∨ v.qr = true) ∧ v.connection ≠ some .opened) →
          ((Attempt.start retryCount).run restartRequired before).listening = true →
          (u.connection = some .connecting ∨ u.qr = true) →
          ((Attempt.start retryCount).run restartRequired before).codeRequests = 0
            ∧ ((Attempt.start retryCount).run restartRequired
                (before ++ [.connectionUpdate u])).codeRequests = 1
            ∧ ((Attempt.start retryCount).run restartRequired
                (before ++ .connectionUpdate u :: later)).codeRequests = 1 := by
  constructor
  · intro events
    exact Attempt.codeRequests_le_one _
      (Attempt.requestInv_run restartRequired events _ (Attempt.requestInv_start retryCount))
  · intro before later u hbefore hlisten hu
    have hfresh := Attempt.noRequestYet_run restartRequired before _
      (Attempt.noRequestYet_start retryCount) hbefore
    have hinv := Attempt.requestInv_run restartRequired before _
      (Attempt.requestInv_start retryCount)
    generalize hb : (Attempt.start retryCount).run restartRequired before = b at *
    have h0 : b.codeRequests = 0 := by
      unfold Attempt.RequestInv at hinv
      rw [hinv, hfresh.1]
      simp
    have hreq := Attempt.onConnectionUpdate_request restartRequired b u
      ⟨hfresh.1, hfresh.2.1, hfresh.2.2.1, hu⟩
    have hcatch := Attempt.keepsRequest_outerCatch (Attempt.onConnectionUpdate restartRequired b u)
    have hstep : Attempt.step restartRequired b (.connectionUpdate u)
        = (Attempt.onConnectionUpdate restartRequired b u).outerCatch := by
      simp only [Attempt.step]
      rw [if_pos hlisten]
    have hflag : (Attempt.step restartRequired b (.connectionUpdate u)).hasRequestedCode = true := by
      rw [hstep, hcatch.2]
      exact hreq.1
    have hrun : ∀ rest : List AttemptEvent,
        (Attempt.start retryCount).run restartRequired (before ++ .connectionUpdate u :: rest)
          = (Attempt.step restartRequired b (.connectionUpdate u)).run restartRequired rest := by
      intro rest
      rw [Attempt.run_append, hb]
      rfl
    have hone : ∀ rest : List AttemptEvent,
        ((Attempt.start retryCount).run restartRequired
          (before ++ .connectionUpdate u :: rest)).codeRequests = 1 := by
      intro rest
      have hi := Attempt.requestInv_run restartRequired (before ++ .connectionUpdate u :: rest) _
        (Attempt.requestInv_start retryCount)
      have hf := Attempt.hasRequestedCode_run restartRequired rest _ hflag
      rw [← hrun rest] at hf
      unfold Attempt.RequestInv at hi
      rw [hi, hf]
      simp
    exact ⟨h0, hone [], hone later⟩

theorem requestPairingCode_at_most_once_witness :
    ((Attempt.start 0).run 515
        [.connectionUpdate ⟨some .close, some 515, false⟩]).codeRequests = 0
      ∧ ((Attempt.start 0).run 515
          ([.connectionUpdate ⟨some .close, some 515, false⟩]
            ++ [.connectionUpdate ⟨none, none, true⟩])).codeRequests = 1
      ∧ ((Attempt.start 0).run 515
          ([.connectionUpdate ⟨some .close, some 515, false⟩]
            ++ .connectionUpdate ⟨none, none, true⟩
              :: [.connectionUpdate ⟨some .connecting, none, false⟩,
                  .codeRequestDone (.code "ABCD1234"),
                  .connectionUpdate ⟨some .connecting, none, true⟩])).codeRequests = 1 :=
  (requestPairingCode_at_most_once 515 0).2
    [.connectionUpdate ⟨some .close, some 515, false⟩]
    [.connectionUpdate ⟨some .connecting, none, false⟩,
     .codeRequestDone (.code "ABCD1234"),
     .connectionUpdate ⟨some .connecting, none, true⟩]
    ⟨none, none, true⟩
    (by
      intro v hv
      simp only [List.mem_singleton, AttemptEvent.connectionUpdate.injEq] at hv
      subst hv
      decide)
    (by decide) (Or.inr rfl)


/-! ## C23: session ids and temporary keys never meet -/

theorem JsMap.mem_set {κ ν : Type} [DecidableEq κ] (m : JsMap κ ν) (k : κ) (v : ν)
    (e : κ × ν) (h : e ∈ JsMap.set m k v) : e ∈ m ∨ e = (k, v) := by
  induction m with
  | nil =>
    simp only [JsMap.set, List.mem_singleton] at h
    exact Or.inr h
  | cons e1 m ih =>
    obtain ⟨k1, v1⟩ := e1
    by_cases hk : k1 = k
    · simp only [JsMap.set, if_pos hk, List.mem_cons] at h
      rcases h with h | h
      · exact Or.inr h
      · exact Or.inl (List.mem_cons_of_mem _ h)
    · simp only [JsMap.set, if_neg hk, List.mem_cons] at h
      rcases h with h | h
      · exact Or.inl (h ▸ List.mem_cons_self _ _)
      · rcases ih h with h1 | h1
        · exact Or.inl (List.mem_cons_of_mem _ h1)
        · exact Or.inr h1

theorem JsMap.mem_of_mem_delete {κ ν : Type} [DecidableEq κ] (m : JsMap κ ν) (k : κ)
    (e : κ × ν) (h : e ∈ JsMap.delete m k) : e ∈ m :=
  (List.mem_filter.mp h).1

theorem JsMap.mem_of_mem_foldl_delete {κ ν : Type} [DecidableEq κ] (ks : List κ)
    (m : JsMap κ ν) (e : κ × ν) (h : e ∈ ks.foldl (fun m id => JsMap.delete m id) m) :
    e ∈ m := by
  rw [JsMap.foldl_delete] at h
  exact (List.mem_filter.mp h).1

theorem keyInv_of_subset (P : List (Fin 256) → Prop) (reg reg2 : ActiveSessions)
    (h : KeyInv P reg) (hsub : ∀ e ∈ reg2, e ∈ reg) : KeyInv P reg2 :=
  fun e he => h e (hsub e he)

theorem keyInv_registerWaiting (P : List (Fin 256) → Prop) (reg : ActiveSessions)
    (userId : Int) (phoneNumber : String) (socket : Nat) (authDir : String) (now : Int)
    (h : KeyInv P reg) :
    KeyInv P (registerWaiting reg userId phoneNumber socket authDir now) := by
  intro e he
  unfold registerWaiting at he
  rcases JsMap.mem_set _ _ _ e he with h1 | h1
  · exact h e h1
  · subst h1
    exact Or.inl ⟨rfl, rfl⟩

theorem keyInv_handleSuccessfulConnection (P : List (Fin 256) → Prop) (reg : ActiveSessions)
    (archive : ArchiveOutcome) (now : Int) (socket : Nat) (bytes : List (Fin 256))
    (phoneNumber : String) (userId : Int) (authDir : String)
    (h : KeyInv P reg) (hb : P bytes) :
    KeyInv P (handleSuccessfulConnection reg archive now socket (newSessionId bytes)
      phoneNumber userId authDir).1 := by
  intro e he
  unfold handleSuccessfulConnection at he
  dsimp only at he
  rcases JsMap.mem_set _ _ _ e he with h1 | h1
  · exact h e (JsMap.mem_of_mem_delete _ _ e h1)
  · subst h1
    exact Or.inr ⟨rfl, bytes, hb, rfl⟩

theorem keyInv_apply (P : List (Fin 256) → Prop) (s : RegistryState) (op : RegistryOp)
    (h : KeyInv P s.activeSessions) (hop : ∀ bytes, op.randomBytes = some bytes → P bytes) :
    KeyInv P (s.apply op).activeSessions := by
  cases op with
  | startAttempt userId phoneNumber =>
    exact keyInv_of_subset P _ _ h (fun e he => (List.mem_filter.mp he).1)
  | codeIssued userId phoneNumber socket authDir now =>
    simp only [RegistryState.apply]
    split
    · exact keyInv_registerWaiting P _ _ _ _ _ _ h
    · exact h
  | connectionOpen socket bytes phoneNumber userId authDir archive now =>
    exact keyInv_handleSuccessfulConnection P _ _ _ _ _ _ _ _ h (hop bytes rfl)
  | disconnect userId =>
    exact keyInv_of_subset P _ _ h (fun e he => JsMap.mem_of_mem_foldl_delete _ _ e he)
  | sweep now =>
    exact keyInv_of_subset P _ _ h (fun e he => JsMap.mem_of_mem_foldl_delete _ _ e he)

theorem keyInv_foldl (P : List (Fin 256) → Prop) (ops : List RegistryOp) (s : RegistryState)
    (h : KeyInv P s.activeSessions)
    (hops : ∀ op ∈ ops, ∀ bytes, op.randomBytes = some bytes → P bytes) :
    KeyInv P (ops.foldl RegistryState.apply s).activeSessions := by
  induction ops generalizing s with
  | nil => exact h
  | cons op ops ih =>
    rw [List.foldl_cons]
    apply ih
    · exact keyInv_apply P s op h (hops op (List.mem_cons_self _ _))
    · intro op2 h2
      exact hops op2 (List.mem_cons_of_mem _ h2)

theorem keyInv_run (P : List (Fin 256) → Prop) (ops : List RegistryOp)
    (hops : ∀ op ∈ ops, ∀ bytes, op.randomBytes = some bytes → P bytes) :
    KeyInv P (RegistryState.run ops).activeSessions :=
  keyInv_foldl P ops _ (fun e he => absurd he (List.not_mem_nil e)) hops

theorem startsWith_tempKey (userId : Int) (phoneNumber : String) :
    startsWith (tempKey userId phoneNumber) "temp_" = true := by
  have hd : ("temp_" : String).data = ['t', 'e', 'm', 'p', '_'] := rfl
  simp [startsWith, tempKey_data, hd, List.isPrefixOf]

theorem hexDigit_toUpper_isUpperHex (n : Fin 16) : isUpperHex (hexDigit n.val).toUpper = true := by
  revert n
  decide

theorem sessionIdChars_length (bytes : List (Fin 256)) :
    (sessionIdChars bytes).length = 2 * bytes.length := by
  induction bytes with
  | nil => rfl
  | cons b bs ih =>
    simp only [sessionIdChars, List.length_cons, ih]
    omega

theorem sessionIdChars_isUpperHex (bytes : List (Fin 256)) :
    ∀ c ∈ sessionIdChars bytes, isUpperHex c = true := by
  induction bytes with
  | nil => intro c hc; simp [sessionIdChars] at hc
  | cons b bs ih =>
    intro c hc
    have h1 : b.val / 16 < 16 := by
      have := b.isLt
      omega
    have h2 : b.val % 16 < 16 := Nat.mod_lt _ (by decide)
    simp only [sessionIdChars, List.mem_cons] at hc
    rcases hc with hc | hc | hc
    · rw [hc]
      exact hexDigit_toUpper_isUpperHex ⟨b.val / 16, h1⟩
    · rw [hc]
      exact hexDigit_toUpper_isUpperHex ⟨b.val % 16, h2⟩
    · exact ih c hc


/-- C23. For every sequence of registry operations (attempt start with its
eviction, waiting-entry registration, promotion on open, disconnect, sweep),
a key that holds a `connected` entry at one step holds no `waiting_for_auth`
entry at any later step: every waiting entry is under a key that starts with
`temp_`, every connected entry is under a generated session id, which does
not start with `temp_`, and which has 16 upper-case hexadecimal characters
when 8 random bytes were drawn. -/
theorem connected_key_never_waiting :
    (∀ (ops later : List RegistryOp) (key : String) (e1 e2 : SessionEntry),
        JsMap.get (RegistryState.run ops).activeSessions key = some e1 →
        e1.status = .connected →
        JsMap.get (RegistryState.run (ops ++ later)).activeSessions key = some e2 →
        e2.status ≠ .waiting_for_auth)
      ∧ (∀ (ops : List RegistryOp) (key : String) (e : SessionEntry),
          JsMap.get (RegistryState.run ops).activeSessions key = some e →
          e.status = .waiting_for_auth →
          key = tempKey e.userId e.phoneNumber ∧ startsWith key "temp_" = true)
      ∧ (∀ (ops : List RegistryOp) (key : String) (e : SessionEntry),
          JsMap.get (RegistryState.run ops).activeSessions key = some e →
          e.status = .connected →
          (∃ bytes, key = newSessionId bytes) ∧ startsWith key "temp_" = false)
      ∧ (∀ (ops : List RegistryOp) (key : String) (e : SessionEntry),
          (∀ op ∈ ops, ∀ bytes, op.randomBytes = some bytes → bytes.length = 8) →
          JsMap.get (RegistryState.run ops).activeSessions key = some e →
          e.status = .connected →
          key.length = 16 ∧ ∀ c ∈ key.data, isUpperHex c = true) := by
  have hwait : ∀ (ops : List RegistryOp) (key : String) (e : SessionEntry),
      JsMap.get (RegistryState.run ops).activeSessions key = some e →
      e.status = .waiting_for_auth →
      key = tempKey e.userId e.phoneNumber ∧ startsWith key "temp_" = true := by
    intro ops key e hget hst
    have hinv := keyInv_run (fun _ => True) ops (fun _ _ _ _ => trivial)
    rcases hinv (key, e) (JsMap.mem_of_get _ key e hget) with ⟨_, hk⟩ | ⟨hc, _⟩
    · refine ⟨hk, ?_⟩
      have hk2 : key = tempKey e.userId e.phoneNumber := hk
      rw [hk2]
      exact startsWith_tempKey _ _
    · rw [hst] at hc
      cases hc
  have hconn : ∀ (ops : List RegistryOp) (key : String) (e : SessionEntry),
      JsMap.get (RegistryState.run ops).activeSessions key = some e →
      e.status = .connected →
      (∃ bytes, key = newSessionId bytes) ∧ startsWith key "temp_" = false := by
    intro ops key e hget hst
    have hinv := keyInv_run (fun _ => True) ops (fun _ _ _ _ => trivial)
    rcases hinv (key, e) (JsMap.mem_of_get _ key e hget) with ⟨hw, _⟩ | ⟨_, bytes, _, hk⟩
    · rw [hst] at hw
      cases hw
    · have hk2 : key = newSessionId bytes := hk
      refine ⟨⟨bytes, hk2⟩, ?_⟩
      rw [hk2]
      exact startsWith_newSessionId bytes
  refine ⟨?_, hwait, hconn, ?_⟩
  · intro ops later key e1 e2 h1 hc h2 hw
    have ht := (hwait (ops ++ later) key e2 h2 hw).2
    have hf := (hconn ops key e1 h1 hc).2
    rw [ht] at hf
    cases hf
  · intro ops key e hbytes hget hst
    have hinv := keyInv_run (fun bytes => bytes.length = 8) ops hbytes
    rcases hinv (key, e) (JsMap.mem_of_get _ key e hget) with ⟨hw, _⟩ | ⟨_, bytes, hlen, hk⟩
    · rw [hst] at hw
      cases hw
    · have hk2 : key = newSessionId bytes := hk
      have hlen2 : bytes.length = 8 := hlen
      subst hk2
      constructor
      · show (sessionIdChars bytes).length = 16
        rw [sessionIdChars_length, hlen2]
      · exact sessionIdChars_isUpperHex bytes

theorem connected_key_never_waiting_witness :
    JsMap.get (RegistryState.run
        [.startAttempt 7 "15551234567",
         .codeIssued 7 "15551234567" 1 "auth_7_1000" 1000,
         .connectionOpen 1 [161, 178, 195, 212, 229, 246, 7, 24] "15551234567" 7
           "auth_7_1000" (.returned true) 2000]).activeSessions "A1B2C3D4E5F60718"
      = some ⟨7, "15551234567", 2000, .connected, 1, "auth_7_1000", some true⟩
    ∧ "A1B2C3D4E5F60718".length = 16
    ∧ (∀ c ∈ "A1B2C3D4E5F60718".data, isUpperHex c = true)
    ∧ startsWith "A1B2C3D4E5F60718" "temp_" = false :=
  ⟨by decide,
   (connected_key_never_waiting.2.2.2
      [.startAttempt 7 "15551234567",
       .codeIssued 7 "15551234567" 1 "auth_7_1000" 1000,
       .connectionOpen 1 [161, 178, 195, 212, 229, 246, 7, 24] "15551234567" 7
         "auth_7_1000" (.returned true) 2000]
      "A1B2C3D4E5F60718"
      ⟨7, "15551234567", 2000, .connected, 1, "auth_7_1000", some true⟩
      (by
        intro op hop bytes hb
        simp only [List.mem_cons, List.mem_singleton, List.not_mem_nil, or_false] at hop
        rcases hop with h | h | h <;> subst h <;> simp [RegistryOp.randomBytes] at hb
        subst hb
        rfl)
      (by decide) rfl).1,
   (connected_key_never_waiting.2.2.2
      [.startAttempt 7 "15551234567",
       .codeIssued 7 "15551234567" 1 "auth_7_1000" 1000,
       .connectionOpen 1 [161, 178, 195, 212, 229, 246, 7, 24] "15551234567" 7
         "auth_7_1000" (.returned true) 2000]
      "A1B2C3D4E5F60718"
      ⟨7, "15551234567", 2000, .connected, 1, "auth_7_1000", some true⟩
      (by
        intro op hop bytes hb
        simp only [List.mem_cons, List.mem_singleton, List.not_mem_nil, or_false] at hop
        rcases hop with h | h | h <;> subst h <;> simp [RegistryOp.randomBytes] at hb
        subst hb
        rfl)
      (by decide) rfl).2,
   by decide⟩


/-! ## Saving the same session twice: the pull refused over edits of tracked files -/

theorem JsMap.get_append {κ ν : Type} [DecidableEq κ] (a b : JsMap κ ν) (p : κ) :
    JsMap.get (a ++ b) p
      = match JsMap.get a p with
        | some c => some c
        | none => JsMap.get b p := by
  induction a with
  | nil => rfl
  | cons e a ih =>
    obtain ⟨k1, v1⟩ := e
    by_cases hk : k1 = p
    · simp [JsMap.get, hk]
    · simp only [List.cons_append, JsMap.get, if_neg hk]
      exact ih

theorem JsMap.get_filter_key {κ ν : Type} [DecidableEq κ] (m : JsMap κ ν) (q : κ → Bool)
    (p : κ) :
    JsMap.get (m.filter (fun f => q f.1)) p = if q p = true then JsMap.get m p else none := by
  induction m with
  | nil => simp [JsMap.get]
  | cons e m ih =>
    obtain ⟨k1, v1⟩ := e
    by_cases hq : q k1 = true
    · rw [List.filter_cons_of_pos (by simpa using hq)]
      by_cases hk : k1 = p
      · subst hk
        simp [JsMap.get, hq]
      · simp only [JsMap.get, if_neg hk]
        exact ih
    · rw [List.filter_cons_of_neg (by simpa using hq)]
      by_cases hk : k1 = p
      · subst hk
        rw [ih, if_neg hq, if_neg hq]
      · simp only [JsMap.get, if_neg hk]
        exact ih

/-- What `git reset --hard origin/main` leaves under each path. -/
theorem resetHard_work_get (r : Repo) (p : String) :
    JsMap.get r.resetHard.work p
      = match JsMap.get r.remote p with
        | some c => some c
        | none => if (JsMap.get r.staged p).isNone = true then JsMap.get r.work p else none := by
  unfold Repo.resetHard
  dsimp only
  rw [JsMap.get_append]
  cases hr : JsMap.get r.remote p with
  | some c => rfl
  | none =>
    dsimp only
    rw [JsMap.get_filter_key r.work
      (fun k => (JsMap.get r.remote k).isNone && (JsMap.get r.staged k).isNone) p]
    simp [hr]

theorem Files.get_of_same (a b : Files) (h : Files.same a b = true) (p : String) :
    JsMap.get a p = JsMap.get b p := by
  unfold Files.same at h
  rw [List.all_eq_true] at h
  by_cases hp : p ∈ a.map Prod.fst ++ b.map Prod.fst
  · simpa using h p hp
  · rw [List.mem_append, not_or] at hp
    rw [JsMap.get_eq_none_of_not_mem a p hp.1, JsMap.get_eq_none_of_not_mem b p hp.2]

theorem Files.same_eq_false (a b : Files) (p : String) (h : JsMap.get a p ≠ JsMap.get b p) :
    Files.same a b = false := by
  cases hs : Files.same a b with
  | false => rfl
  | true => exact absurd (Files.get_of_same a b hs p) h

/-- On a clean work tree every tracked path holds what the index holds. -/
theorem dirty_false_get (r : Repo) (h : r.dirty = false) (p : String)
    (hp : (JsMap.get r.staged p).isSome = true) : JsMap.get r.work p = JsMap.get r.staged p := by
  unfold Repo.dirty at h
  rw [Bool.or_eq_false_iff] at h
  have h1 := h.1
  rw [List.any_eq_false] at h1
  obtain ⟨c, hc⟩ := Option.isSome_iff_exists.mp hp
  have hmem := JsMap.mem_of_get r.staged p c hc
  simpa using h1 (p, c) hmem


/-- `pushToGitHub` when every command succeeds that git does not refuse: the
pull is refused exactly on an unclean work tree, and then the hard reset
runs. -/
theorem pushToGitHub_allOk (msg : String) (r : Repo) :
    pushToGitHub allOk msg r
      = if r.dirty = true then
          (if Files.same r.resetHard.work r.resetHard.head = true then
            some { completion := .returned,
                   repo := { r.resetHard with staged := r.resetHard.work },
                   trace := [.pullRebase, .fetch, .resetHard, .addAll, .diffStaged] }
          else
            some { completion := .returned,
                   repo := { r.resetHard with staged := r.resetHard.work,
                                              head := r.resetHard.work,
                                              remote := r.resetHard.work,
                                              commits := r.resetHard.commits ++ [msg] },
                   trace := [.pullRebase, .fetch, .resetHard, .addAll, .diffStaged, .commit,
                             .push] })
        else
          (if Files.same r.work r.head = true then
            some { completion := .returned, repo := { r with staged := r.work },
                   trace := [.pullRebase, .addAll, .diffStaged] }
          else
            some { completion := .returned,
                   repo := { r with staged := r.work, head := r.work, remote := r.work,
                                    commits := r.commits ++ [msg] },
                   trace := [.pullRebase, .addAll, .diffStaged, .commit, .push] }) := by
  unfold pushToGitHub pullRebase
  by_cases hd : r.dirty = true
  · rw [if_pos hd, if_pos hd]
    simp only [allOk]
    unfold stageCommitPush
    simp only [allOk]
    split
    · rfl
    · rw [pushLoop_allOk]
      rfl
  · rw [if_neg hd, if_neg hd]
    simp only [allOk]
    unfold stageCommitPush
    simp only [allOk]
    split
    · rfl
    · rw [pushLoop_allOk]
      rfl


theorem pushToGitHub_allOk_sync (msg : String) (r : Repo) :
    pushToGitHub allOk msg r
      = if Files.same r.afterSync.work r.afterSync.head = true then
          some { completion := .returned,
                 repo := { r.afterSync with staged := r.afterSync.work },
                 trace := syncTrace r ++ [.addAll, .diffStaged] }
        else
          some { completion := .returned,
                 repo := { r.afterSync with staged := r.afterSync.work,
                                            head := r.afterSync.work,
                                            remote := r.afterSync.work,
                                            commits := r.afterSync.commits ++ [msg] },
                 trace := syncTrace r ++ [.addAll, .diffStaged, .commit, .push] } := by
  rw [pushToGitHub_allOk]
  unfold Repo.afterSync syncTrace
  by_cases hd : r.dirty = true
  · simp only [if_pos hd]
    rfl
  · simp only [if_neg hd]
    rfl

theorem afterSync_cloned (r : Repo) : r.afterSync.cloned = r.cloned := by
  unfold Repo.afterSync
  split <;> rfl

theorem afterSync_commits (r : Repo) : r.afterSync.commits = r.commits := by
  unfold Repo.afterSync
  split <;> rfl

theorem afterSync_head (r : Repo) (h : r.head = r.remote) : r.afterSync.head = r.remote := by
  unfold Repo.afterSync
  split
  · rfl
  · exact h

/-- What the synchronisation leaves under each path of a clone whose index is
the tip of `origin/main`: a tracked file holds the content of the tip, an
untracked file stays. -/
theorem afterSync_work_get (r : Repo) (h : r.staged = r.remote) (p : String) :
    JsMap.get r.afterSync.work p
      = if r.dirty = true then
          (match JsMap.get r.remote p with
           | some c => some c
           | none => JsMap.get r.work p)
        else JsMap.get r.work p := by
  unfold Repo.afterSync
  by_cases hd : r.dirty = true
  · rw [if_pos hd, if_pos hd, resetHard_work_get, h]
    cases hr : JsMap.get r.remote p with
    | some c => rfl
    | none => simp
  · rw [if_neg hd, if_neg hd]

theorem syncTrace_cases (r : Repo) :
    syncTrace r = [.pullRebase] ∨ syncTrace r = [.pullRebase, .fetch, .resetHard] := by
  unfold syncTrace
  split
  · exact Or.inr rfl
  · exact Or.inl rfl


/-- A call of `saveSession` on a clone whose index, `HEAD` and `origin/main`
all hold the working copy, when the call writes under no path that the
working copy lacks: no commit, no push, and the working copy is left as it
was. -/
theorem saveSession_rewrite_no_commit (r1 : Repo) (sessionId phoneNumber : String)
    (authFiles : List DirEntry) (userId : Int) (iso4 iso5 iso6 : String) (work2 : Files) (n : Nat)
    (hcloned : r1.cloned = true) (hstaged : r1.staged = r1.work) (hhead : r1.head = r1.work)
    (hremote : r1.remote = r1.work)
    (hwrite2 : writeSession r1.work sessionId phoneNumber (some authFiles) userId iso4 iso5 iso6
      = (work2, some n))
    (hG : ∀ p : String, JsMap.get r1.work p = none → JsMap.get work2 p = none) :
    ∃ (r2 : Repo) (trace2 : List GitCmd),
      saveSession allOk r1 sessionId phoneNumber (some authFiles) userId iso4 iso5 iso6
          = some ({ success := true, filesStored := some n }, r2, trace2)
        ∧ r2.commits = r1.commits
        ∧ (trace2 = [.pullRebase, .addAll, .diffStaged]
            ∨ trace2 = [.pullRebase, .fetch, .resetHard, .addAll, .diffStaged])
        ∧ (∀ p : String, JsMap.get r2.work p = JsMap.get r1.work p)
        ∧ r2.head = r1.head ∧ r2.remote = r1.remote := by
  generalize hrB : ({ r1 with work := work2 } : Repo) = rB
  have hBwork : rB.work = work2 := by rw [← hrB]
  have hBstaged : rB.staged = r1.work := by rw [← hrB]; exact hstaged
  have hBhead : rB.head = r1.work := by rw [← hrB]; exact hhead
  have hBremote : rB.remote = r1.work := by rw [← hrB]; exact hremote
  have hBcommits : rB.commits = r1.commits := by rw [← hrB]
  have hs2 : ∀ p : String, JsMap.get rB.afterSync.work p = JsMap.get r1.work p := by
    intro p
    rw [afterSync_work_get rB (by rw [hBstaged, hBremote]) p, hBremote, hBwork]
    by_cases hd : rB.dirty = true
    · rw [if_pos hd]
      cases hr : JsMap.get r1.work p with
      | some c => rfl
      | none => exact hG p hr
    · rw [if_neg hd]
      cases hr : JsMap.get r1.work p with
      | some c =>
        have hdf : rB.dirty = false := by simpa using hd
        have := dirty_false_get rB hdf p (by rw [hBstaged, hr]; rfl)
        rw [hBwork, hBstaged, hr] at this
        exact this
      | none => exact hG p hr
  have hBhead2 : rB.afterSync.head = r1.work := by
    rw [afterSync_head rB (by rw [hBhead, hBremote]), hBremote]
  have hBremote2 : rB.afterSync.remote = r1.work := by
    unfold Repo.afterSync
    split
    · exact hBremote
    · exact hBremote
  have hsame2 : Files.same rB.afterSync.work rB.afterSync.head = true := by
    apply Files.same_of_get
    intro p
    rw [hBhead2]
    exact hs2 p
  refine ⟨{ rB.afterSync with staged := rB.afterSync.work },
    syncTrace rB ++ [.addAll, .diffStaged], ?_, ?_, ?_, hs2, ?_, ?_⟩
  · unfold saveSession
    rw [if_neg (by simp [hcloned]), hwrite2]
    simp only [hrB, pushToGitHub_allOk_sync]
    rw [if_pos hsame2]
    rfl
  · show rB.afterSync.commits = r1.commits
    rw [afterSync_commits, hBcommits]
  · rcases syncTrace_cases rB with h | h
    · left
      rw [h]
      rfl
    · right
      rw [h]
      rfl
  · show rB.afterSync.head = r1.head
    rw [hBhead2, hhead]
  · show rB.afterSync.remote = r1.remote
    rw [hBremote2, hremote]


/-- C16 (amended). A session that the archive does not hold yet is saved
twice with identical arguments and an unchanged credential directory, into a
clean clone in step with `origin/main`, with no remote change; every git
command succeeds except a rebase pull that git refuses over edits of tracked
files.  The first call makes exactly one commit.  The second call, whatever
its clock readings, returns `success: true` without a new commit and without
a push, and leaves the working copy, `HEAD` and `origin/main` as the first
call left them.  When the first pull was not refused and the clock readings
are the same, the files the second call writes hold under every path what the
first call left. -/
theorem saveSession_twice_no_second_commit (r0 : Repo) (sessionId phoneNumber : String)
    (authFiles : List DirEntry) (userId : Int) (iso1 iso2 iso3 iso4 iso5 iso6 : String)
    (work1 : Files) (n : Nat)
    (hcloned : r0.cloned = true) (hclean : r0.dirty = false)
    (hstaged : r0.staged = r0.remote) (hhead : r0.head = r0.remote)
    (hwrite : writeSession r0.work sessionId phoneNumber (some authFiles) userId iso1 iso2 iso3
      = (work1, some n))
    (hnew : JsMap.get r0.remote (sessionFilePath sessionId "metadata.json") = none) :
    ∃ (r1 r2 : Repo) (trace1 trace2 : List GitCmd),
      saveSession allOk r0 sessionId phoneNumber (some authFiles) userId iso1 iso2 iso3
          = some ({ success := true, filesStored := some n }, r1, trace1)
        ∧ r1.commits = r0.commits ++ ["Add session " ++ sessionId]
        ∧ (trace1 = [.pullRebase, .addAll, .diffStaged, .commit, .push]
            ∨ trace1 = [.pullRebase, .fetch, .resetHard, .addAll, .diffStaged, .commit, .push])
        ∧ saveSession allOk r1 sessionId phoneNumber (some authFiles) userId iso4 iso5 iso6
            = some ({ success := true, filesStored := some n }, r2, trace2)
        ∧ r2.commits = r1.commits
        ∧ (trace2 = [.pullRebase, .addAll, .diffStaged]
            ∨ trace2 = [.pullRebase, .fetch, .resetHard, .addAll, .diffStaged])
        ∧ (∀ p : String, JsMap.get r2.work p = JsMap.get r1.work p)
        ∧ r2.head = r1.head ∧ r2.remote = r1.remote
        ∧ (({ r0 with work := work1 } : Repo).dirty = false →
            iso4 = iso1 → iso5 = iso2 → iso6 = iso3 →
            ∀ p : String,
              JsMap.get (writeSession r1.work sessionId phoneNumber (some authFiles) userId
                iso4 iso5 iso6).1 p = JsMap.get r1.work p) := by
  obtain ⟨old, hold, hn, hget1⟩ := writeSession_get r0.work work1 sessionId phoneNumber authFiles
    userId iso1 iso2 iso3 n hwrite
  have hmi : sessionFilePath sessionId "metadata.json" ≠ indexPath :=
    sessionFilePath_ne_indexPath _ _
  have hw1 : JsMap.get work1 indexPath
      = some (.index (updateIndex old sessionId phoneNumber userId iso1 n iso3)) := by
    rw [hget1 indexPath, if_pos rfl]
  -- the first call
  generalize hrA : ({ r0 with work := work1 } : Repo) = rA
  have hAwork : rA.work = work1 := by rw [← hrA]
  have hAstaged : rA.staged = rA.remote := by rw [← hrA]; exact hstaged
  have hAhead : rA.head = rA.remote := by rw [← hrA]; exact hhead
  have hAremote : rA.remote = r0.remote := by rw [← hrA]
  have hAcommits : rA.commits = r0.commits := by rw [← hrA]
  have hAcloned : rA.cloned = true := by rw [← hrA]; exact hcloned
  have hW : ∀ p : String, JsMap.get rA.afterSync.work p
      = if rA.dirty = true then
          (match JsMap.get r0.remote p with
           | some c => some c
           | none => JsMap.get work1 p)
        else JsMap.get work1 p := by
    intro p
    rw [afterSync_work_get rA hAstaged p, hAremote, hAwork]
  have hF : ∀ p : String, JsMap.get rA.afterSync.work p = none → JsMap.get work1 p = none := by
    intro p hp
    rw [hW p] at hp
    by_cases hd : rA.dirty = true
    · rw [if_pos hd] at hp
      cases hr : JsMap.get r0.remote p with
      | some c => rw [hr] at hp; cases hp
      | none => rw [hr] at hp; exact hp
    · rw [if_neg hd] at hp
      exact hp
  have hmeta1 : (JsMap.get work1 (sessionFilePath sessionId "metadata.json")).isSome = true := by
    rw [hget1, if_neg hmi, if_pos rfl]
    rfl
  have hWmeta : (JsMap.get rA.afterSync.work
      (sessionFilePath sessionId "metadata.json")).isSome = true := by
    cases hx : JsMap.get rA.afterSync.work (sessionFilePath sessionId "metadata.json") with
    | some c => rfl
    | none =>
      rw [hF _ hx] at hmeta1
      cases hmeta1
  have hAhead2 : rA.afterSync.head = r0.remote := by
    rw [afterSync_head rA hAhead, hAremote]
  have hdiff1 : Files.same rA.afterSync.work rA.afterSync.head = false := by
    apply Files.same_eq_false _ _ (sessionFilePath sessionId "metadata.json")
    rw [hAhead2, hnew]
    intro hx
    rw [hx] at hWmeta
    cases hWmeta
  have hWindex : ∃ x : ArchiveIndex,
      JsMap.get rA.afterSync.work indexPath = some (.index x) := by
    rw [hW indexPath]
    by_cases hd : rA.dirty = true
    · rw [if_pos hd]
      cases hr : JsMap.get r0.remote indexPath with
      | some c =>
        have hs : (JsMap.get r0.staged indexPath).isSome = true := by
          rw [hstaged, hr]
          rfl
        have hc := dirty_false_get r0 hclean indexPath hs
        rw [hstaged, hr, hold] at hc
        exact ⟨old, hc.symm⟩
      | none => exact ⟨_, hw1⟩
    · rw [if_neg hd]
      exact ⟨_, hw1⟩
  obtain ⟨x, hx⟩ := hWindex
  -- the second call
  obtain ⟨work2, hwrite2⟩ := writeSession_some rA.afterSync.work sessionId phoneNumber authFiles
    userId iso4 iso5 iso6 x hx
  rw [← hn] at hwrite2
  obtain ⟨old2, hold2, _, hget2⟩ := writeSession_get rA.afterSync.work work2 sessionId
    phoneNumber authFiles userId iso4 iso5 iso6 n hwrite2
  have hG : ∀ p : String, JsMap.get rA.afterSync.work p = none → JsMap.get work2 p = none := by
    intro p hp
    have h1 := hget1 p
    rw [hF p hp] at h1
    rw [hget2 p]
    by_cases hpi : p = indexPath
    · rw [if_pos hpi] at h1
      cases h1
    · rw [if_neg hpi] at h1 ⊢
      by_cases hpm : p = sessionFilePath sessionId "metadata.json"
      · rw [if_pos hpm] at h1
        cases h1
      · rw [if_neg hpm] at h1 ⊢
        cases hc : copyLast sessionId authFiles p with
        | some c =>
          rw [hc] at h1
          cases h1
        | none => exact hp
  obtain ⟨r2, trace2, hsave2, hcommits2, htrace2, hwork2, hhead2, hremote2⟩ :=
    saveSession_rewrite_no_commit
      { rA.afterSync with staged := rA.afterSync.work, head := rA.afterSync.work,
                          remote := rA.afterSync.work,
                          commits := rA.afterSync.commits ++ ["Add session " ++ sessionId] }
      sessionId phoneNumber authFiles userId iso4 iso5 iso6 work2 n
      (by rw [← hAcloned]; exact afterSync_cloned rA) rfl rfl rfl hwrite2 hG
  refine ⟨_, r2, syncTrace rA ++ [.addAll, .diffStaged, .commit, .push], trace2,
    ?_, ?_, ?_, hsave2, hcommits2, htrace2, hwork2, hhead2, hremote2, ?_⟩
  · unfold saveSession
    rw [if_neg (by simp [hcloned]), hwrite]
    simp only [hrA, pushToGitHub_allOk_sync]
    rw [if_neg (by simp [hdiff1])]
    rfl
  · show rA.afterSync.commits ++ ["Add session " ++ sessionId]
      = r0.commits ++ ["Add session " ++ sessionId]
    rw [afterSync_commits, hAcommits]
  · rcases syncTrace_cases rA with h | h
    · left
      rw [h]
      rfl
    · right
      rw [h]
      rfl
  · intro hd h4 h5 h6 p
    subst h4 h5 h6
    show JsMap.get (writeSession rA.afterSync.work sessionId phoneNumber (some authFiles) userId
      iso4 iso5 iso6).1 p = JsMap.get rA.afterSync.work p
    rw [hwrite2]
    have hWs : rA.afterSync.work = work1 := by
      unfold Repo.afterSync
      rw [if_neg (by simp [hd])]
      exact hAwork
    rw [hWs] at hold2 ⊢
    have hold2' : old2 = updateIndex old sessionId phoneNumber userId iso4 n iso6 := by
      rw [hw1] at hold2
      simp only [Option.some.injEq, FileContent.index.injEq] at hold2
      exact hold2.symm
    have h1 := hget1 p
    show JsMap.get work2 p = JsMap.get work1 p
    rw [hget2 p, hold2', updateIndex_idem]
    by_cases hp : p = indexPath
    · rw [if_pos hp] at h1 ⊢
      exact h1.symm
    · rw [if_neg hp] at h1 ⊢
      by_cases hm : p = sessionFilePath sessionId "metadata.json"
      · rw [if_pos hm] at h1 ⊢
        exact h1.symm
      · rw [if_neg hm] at h1 ⊢
        cases hc : copyLast sessionId authFiles p with
        | some c =>
          rw [hc] at h1
          exact h1.symm
        | none =>
          dsimp only
          rw [hWs]


/-- C16 (counterexample). The same session is saved twice, five minutes
apart, into a clean clone whose index document is not tracked yet.  The first
call commits once.  The `metadata.json` and `index.json` that the second call
writes differ from what the first call left (they carry the new clock
strings), so the second call does not write identical files; git refuses its
rebase pull over these edits of tracked files, the hard reset discards them,
and only then is the staged diff empty: `success: true`, no new commit, and
the working copy holds the first call's `metadata.json` again. -/
theorem saveSession_twice_rewrite_discarded :
    ((saveSession allOk freshRepoExample "ABCDEF0123456789" "2348123456789"
        (some [⟨"creds.json", true, "e30="⟩]) 42 "2025-01-02T00:00:00.000Z"
        "2025-01-02T00:00:00.001Z" "2025-01-02T00:00:00.002Z").bind
        (fun x =>
          (saveSession allOk x.2.1 "ABCDEF0123456789" "2348123456789"
            (some [⟨"creds.json", true, "e30="⟩]) 42 "2025-01-02T00:05:00.000Z"
            "2025-01-02T00:05:00.001Z" "2025-01-02T00:05:00.002Z").map
            (fun y => (x.2.2, x.2.1.commits, y.1.success, y.2.2, y.2.1.commits))))
      = some ([.pullRebase, .addAll, .diffStaged, .commit, .push],
          ["Add session ABCDEF0123456789"], true,
          [.pullRebase, .fetch, .resetHard, .addAll, .diffStaged],
          ["Add session ABCDEF0123456789"])
      ∧ ((saveSession allOk freshRepoExample "ABCDEF0123456789" "2348123456789"
          (some [⟨"creds.json", true, "e30="⟩]) 42 "2025-01-02T00:00:00.000Z"
          "2025-01-02T00:00:00.001Z" "2025-01-02T00:00:00.002Z").map
          (fun x => decide
            (JsMap.get (writeSession x.2.1.work "ABCDEF0123456789" "2348123456789"
                (some [⟨"creds.json", true, "e30="⟩]) 42 "2025-01-02T00:05:00.000Z"
                "2025-01-02T00:05:00.001Z" "2025-01-02T00:05:00.002Z").1
                (sessionFilePath "ABCDEF0123456789" "metadata.json")
              = JsMap.get x.2.1.work (sessionFilePath "ABCDEF0123456789" "metadata.json"))))
        = some false
      ∧ ((saveSession allOk freshRepoExample "ABCDEF0123456789" "2348123456789"
          (some [⟨"creds.json", true, "e30="⟩]) 42 "2025-01-02T00:00:00.000Z"
          "2025-01-02T00:00:00.001Z" "2025-01-02T00:00:00.002Z").map
          (fun x => decide
            (JsMap.get (writeSession x.2.1.work "ABCDEF0123456789" "2348123456789"
                (some [⟨"creds.json", true, "e30="⟩]) 42 "2025-01-02T00:05:00.000Z"
                "2025-01-02T00:05:00.001Z" "2025-01-02T00:05:00.002Z").1 indexPath
              = JsMap.get x.2.1.work indexPath)))
        = some false
      ∧ ((saveSession allOk freshRepoExample "ABCDEF0123456789" "2348123456789"
          (some [⟨"creds.json", true, "e30="⟩]) 42 "2025-01-02T00:00:00.000Z"
          "2025-01-02T00:00:00.001Z" "2025-01-02T00:00:00.002Z").bind
          (fun x =>
            (saveSession allOk x.2.1 "ABCDEF0123456789" "2348123456789"
              (some [⟨"creds.json", true, "e30="⟩]) 42 "2025-01-02T00:05:00.000Z"
              "2025-01-02T00:05:00.001Z" "2025-01-02T00:05:00.002Z").map
              (fun y => decide (y.2.1.work = x.2.1.work))))
        = some true := by
  refine ⟨by decide, by decide, by decide, by decide⟩

/-- C16 witness: a session is saved twice, five minutes apart, into the clean
example clone that tracks the index document; the first call commits once
after the reset, the second makes no commit. -/
theorem saveSession_twice_no_second_commit_witness :
    ∃ (r1 r2 : Repo) (trace1 trace2 : List GitCmd),
      saveSession allOk cleanRepoExample "ABCDEF0123456789" "2348123456789"
          (some [⟨"creds.json", true, "e30="⟩]) 42 "2025-01-02T00:00:00.000Z"
          "2025-01-02T00:00:00.001Z" "2025-01-02T00:00:00.002Z"
          = some ({ success := true, filesStored := some 1 }, r1, trace1)
        ∧ r1.commits = ["Add session ABCDEF0123456789"]
        ∧ saveSession allOk r1 "ABCDEF0123456789" "2348123456789"
            (some [⟨"creds.json", true, "e30="⟩]) 42 "2025-01-02T00:05:00.000Z"
            "2025-01-02T00:05:00.001Z" "2025-01-02T00:05:00.002Z"
            = some ({ success := true, filesStored := some 1 }, r2, trace2)
        ∧ r2.commits = ["Add session ABCDEF0123456789"] := by
  obtain ⟨r1, r2, trace1, trace2, h1, h2, _, h3, h4, _⟩ := saveSession_twice_no_second_commit
    cleanRepoExample "ABCDEF0123456789" "2348123456789" [⟨"creds.json", true, "e30="⟩] 42
    "2025-01-02T00:00:00.000Z" "2025-01-02T00:00:00.001Z" "2025-01-02T00:00:00.002Z"
    "2025-01-02T00:05:00.000Z" "2025-01-02T00:05:00.001Z" "2025-01-02T00:05:00.002Z"
    (writeSession cleanRepoExample.work "ABCDEF0123456789" "2348123456789"
      (some [⟨"creds.json", true, "e30="⟩]) 42 "2025-01-02T00:00:00.000Z"
      "2025-01-02T00:00:00.001Z" "2025-01-02T00:00:00.002Z").1
    1 (by decide) (by decide) (by decide) (by decide) (by decide) (by decide)
  refine ⟨r1, r2, trace1, trace2, h1, ?_, h3, ?_⟩
  · rw [h2]
    rfl
  · rw [h4, h2]
    rfl

end PairServer
